import Mathlib

/-!
Log-forwarding configuration compiler (`pkg/integrations/v4/logs/cfg.go`)

A shallow embedding of the Fluent Bit configuration compiler of the
infrastructure agent (namespace `Logs`) and of its cached entity ID provider
(`pkg/integrations/v4/dm/id_provider.go`, namespace `Dm`), followed by
theorems about them.

Conventions of the embedding

* Go `string` is Lean `String`; the helpers work on the character list.
* Go `int` is Lean `Int`; `strconv.Atoi` is modelled for a 64-bit `int`.
* Go `error` is `Option GoError` (`none` is `nil`); an error built by
  `fmt.Errorf` is identified with its message.
* Go `map[string]string` is an association list read through `GoMap.get`
  and written through `GoMap.set`; a `for ... range` over a map visits the
  list in order, so quantifying over all lists with distinct keys covers
  every iteration order.
* A Go pointer field (`*LogSyslogCfg`, ...) is an `Option`.
* Functions of other packages that the file calls but does not define
  (`ranger.Compile`, `license.IsRegionEU`) are fields of `External`.
* Calls to the logger are side effects without influence on any returned
  value and are left out.
-/

namespace Logs

/-! ## Go runtime and standard library helpers -/

/-- Go `error` values built by `fmt.Errorf`, identified with their message. -/
abbrev GoError := String

/-- Go `map[string]string`. -/
abbrev GoMap := List (String × String)

/-- Map read `m[k]` with the presence flag: `none` when the key is absent. -/
def GoMap.get (m : GoMap) (k : String) : Option String :=
  match m with
  | [] => none
  | (k', v) :: rest => if k' = k then some v else GoMap.get rest k

/-- Map write `m[k] = v`: the old binding of `k`, if any, is replaced. -/
def GoMap.set (m : GoMap) (k v : String) : GoMap :=
  (k, v) :: m.filter (fun kv => !decide (kv.1 = k))

/-- Keys of a map. -/
def GoMap.keys (m : GoMap) : List String := m.map Prod.fst

/-- Core of `strings.Split` for a non-empty separator, on character lists.
The first argument counts the characters of a separator occurrence that are
still to be skipped. -/
def splitL (sep : List Char) : Nat → List Char → List (List Char)
  | _, [] => [[]]
  | skip + 1, _ :: cs => splitL sep skip cs
  | 0, c :: cs =>
    if sep.isPrefixOf (c :: cs) then
      [] :: splitL sep (sep.length - 1) cs
    else
      match splitL sep 0 cs with
      | [] => [[c]]
      | p :: ps => (c :: p) :: ps

/-- Go `strings.Split(s, sep)` for a non-empty `sep`. -/
def strings_Split (s sep : String) : List String :=
  (splitL sep.data 0 s.data).map String.mk

/-- Core of `strings.Replace(s, old, new, -1)` for a non-empty `old`. -/
def replaceL (old new : List Char) : Nat → List Char → List Char
  | _, [] => []
  | skip + 1, _ :: cs => replaceL old new skip cs
  | 0, c :: cs =>
    if old.isPrefixOf (c :: cs) then
      new ++ replaceL old new (old.length - 1) cs
    else
      c :: replaceL old new 0 cs

/-- Go `strings.Replace(s, old, new, -1)` for a non-empty `old`. -/
def strings_Replace (s old new : String) : String :=
  String.mk (replaceL old.data new.data 0 s.data)

/-- Go `strings.Join(elems, sep)`. -/
def strings_Join (elems : List String) (sep : String) : String :=
  match elems with
  | [] => ""
  | [e] => e
  | e :: rest => e ++ sep ++ strings_Join rest sep

/-- ASCII decimal digit, the class `\d` of Go regular expressions and the
digits accepted by `strconv`. -/
def isDigit (c : Char) : Bool := decide ('0' ≤ c) && decide (c ≤ '9')

/-- Value of a digit character. -/
def digitVal (c : Char) : Nat := c.toNat - 48

/-- Value of a string of decimal digits, most significant digit first. -/
def decimalVal (ds : List Char) : Nat :=
  ds.foldl (fun n c => n * 10 + digitVal c) 0

/-- The two failures of `strconv.Atoi`. -/
inductive NumError where
  | ErrSyntax
  | ErrRange
  deriving DecidableEq, Repr

/-- Largest value of a 64-bit Go `int`. -/
def maxInt : Int := 2 ^ 63 - 1

/-- Smallest value of a 64-bit Go `int`. -/
def minInt : Int := -(2 ^ 63)

/-- Largest value of a `uint64`. -/
def maxUint64 : Nat := 2 ^ 64 - 1

/-- Loop of `strconv.ParseUint` in base 10, with `n` the value read so far.
A character that is not a digit ends the scan with `0` and `ErrSyntax`; a
digit that would take the value beyond `uint64` ends it with the largest
`uint64` and `ErrRange`, whatever follows. -/
def parseUintL : Nat → List Char → Nat × Option NumError
  | n, [] => (n, none)
  | n, c :: cs =>
    if isDigit c = false then (0, some NumError.ErrSyntax)
    else if maxUint64 / 10 + 1 ≤ n then (maxUint64, some NumError.ErrRange)
    else if maxUint64 < n * 10 + digitVal c then (maxUint64, some NumError.ErrRange)
    else parseUintL (n * 10 + digitVal c) cs

/-- Go `strconv.ParseInt(s, 10, 0)` after the sign has been taken off: `neg`
tells whether the sign was `-`, and `ds` is the rest. A value outside the
`int` range is clamped and reported as `ErrRange`. -/
def parseIntL (neg : Bool) (ds : List Char) : Int × Option NumError :=
  if ds = [] then (0, some NumError.ErrSyntax)
  else
    let un := parseUintL 0 ds
    if un.2 = some NumError.ErrSyntax then (0, some NumError.ErrSyntax)
    else if neg = false ∧ 2 ^ 63 ≤ un.1 then (maxInt, some NumError.ErrRange)
    else if neg = true ∧ 2 ^ 63 < un.1 then (minInt, some NumError.ErrRange)
    else (if neg = true then -(un.1 : Int) else (un.1 : Int), none)

/-- Go `strconv.Atoi` on a character list: an optional sign followed by at
least one decimal digit. A value outside the `int` range is clamped and
reported as `ErrRange`, also when other characters follow the digits that
overflow; any other text with a character that is not a digit, and the text
without digits, give `0` and `ErrSyntax`. -/
def atoiL (s : List Char) : Int × Option NumError :=
  let neg : Bool := s.head? = some '-'
  let ds : List Char :=
    if s.head? = some '-' ∨ s.head? = some '+' then s.tail else s
  parseIntL neg ds

/-- Go `strconv.Atoi(s)`. -/
def strconv_Atoi (s : String) : Int × Option NumError := atoiL s.data

/-- Go `fmt.Sprintf("%d", n)`. -/
def fmtInt (n : Int) : String :=
  match n with
  | Int.ofNat m => Nat.repr m
  | Int.negSucc m => "-" ++ Nat.repr (m + 1)

/-- Lexical processing of `filepath.Clean` on the `/`-separated elements of a
path: `.` and empty elements are dropped, `..` removes the element before it,
is dropped at the root and is kept at the start of a relative path. The
stack holds the kept elements, last one first. -/
def cleanElems (rooted : Bool) : List (List Char) → List (List Char) → List (List Char)
  | [], stack => stack.reverse
  | e :: es, stack =>
    if e = [] ∨ e = ['.'] then cleanElems rooted es stack
    else if e = ['.', '.'] then
      match stack with
      | top :: below =>
        if top = ['.', '.'] then cleanElems rooted es (e :: stack)
        else cleanElems rooted es below
      | [] => if rooted then cleanElems rooted es [] else cleanElems rooted es [e]
    else cleanElems rooted es (e :: stack)

/-- Go `filepath.Clean` with `/` as the separator. -/
def filepath_Clean (path : String) : String :=
  if path = "" then "."
  else
    let rooted : Bool := path.data.head? = some '/'
    let elems := cleanElems rooted (splitL ['/'] 0 path.data) []
    let body := strings_Join (elems.map String.mk) "/"
    let out := if rooted then "/" ++ body else body
    if out = "" then "." else out

/-- Go `filepath.Join` with `/` as the separator: empty elements are ignored,
the rest is joined with `/` and cleaned; without a non-empty element the
result is the empty string. -/
def filepath_Join (elem : List String) : String :=
  let parts := elem.filter (fun e => decide (e ≠ ""))
  if parts = [] then "" else filepath_Clean (strings_Join parts "/")

/-! ### Regular expressions

The patterns of the file are constants. Each is written as a
`RegularExpression Char`; `regexp.MatchString` is `rmatch` on the whole
string for a pattern anchored at both ends and `rmatch` on some prefix for a
pattern anchored only at the start. -/

/-- The pattern matching exactly the given literal text. -/
def reLit : List Char → RegularExpression Char
  | [] => RegularExpression.epsilon
  | c :: cs => RegularExpression.comp (RegularExpression.char c) (reLit cs)

/-- The class `\d`. -/
def reDigit : RegularExpression Char :=
  ("0123456789".data.map RegularExpression.char).foldr RegularExpression.plus RegularExpression.zero

/-- The pattern `\d+`. -/
def reDigits : RegularExpression Char :=
  RegularExpression.comp reDigit (RegularExpression.star reDigit)

/-- The pattern `\d{1,3}`. -/
def reDigit13 : RegularExpression Char :=
  RegularExpression.comp reDigit
    (RegularExpression.plus RegularExpression.epsilon
      (RegularExpression.comp reDigit
        (RegularExpression.plus RegularExpression.epsilon reDigit)))

/-- The pattern `(\d{1,3}\.){3}\d{1,3}:\d+`. -/
def reHostPort : RegularExpression Char :=
  let octetDot := RegularExpression.comp reDigit13 (RegularExpression.char '.')
  RegularExpression.comp octetDot (RegularExpression.comp octetDot (RegularExpression.comp octetDot
    (RegularExpression.comp reDigit13 (RegularExpression.comp (RegularExpression.char ':') reDigits))))

/-- Match of a pattern anchored at both ends (`^...$`). -/
def matchWhole (r : RegularExpression Char) (s : String) : Bool :=
  r.rmatch s.data

/-- Match of a pattern anchored only at the start (`^...`): some prefix of
the string matches. -/
def matchPrefix (r : RegularExpression Char) (s : String) : Bool :=
  s.data.inits.any (fun p => r.rmatch p)

/-! ## Constants of `cfg.go` -/

def euEndpoint : String := "https://log-api.eu.newrelic.com/log/v1"
def stagingEndpoint : String := "https://staging-log-api.newrelic.com/log/v1"
def logRecordModifierSource : String := "nri-agent"
def defaultBufferMaxSize : Int := 128
def fluentBitDbName : String := "fb.db"

def fbInputTypeTail : String := "tail"
def fbInputTypeSystemd : String := "systemd"
def fbInputTypeWinlog : String := "winlog"
def fbInputTypeSyslog : String := "syslog"
def fbInputTypeTcp : String := "tcp"

def fbFilterTypeGrep : String := "grep"
def fbFilterTypeRecordModifier : String := "record_modifier"

/-- The pattern `^(tcp|udp|unix_tcp|unix_udp)://.*`. The trailing `.*` also
matches the empty string and the pattern is not anchored at the end, so it
holds exactly when a prefix matches the part before it. -/
def syslogRegex : RegularExpression Char :=
  RegularExpression.comp
    (RegularExpression.plus (reLit "tcp".data) (RegularExpression.plus (reLit "udp".data)
      (RegularExpression.plus (reLit "unix_tcp".data) (reLit "unix_udp".data))))
    (reLit "://".data)

/-- The pattern `^tcp://(\d{1,3}\.){3}\d{1,3}:\d+`. -/
def tcpRegex : RegularExpression Char :=
  RegularExpression.comp (reLit "tcp://".data) reHostPort

/-- The pattern `^(tcp|udp)://(\d{1,3}\.){3}\d{1,3}:\d+`. -/
def tcpUdpRegex : RegularExpression Char :=
  RegularExpression.comp (RegularExpression.plus (reLit "tcp".data) (reLit "udp".data))
    (RegularExpression.comp (reLit "://".data) reHostPort)

/-- The pattern `^unix_(udp|tcp):///.*`, the trailing `.*` left out as in
`syslogRegex`. -/
def unixSocketRegex : RegularExpression Char :=
  RegularExpression.comp (reLit "unix_".data)
    (RegularExpression.comp (RegularExpression.plus (reLit "udp".data) (reLit "tcp".data))
      (reLit ":///".data))

/-- The pattern `^(\d+-\d+)$`. -/
def eventIdRangeRegex : RegularExpression Char :=
  RegularExpression.comp reDigits (RegularExpression.comp (RegularExpression.char '-') reDigits)

def rAttEntityGUID : String := "entity.guid.INFRA"
def rAttFbInput : String := "fb.input"
def rAttPluginType : String := "plugin.type"
def rAttHostname : String := "hostname"

def fbGrepFieldForTail : String := "log"
def fbGrepFieldForSystemd : String := "MESSAGE"
def fbGrepFieldForSyslog : String := "message"
def fbGrepFieldForTcpPlain : String := "log"
def fbGrepFieldForWinlogEventId : String := "EventID"

/-! ## Data model -/

/-- Syslog part of a logging block. -/
structure LogSyslogCfg where
  URI : String := ""
  Parser : String := ""
  UnixPermissions : String := ""
  deriving DecidableEq, Repr

/-- Winlog part of a logging block. -/
structure LogWinlogCfg where
  Channel : String := ""
  CollectEventIds : List String := []
  ExcludeEventIds : List String := []
  deriving DecidableEq, Repr

/-- Tcp part of a logging block. -/
structure LogTcpCfg where
  Uri : String := ""
  Format : String := ""
  Separator : String := ""
  deriving DecidableEq, Repr

/-- External Fluent Bit configuration declared by a logging block. -/
structure LogExternalFBCfg where
  CfgPath : String := ""
  ParsersPath : String := ""
  deriving DecidableEq, Repr

/-- One logging block of the user's YAML (`LogCfg`). -/
structure LogCfg where
  Name : String := ""
  File : String := ""
  MaxLineKb : Int := 0
  Folder : String := ""
  Systemd : String := ""
  EventLog : String := ""
  Pattern : String := ""
  Attributes : GoMap := []
  Syslog : Option LogSyslogCfg := none
  Tcp : Option LogTcpCfg := none
  Fluentbit : Option LogExternalFBCfg := none
  Winlog : Option LogWinlogCfg := none
  deriving DecidableEq, Repr

/-- Fluent Bit `[INPUT]` block (`FBCfgInput`). -/
structure FBCfgInput where
  Name : String := ""
  Tag : String := ""
  DB : String := ""
  Path : String := ""
  BufferMaxSize : String := ""
  SkipLongLines : String := ""
  Systemd_Filter : String := ""
  Channels : String := ""
  SyslogMode : String := ""
  SyslogListen : String := ""
  SyslogPort : Int := 0
  SyslogParser : String := ""
  SyslogUnixPath : String := ""
  SyslogUnixPermissions : String := ""
  BufferChunkSize : String := ""
  TcpListen : String := ""
  TcpPort : Int := 0
  TcpFormat : String := ""
  TcpSeparator : String := ""
  TcpBufferSize : Int := 0
  deriving DecidableEq, Repr

/-- Fluent Bit `[FILTER]` block (`FBCfgParser`). -/
structure FBCfgParser where
  Name : String := ""
  Match : String := ""
  RegexInclude : String := ""
  RegexExclude : String := ""
  Records : GoMap := []
  deriving DecidableEq, Repr

/-- Fluent Bit `[OUTPUT]` block (`FBCfgOutput`). -/
structure FBCfgOutput where
  Name : String := ""
  Match : String := ""
  LicenseKey : String := ""
  Endpoint : String := ""
  IgnoreSystemProxy : Bool := false
  Proxy : String := ""
  CABundleFile : String := ""
  CABundleDir : String := ""
  ValidateCerts : Bool := false
  deriving DecidableEq, Repr

/-- Pair of native Fluent Bit configuration files (`FBCfgExternal`). -/
structure FBCfgExternal where
  CfgFilePath : String := ""
  ParsersFilePath : String := ""
  deriving DecidableEq, Repr

/-- Generated Fluent Bit configuration (`FBCfg`). -/
structure FBCfg where
  Inputs : List FBCfgInput := []
  Parsers : List FBCfgParser := []
  ExternalCfg : FBCfgExternal := {}
  Output : FBCfgOutput := {}
  deriving DecidableEq, Repr

/-- Modelled from the spec: the proxy part of `config.LogForward`, whose type
declaration is in package `config`; the fields are those read by
`newNROutput`. -/
structure LogForwardProxy where
  IgnoreSystemProxy : Bool := false
  Proxy : String := ""
  CABundleFile : String := ""
  CABundleDir : String := ""
  ValidateCerts : Bool := false
  deriving DecidableEq, Repr

/-- Modelled from the spec: `config.LogForward`, whose type declaration is in
package `config`; the fields are those read by `NewFBConf` and
`newNROutput`. -/
structure LogForward where
  HomeDir : String := ""
  License : String := ""
  IsStaging : Bool := false
  ProxyCfg : LogForwardProxy := {}
  deriving DecidableEq, Repr

/-- Functions of other packages called by `cfg.go`: `ranger.Compile` of the
module `simonwaldherr.de/go/ranger` and `license.IsRegionEU` of package
`license`. -/
structure External where
  ranger_Compile : Int → Int → String
  license_IsRegionEU : String → Bool

/-! ## Functions of `cfg.go`

An index expression `xs[i]` is `xs.getD i ""`: Go would stop with a run-time
error where the default is taken. -/

/-- Go `LogCfg.IsValid`. -/
def LogCfg.IsValid (l : LogCfg) : Bool :=
  decide (l.Name ≠ "") &&
    (decide (l.File ≠ "") || decide (l.Folder ≠ "") || decide (l.Systemd ≠ "") ||
      decide (l.EventLog ≠ "") || l.Syslog.isSome || l.Tcp.isSome || l.Fluentbit.isSome ||
      l.Winlog.isSome)

/-- Go `isReserved`. -/
def isReserved (att : String) : Bool :=
  decide (att = rAttEntityGUID) || decide (att = rAttFbInput) ||
    decide (att = rAttPluginType) || decide (att = rAttHostname)

/-- Go `getSyslogParser`. -/
def getSyslogParser (p : String) : String :=
  if p = "" then "rfc3164" else p

/-- Go `getBufferMaxSize`. -/
def getBufferMaxSize (l : LogCfg) : Int :=
  let bufferSize := l.MaxLineKb
  if bufferSize = 0 then defaultBufferMaxSize else bufferSize

/-- Go `newNROutput`: the staging assignment comes first, the EU assignment
second and overwrites it. -/
def newNROutput (ext : External) (cfg : LogForward) : FBCfgOutput :=
  let ret : FBCfgOutput :=
    { Name := "newrelic"
      Match := "*"
      LicenseKey := cfg.License
      IgnoreSystemProxy := cfg.ProxyCfg.IgnoreSystemProxy
      Proxy := cfg.ProxyCfg.Proxy
      CABundleFile := cfg.ProxyCfg.CABundleFile
      CABundleDir := cfg.ProxyCfg.CABundleDir
      ValidateCerts := cfg.ProxyCfg.ValidateCerts }
  let ret := if cfg.IsStaging then { ret with Endpoint := stagingEndpoint } else ret
  let ret := if ext.license_IsRegionEU cfg.License then { ret with Endpoint := euEndpoint } else ret
  ret

/-- Go `newGrepFilter`. -/
def newGrepFilter (tag grepField regexInclude regexExclude : String) : FBCfgParser :=
  let grepFilter : FBCfgParser := { Name := fbFilterTypeGrep, Match := tag }
  let grepFilter :=
    if regexInclude.length > 0 then
      { grepFilter with RegexInclude := grepField ++ " " ++ regexInclude }
    else grepFilter
  let grepFilter :=
    if regexExclude.length > 0 then
      { grepFilter with RegexExclude := grepField ++ " " ++ regexExclude }
    else grepFilter
  grepFilter

/-- Body of the loop `for key, value := range userAttributes` of Go
`newRecordModifierFilterForInput`: a key that is not reserved is written. -/
def recordStep (ret : FBCfgParser) (kv : String × String) : FBCfgParser :=
  if !isReserved kv.1 then { ret with Records := GoMap.set ret.Records kv.1 kv.2 } else ret

/-- Go `newRecordModifierFilterForInput`. -/
def newRecordModifierFilterForInput (tag fbFilterInputType : String)
    (userAttributes : GoMap) : FBCfgParser :=
  let ret : FBCfgParser :=
    { Name := fbFilterTypeRecordModifier
      Match := tag
      Records := GoMap.set [] rAttFbInput fbFilterInputType }
  userAttributes.foldl recordStep ret

/-- Go `parsePattern`. -/
def parsePattern (l : LogCfg) (fluentBitGrepField : String) (filters : List FBCfgParser) :
    List FBCfgParser :=
  if l.Pattern ≠ "" then filters ++ [newGrepFilter l.Name fluentBitGrepField l.Pattern ""]
  else filters

/-- Go `newFBExternalConfig`. -/
def newFBExternalConfig (l : LogExternalFBCfg) : FBCfgExternal :=
  { CfgFilePath := l.CfgPath, ParsersFilePath := l.ParsersPath }

/-- Go `newFileInput`. -/
def newFileInput (filePath dbPath tag : String) (bufSize : Int) : FBCfgInput :=
  { Name := fbInputTypeTail
    Path := filePath
    DB := dbPath
    Tag := tag
    BufferMaxSize := fmtInt bufSize ++ "k"
    SkipLongLines := "On" }

/-- Go `newSystemdInput`. -/
def newSystemdInput (service dbPath tag : String) : FBCfgInput :=
  { Name := fbInputTypeSystemd
    Systemd_Filter := "_SYSTEMD_UNIT=" ++ service ++ ".service"
    Tag := tag
    DB := dbPath }

/-- Go `newWindowsEventlogInput`. -/
def newWindowsEventlogInput (eventLog dbPath tag : String) : FBCfgInput :=
  { Name := fbInputTypeWinlog, Channels := eventLog, Tag := tag, DB := dbPath }

/-- Go `newWinlogInput`. -/
def newWinlogInput (winlog : LogWinlogCfg) (dbPath tag : String) : FBCfgInput :=
  { Name := fbInputTypeWinlog, Channels := winlog.Channel, Tag := tag, DB := dbPath }

/-- Go `newSyslogInput`. -/
def newSyslogInput (l : LogSyslogCfg) (tag : String) (bufSize : Int) :
    FBCfgInput × Option GoError :=
  if ¬ (matchPrefix syslogRegex l.URI = true) then
    ({}, some ("syslog: wrong uri format or unsupported protocol (tcp, udp, unix_tcp, unix_udp) "
      ++ l.URI))
  else
    let protocolPath := strings_Split l.URI "://"
    let protocol := protocolPath.getD 0 ""
    let isTcpUdp := matchPrefix tcpUdpRegex l.URI
    let isUnixSocket := matchPrefix unixSocketRegex l.URI
    if ((protocol = "udp" ∨ protocol = "tcp") ∧ isTcpUdp = false) ∨
        ((protocol = "unix_udp" ∨ protocol = "unix_tcp") ∧ isUnixSocket = false) then
      ({}, some ("syslog: wrong uri format for " ++ protocol ++ " " ++ l.URI))
    else
      let fbInput : FBCfgInput :=
        { Name := fbInputTypeSyslog
          Tag := tag
          SyslogMode := protocol
          SyslogParser := getSyslogParser l.Parser }
      let fbInput :=
        if protocol = "tcp" ∨ protocol = "udp" then
          let listenPort := strings_Split (protocolPath.getD 1 "") ":"
          { fbInput with
            SyslogListen := listenPort.getD 0 ""
            SyslogPort := (strconv_Atoi (listenPort.getD 1 "")).1 }
        else
          { fbInput with
            SyslogUnixPath := protocolPath.getD 1 ""
            SyslogUnixPermissions := l.UnixPermissions }
      let fbInput :=
        if protocol = "udp" ∨ protocol = "unix_udp" then
          { fbInput with BufferChunkSize := fmtInt bufSize ++ "k" }
        else
          { fbInput with BufferMaxSize := fmtInt bufSize ++ "k" }
      (fbInput, none)

/-- Go `newTcpInput`. The slice `t.Uri[6:]` drops the six one-byte characters
`tcp://` that the pattern has just matched. -/
def newTcpInput (t : LogTcpCfg) (tag : String) (bufSize : Int) : FBCfgInput × Option GoError :=
  if ¬ (matchPrefix tcpRegex t.Uri = true) then
    ({}, some ("tcp: wrong uri format " ++ t.Uri))
  else
    let listenPort := strings_Split (String.mk (t.Uri.data.drop 6)) ":"
    let port := (strconv_Atoi (listenPort.getD 1 "")).1
    let fbInput : FBCfgInput :=
      { Name := fbInputTypeTcp
        Tag := tag
        TcpListen := listenPort.getD 0 ""
        TcpPort := port
        TcpFormat := t.Format
        TcpBufferSize := bufSize }
    let fbInput :=
      if t.Format = "none" then
        { fbInput with TcpSeparator := strings_Replace t.Separator "\\\\" "\\" }
      else fbInput
    (fbInput, none)

/-- Loop of Go `numberRangesToRegex`; `regexList` is the list built so far. -/
def numberRangesToRegexLoop (ext : External) :
    List String → List String → String × Option GoError
  | [], regexList => (strings_Join regexList "|", none)
  | numberRange :: rest, regexList =>
    if matchWhole eventIdRangeRegex numberRange = true then
      let splitRange := strings_Split numberRange "-"
      let bottomLimit := (strconv_Atoi (splitRange.getD 0 "")).1
      let topLimit := (strconv_Atoi (splitRange.getD 1 "")).1
      numberRangesToRegexLoop ext rest
        (regexList ++
          ["^(" ++ strings_Replace (ext.ranger_Compile bottomLimit topLimit) "\\\\" "\\" ++ ")$"])
    else if (strconv_Atoi numberRange).2 = none then
      numberRangesToRegexLoop ext rest (regexList ++ ["^" ++ numberRange ++ "$"])
    else
      ("", some "invalid EventId or range format")

/-- Go `numberRangesToRegex`. -/
def numberRangesToRegex (ext : External) (numberRanges : List String) :
    String × Option GoError :=
  numberRangesToRegexLoop ext numberRanges []

/-- Go `parseFileInput`. -/
def parseFileInput (l : LogCfg) (dbPath : String) : FBCfgInput × List FBCfgParser :=
  let input := newFileInput l.File dbPath l.Name (getBufferMaxSize l)
  let filters := [newRecordModifierFilterForInput l.Name fbInputTypeTail l.Attributes]
  let filters := parsePattern l fbGrepFieldForTail filters
  (input, filters)

/-- Go `parseFolderInput`. -/
def parseFolderInput (l : LogCfg) (dbPath : String) : FBCfgInput × List FBCfgParser :=
  let folderPath := filepath_Join [l.Folder, "*"]
  let input := newFileInput folderPath dbPath l.Name (getBufferMaxSize l)
  let filters := [newRecordModifierFilterForInput l.Name fbInputTypeTail l.Attributes]
  let filters := parsePattern l fbGrepFieldForTail filters
  (input, filters)

/-- Go `parseSystemdInput`. -/
def parseSystemdInput (l : LogCfg) (dbPath : String) : FBCfgInput × List FBCfgParser :=
  let input := newSystemdInput l.Systemd dbPath l.Name
  let filters := [newRecordModifierFilterForInput l.Name fbInputTypeSystemd l.Attributes]
  let filters := parsePattern l fbGrepFieldForSystemd filters
  (input, filters)

/-- Go `parseEventLogInput`. -/
def parseEventLogInput (l : LogCfg) (dbPath : String) : FBCfgInput × List FBCfgParser :=
  let input := newWindowsEventlogInput l.EventLog dbPath l.Name
  let filters := [newRecordModifierFilterForInput l.Name fbInputTypeWinlog l.Attributes]
  (input, filters)

/-- Go `parseSyslogInput`; the caller has checked `l.Syslog != nil`. -/
def parseSyslogInput (l : LogCfg) (syslog : LogSyslogCfg) :
    FBCfgInput × List FBCfgParser × Option GoError :=
  match newSyslogInput syslog l.Name (getBufferMaxSize l) with
  | (_, some e) => ({}, [], some e)
  | (slIn, none) =>
    let input := slIn
    let filters := [newRecordModifierFilterForInput l.Name fbInputTypeSyslog l.Attributes]
    let filters := parsePattern l fbGrepFieldForSyslog filters
    (input, filters, none)

/-- Go `parseTcpInput`; the caller has checked `l.Tcp != nil`. On an error the
named results `input` and `filters` still hold their zero values. -/
def parseTcpInput (l : LogCfg) (tcp : LogTcpCfg) :
    FBCfgInput × List FBCfgParser × Option GoError :=
  match newTcpInput tcp l.Name (getBufferMaxSize l) with
  | (_, some e) => ({}, [], some e)
  | (tcpIn, none) =>
    let input := tcpIn
    let filters := [newRecordModifierFilterForInput l.Name fbInputTypeTcp l.Attributes]
    let filters := if tcp.Format = "none" then parsePattern l fbGrepFieldForTcpPlain filters
      else filters
    (input, filters, none)

/-- Go `parseWinlogInput`; the caller has checked `l.Winlog != nil`. The named
results `input` and `filters` are assigned before the event-ID lists are
compiled, and the bare `return` on a compile error hands them back together
with the error. -/
def parseWinlogInput (ext : External) (l : LogCfg) (winlog : LogWinlogCfg) (dbPath : String) :
    FBCfgInput × List FBCfgParser × Option GoError :=
  let input := newWinlogInput winlog dbPath l.Name
  let filters := [newRecordModifierFilterForInput l.Name fbInputTypeWinlog l.Attributes]
  let included := winlog.CollectEventIds
  let excluded := winlog.ExcludeEventIds
  if included.length > 0 ∨ excluded.length > 0 then
    match numberRangesToRegex ext included with
    | (_, some err) => (input, filters, some err)
    | (regexInclude, none) =>
      match numberRangesToRegex ext excluded with
      | (_, some err) => (input, filters, some err)
      | (regexExclude, none) =>
        let eventIdGrep := newGrepFilter l.Name fbGrepFieldForWinlogEventId regexInclude regexExclude
        (input, filters ++ [eventIdGrep], none)
  else
    (input, filters, none)

/-- The chain `if l.File != "" ... else if l.Winlog != nil ...` of Go
`parseConfigBlock`: the values of the named results `input`, `filters` and
`err` after it. Without any source all three keep their zero value. -/
def parseConfigBlockSources (ext : External) (l : LogCfg) (dbPath : String) :
    FBCfgInput × List FBCfgParser × Option GoError :=
  if l.File ≠ "" then
    ((parseFileInput l dbPath).1, (parseFileInput l dbPath).2, none)
  else if l.Folder ≠ "" then
    ((parseFolderInput l dbPath).1, (parseFolderInput l dbPath).2, none)
  else if l.Systemd ≠ "" then
    ((parseSystemdInput l dbPath).1, (parseSystemdInput l dbPath).2, none)
  else if l.EventLog ≠ "" then
    ((parseEventLogInput l dbPath).1, (parseEventLogInput l dbPath).2, none)
  else
    match l.Syslog, l.Tcp, l.Winlog with
    | some syslog, _, _ => parseSyslogInput l syslog
    | none, some tcp, _ => parseTcpInput l tcp
    | none, none, some winlog => parseWinlogInput ext l winlog dbPath
    | none, none, none => ({}, [], none)

/-- Go `parseConfigBlock`. The results are named
`(input, filters, external, err)`; a bare `return` hands back their current
values. -/
def parseConfigBlock (ext : External) (l : LogCfg) (logsHomeDir : String) :
    FBCfgInput × List FBCfgParser × FBCfgExternal × Option GoError :=
  match l.Fluentbit with
  | some fluentbit => ({}, [], newFBExternalConfig fluentbit, none)
  | none =>
    let dbPath := filepath_Join [logsHomeDir, fluentBitDbName]
    let r := parseConfigBlockSources ext l dbPath
    if r.2.2 ≠ none then
      (r.1, r.2.1, {}, r.2.2)
    else if r.1 = {} then
      (r.1, r.2.1, {}, some "invalid log integration config")
    else
      (r.1, r.2.1, {}, none)

/-- State of the loop of Go `NewFBConf`: the named results `fb` and `e`, and
whether the loop has left the function through its bare `return`. -/
structure NewFBConfState where
  fb : FBCfg
  e : Option GoError
  returned : Bool
  deriving DecidableEq, Repr

/-- Loop `for _, block := range loggingCfgs` of Go `NewFBConf`. The error of
`parseConfigBlock` is the loop-local `err`; the named result `e` is passed
through untouched because the body never assigns it. -/
def NewFBConfLoop (ext : External) (homeDir : String) :
    List LogCfg → FBCfg → Option GoError → NewFBConfState
  | [], fb, e => { fb := fb, e := e, returned := false }
  | block :: rest, fb, e =>
    match parseConfigBlock ext block homeDir with
    | (input, filters, external, err) =>
      if err ≠ none then
        { fb := fb, e := e, returned := true }
      else
        let fb := if input ≠ {} then { fb with Inputs := fb.Inputs ++ [input] } else fb
        let fb := { fb with Parsers := fb.Parsers ++ filters }
        let fb :=
          if external ≠ {} ∧ fb.ExternalCfg ≠ {} then fb
          else if external ≠ {} then { fb with ExternalCfg := external }
          else fb
        NewFBConfLoop ext homeDir rest fb e

/-- Go `NewFBConf`. -/
def NewFBConf (ext : External) (loggingCfgs : List LogCfg) (logFwdCfg : LogForward)
    (entityGUID hostname : String) : FBCfg × Option GoError :=
  let fb : FBCfg := { Inputs := [], Parsers := [] }
  let st := NewFBConfLoop ext logFwdCfg.HomeDir loggingCfgs fb none
  if st.returned then (st.fb, st.e)
  else if st.fb.Inputs.length = 0 ∧ st.fb.ExternalCfg = {} then (st.fb, st.e)
  else
    let fb := st.fb
    let common : FBCfgParser :=
      { Name := fbFilterTypeRecordModifier
        Match := "*"
        Records :=
          GoMap.set (GoMap.set (GoMap.set [] rAttEntityGUID entityGUID)
            rAttPluginType logRecordModifierSource) rAttHostname hostname }
    let fb := { fb with Parsers := fb.Parsers ++ [common] }
    let fb := { fb with Output := newNROutput ext logFwdCfg }
    (fb, st.e)

/-! ## Shapes of event-ID tokens -/

/-- A non-empty string of decimal digits: a bare non-negative decimal
integer. -/
def IsDecimal (s : List Char) : Prop := s ≠ [] ∧ ∀ c ∈ s, isDigit c = true

/-- A range token `<low>-<high>` of two non-negative decimal integers. -/
def IsRangeToken (t : String) : Prop :=
  ∃ lo hi, IsDecimal lo ∧ IsDecimal hi ∧ t.data = lo ++ '-' :: hi

/-- A decimal integer with an optional sign whose value fits a 64-bit `int`. -/
def IsIntToken (t : String) : Prop :=
  ∃ ds, IsDecimal ds ∧
    ((t.data = ds ∧ (decimalVal ds : Int) ≤ maxInt) ∨
      (t.data = '+' :: ds ∧ (decimalVal ds : Int) ≤ maxInt) ∨
      (t.data = '-' :: ds ∧ minInt ≤ -(decimalVal ds : Int)))

/-! ## Sample inputs -/

/-- Stand-ins for the two functions of other packages, for evaluating the
code on concrete inputs. -/
def sampleExternal : External :=
  { ranger_Compile := fun _ _ => "", license_IsRegionEU := fun _ => false }

/-- A forwarding configuration with home directory `/var/db`. -/
def sampleForward : LogForward := { HomeDir := "/var/db" }

/-- A block that tails one file. -/
def sampleFileBlock : LogCfg := { Name := "app", File := "/var/log/app.log" }

/-- A block without any source. -/
def sampleEmptyBlock : LogCfg := { Name := "broken" }

/-- A Winlog block whose collect list holds a token that is no event ID. -/
def sampleBadWinlogBlock : LogCfg :=
  { Name := "w", Winlog := some { Channel := "Application", CollectEventIds := ["abc"] } }

/-- An external block that also carries a syslog URI of an unsupported scheme
and a tcp URI without a port. -/
def sampleExternalBlock : LogCfg :=
  { Name := "ext"
    File := "/var/log/app.log"
    Syslog := some { URI := "ftp://x" }
    Tcp := some { Uri := "tcp://nowhere" }
    Fluentbit := some { CfgPath := "/etc/fb/fb.conf", ParsersPath := "/etc/fb/parsers.conf" } }

/-- Three external blocks: the first without paths, the second and the third
with paths. -/
def sampleExternalBlocks : List LogCfg :=
  [{ Name := "first", Fluentbit := some {} },
   { Name := "second",
     Fluentbit := some { CfgPath := "/etc/fb.conf", ParsersPath := "/etc/parsers.conf" } },
   { Name := "third", Fluentbit := some { CfgPath := "/opt/fb.conf" } }]

/-! ## Shapes of blocks -/

/-- Number of populated source variants of a block among `File`, `Folder`,
`Systemd`, `EventLog`, `Syslog`, `Tcp` and `Winlog`. -/
def LogCfg.sourceCount (l : LogCfg) : Nat :=
  (if l.File ≠ "" then 1 else 0) + (if l.Folder ≠ "" then 1 else 0) +
    (if l.Systemd ≠ "" then 1 else 0) + (if l.EventLog ≠ "" then 1 else 0) +
    (if l.Syslog.isSome then 1 else 0) + (if l.Tcp.isSome then 1 else 0) +
    (if l.Winlog.isSome then 1 else 0)

/-- A block that declares both a file and a folder. -/
def sampleTwoSourceBlock : LogCfg :=
  { Name := "both", File := "/var/log/app.log", Folder := "/var/log/other" }

/-! ## Shapes of separators -/

/-- The text in which every pair of consecutive backslashes, read from the
left, is replaced by one backslash; all other characters are kept. -/
def collapseBackslashPairs : List Char → List Char
  | '\\' :: '\\' :: rest => '\\' :: collapseBackslashPairs rest
  | c :: rest => c :: collapseBackslashPairs rest
  | [] => []

/-- A Tcp part in raw-line mode whose separator is written as backslash
followed by `n`. -/
def sampleTcpCfg : LogTcpCfg :=
  { Uri := "tcp://0.0.0.0:9000", Format := "none", Separator := "\\n" }

/-- A block with the sample Tcp part and a pattern. -/
def sampleTcpBlock : LogCfg :=
  { Name := "raw", Pattern := "error", Tcp := some sampleTcpCfg }

/-- A file block with a pattern and a syslog part. -/
def samplePatternBlock : LogCfg :=
  { Name := "app", File := "/var/log/app.log", Pattern := "error",
    Syslog := some { URI := "udp://127.0.0.1:5140" } }

/-- An external block without paths followed by a block without any source. -/
def sampleNothingBlocks : List LogCfg :=
  [{ Name := "first", Fluentbit := some {} }, { Name := "broken" }]

/-! ## Shapes of URIs -/

/-- One group of a dotted host: one to three decimal digits. -/
def IsOctet (s : List Char) : Prop := IsDecimal s ∧ s.length ≤ 3

/-- The dotted host `a.b.c.d`. -/
def dotted (a b c d : List Char) : List Char :=
  a ++ '.' :: (b ++ '.' :: (c ++ '.' :: d))

/-- The text `a.b.c.d:port` of a dotted host of four groups and a decimal
port. -/
def IsHostPort (s : List Char) : Prop :=
  ∃ a b c d port, IsOctet a ∧ IsOctet b ∧ IsOctet c ∧ IsOctet d ∧ IsDecimal port ∧
    s = dotted a b c d ++ ':' :: port

/-- The URIs of the syslog grammar as `newSyslogInput` reads it: `tcp://` or
`udp://` followed by a host and port `a.b.c.d:port` and then by any text, or
`unix_tcp://` or `unix_udp://` followed by a path that begins with `/`. -/
def IsSyslogURI (uri : List Char) : Prop :=
  (∃ hp tail, IsHostPort hp ∧
      (uri = "tcp://".data ++ hp ++ tail ∨ uri = "udp://".data ++ hp ++ tail)) ∨
    (∃ path, uri = "unix_tcp://".data ++ '/' :: path ∨ uri = "unix_udp://".data ++ '/' :: path)

/-- A file block with a negative `max_line_kb`. -/
def sampleNegativeBufferBlock : LogCfg :=
  { Name := "app", File := "/var/log/app.log", MaxLineKb := -5 }

/-! ## Shapes of paths -/

/-- An element of a clean path: not empty, without `/`, and neither `.` nor
`..`. -/
def IsPlainElem (e : List Char) : Prop :=
  e ≠ [] ∧ '/' ∉ e ∧ e ≠ ['.'] ∧ e ≠ ['.', '.']

/-- The elements joined by `/`. -/
def joinSlash : List (List Char) → List Char
  | [] => []
  | [e] => e
  | e :: rest => e ++ '/' :: joinSlash rest

/-- A folder block whose folder ends with a separator. -/
def sampleFolderBlock : LogCfg := { Name := "logs", Folder := "/var/log/" }

/-- The block with every source variant of lower priority than its first
populated one cleared, in the order File, Folder, Systemd, EventLog, Syslog,
Tcp, Winlog. -/
def LogCfg.clearLowerPriority (l : LogCfg) : LogCfg :=
  if l.File ≠ "" then
    { l with Folder := "", Systemd := "", EventLog := "", Syslog := none, Tcp := none,
             Winlog := none }
  else if l.Folder ≠ "" then
    { l with Systemd := "", EventLog := "", Syslog := none, Tcp := none, Winlog := none }
  else if l.Systemd ≠ "" then
    { l with EventLog := "", Syslog := none, Tcp := none, Winlog := none }
  else if l.EventLog ≠ "" then
    { l with Syslog := none, Tcp := none, Winlog := none }
  else if l.Syslog ≠ none then
    { l with Tcp := none, Winlog := none }
  else if l.Tcp ≠ none then
    { l with Winlog := none }
  else l

/-- A block that declares a folder and a systemd service. -/
def sampleFolderAndSystemdBlock : LogCfg :=
  { Name := "both", Folder := "/var/log/app", Systemd := "sshd" }

/-- A file block that also declares a syslog source with a malformed URI, a
tcp source with a malformed URI and a winlog source with a malformed event
ID. -/
def sampleFileAndBadSourcesBlock : LogCfg :=
  { Name := "mixed"
    File := "/var/log/app.log"
    Syslog := some { URI := "nonsense" }
    Tcp := some { Uri := "nonsense" }
    Winlog := some { Channel := "System", CollectEventIds := ["abc"] } }

/-- The bound read from one side of a range token: the value of its decimal
digits, or the largest `int` when the value exceeds it. -/
def rangeBound (ds : List Char) : Int :=
  if (decimalVal ds : Int) ≤ maxInt then (decimalVal ds : Int) else maxInt

/-- The interval expression of two bounds: the text that `ranger.Compile`
returns for them, with each doubled backslash written once. -/
def intervalExpr (ext : External) (lo hi : Int) : String :=
  strings_Replace (ext.ranger_Compile lo hi) "\\\\" "\\"

/-- The expression `e` that an event-ID token `t` contributes: `^(r)$` with
`r` the interval expression of the bounds of a range token, and `^t$` for a
token that is an integer and not a range. -/
def IsTokenExpr (ext : External) (t e : String) : Prop :=
  (∃ lo hi, IsDecimal lo ∧ IsDecimal hi ∧ t.data = lo ++ '-' :: hi ∧
      e = "^(" ++ intervalExpr ext (rangeBound lo) (rangeBound hi) ++ ")$") ∨
    (¬ IsRangeToken t ∧ IsIntToken t ∧ e = "^" ++ t ++ "$")

/-- A winlog block that collects one event ID and one range and excludes
nothing. -/
def sampleWinlogCfg : LogWinlogCfg :=
  { Channel := "Security", CollectEventIds := ["4624", "4700-4800"] }

/-- Block around `sampleWinlogCfg`. -/
def sampleWinlogBlock : LogCfg :=
  { Name := "win-security", Winlog := some sampleWinlogCfg }

/-- Go `newSyslogInput` with every index expression checked: `none` stands
for the run-time panic of an index out of range, and `some r` for the normal
return of `r`. -/
def newSyslogInputChecked (l : LogSyslogCfg) (tag : String) (bufSize : Int) :
    Option (FBCfgInput × Option GoError) :=
  if ¬ (matchPrefix syslogRegex l.URI = true) then
    some ({}, some ("syslog: wrong uri format or unsupported protocol (tcp, udp, unix_tcp, unix_udp) "
      ++ l.URI))
  else
    let protocolPath := strings_Split l.URI "://"
    match protocolPath[0]? with
    | none => none
    | some protocol =>
      let isTcpUdp := matchPrefix tcpUdpRegex l.URI
      let isUnixSocket := matchPrefix unixSocketRegex l.URI
      if ((protocol = "udp" ∨ protocol = "tcp") ∧ isTcpUdp = false) ∨
          ((protocol = "unix_udp" ∨ protocol = "unix_tcp") ∧ isUnixSocket = false) then
        some ({}, some ("syslog: wrong uri format for " ++ protocol ++ " " ++ l.URI))
      else
        let fbInput : FBCfgInput :=
          { Name := fbInputTypeSyslog
            Tag := tag
            SyslogMode := protocol
            SyslogParser := getSyslogParser l.Parser }
        let filled : Option FBCfgInput :=
          if protocol = "tcp" ∨ protocol = "udp" then
            match protocolPath[1]? with
            | none => none
            | some hostPort =>
              let listenPort := strings_Split hostPort ":"
              match listenPort[0]?, listenPort[1]? with
              | some listen, some port =>
                some { fbInput with
                  SyslogListen := listen
                  SyslogPort := (strconv_Atoi port).1 }
              | _, _ => none
          else
            match protocolPath[1]? with
            | none => none
            | some path =>
              some { fbInput with
                SyslogUnixPath := path
                SyslogUnixPermissions := l.UnixPermissions }
        match filled with
        | none => none
        | some fbInput =>
          let fbInput :=
            if protocol = "udp" ∨ protocol = "unix_udp" then
              { fbInput with BufferChunkSize := fmtInt bufSize ++ "k" }
            else
              { fbInput with BufferMaxSize := fmtInt bufSize ++ "k" }
          some (fbInput, none)

/-- Go `newTcpInput` with the slice `t.Uri[6:]` and every index expression
checked: `none` stands for the run-time panic of a slice bound or an index
out of range, and `some r` for the normal return of `r`. The length of a Go
string is its number of bytes. -/
def newTcpInputChecked (t : LogTcpCfg) (tag : String) (bufSize : Int) :
    Option (FBCfgInput × Option GoError) :=
  if ¬ (matchPrefix tcpRegex t.Uri = true) then
    some ({}, some ("tcp: wrong uri format " ++ t.Uri))
  else if t.Uri.utf8ByteSize < 6 then
    none
  else
    let listenPort := strings_Split (String.mk (t.Uri.data.drop 6)) ":"
    match listenPort[1]?, listenPort[0]? with
    | some portText, some listen =>
      let port := (strconv_Atoi portText).1
      let fbInput : FBCfgInput :=
        { Name := fbInputTypeTcp
          Tag := tag
          TcpListen := listen
          TcpPort := port
          TcpFormat := t.Format
          TcpBufferSize := bufSize }
      let fbInput :=
        if t.Format = "none" then
          { fbInput with TcpSeparator := strings_Replace t.Separator "\\\\" "\\" }
        else fbInput
      some (fbInput, none)
    | _, _ => none

/-- A stand-in for `ranger.Compile` that shows the two bounds it is called
with, for evaluating which bounds the code passes. -/
def sampleBoundsExternal : External :=
  { ranger_Compile := fun lo hi => fmtInt lo ++ ".." ++ fmtInt hi
    license_IsRegionEU := fun _ => false }

end Logs

/-!
Entity ID provider (`pkg/integrations/v4/dm/id_provider.go`)

A shallow embedding of the cached ID provider. The provider is passed and
returned explicitly; the register client is a function, and each call made to
it is recorded. The types `entity.ID` and `protocol.Entity` belong to other
packages and are type parameters here.
-/

namespace Dm

/-! ## Go runtime and standard library helpers -/

/-- Go `map[string]V`. -/
abbrev GoMapOf (V : Type) := List (String × V)

/-- Map read `m[k]` with the presence flag: `none` when the key is absent. -/
def GoMapOf.get {V : Type} (m : GoMapOf V) (k : String) : Option V :=
  match m with
  | [] => none
  | (k', v) :: rest => if k' = k then some v else GoMapOf.get rest k

/-- Map write `m[k] = v`: the old binding of `k`, if any, is replaced. -/
def GoMapOf.set {V : Type} (m : GoMapOf V) (k : String) (v : V) : GoMapOf V :=
  (k, v) :: m.filter (fun kv => !decide (kv.1 = k))

/-- The flag characters that may follow `%` in a format of package `fmt`. -/
def isFlag (c : Char) : Bool :=
  c = '#' || c = '0' || c = '+' || c = '-' || c = ' '

/-- Go `parsenum` of package `fmt` on the text that starts at the current
position: whether a number was read, and the text after it. `num` is the
value read so far; once it exceeds `10^6` the scan gives up and skips all of
the remaining text. -/
def parsenum : Nat → Bool → List Char → Bool × List Char
  | _, isnum, [] => (isnum, [])
  | num, isnum, c :: cs =>
    if Logs.isDigit c = true then
      if num > 1000000 then (false, [])
      else parsenum (num * 10 + Logs.digitVal c) true cs
    else (isnum, c :: cs)

/-- Go `parseArgNumber` of package `fmt` on a text that starts with `[`: the
width of the bracketed index and whether it is well formed. -/
def parseArgNumber (format : List Char) : Nat × Bool :=
  if format.length < 3 then (1, false)
  else
    let inner := format.tail.takeWhile (fun c => !decide (c = ']'))
    if inner.length < format.tail.length then
      let r := parsenum 0 false inner
      if r.1 = false ∨ r.2 ≠ [] then (inner.length + 2, false)
      else (inner.length + 2, true)
    else (1, false)

/-- Progress through one formatting verb: the text written, the format still
to be read, and the variables `afterIndex` and `goodArgNum` of `doPrintf`. -/
structure VerbState where
  out : List Char
  rest : List Char
  afterIndex : Bool
  goodArgNum : Bool
  deriving DecidableEq, Repr

/-- Go `argNumber` of package `fmt` when the call has no operands: an index in
brackets is skipped and can never be in range. -/
def argNumber (s : VerbState) : VerbState :=
  match s.rest with
  | '[' :: cs =>
    let r := parseArgNumber ('[' :: cs)
    { s with rest := ('[' :: cs).drop r.1, afterIndex := r.2, goodArgNum := false }
  | _ => { s with afterIndex := false }

/-- The part of `doPrintf` of package `fmt` that handles one verb, from the
character after `%`, when the call has no operands: the text written and the
format left. A `.` opens a precision only when another character follows it;
as the last character of the format it is the verb. -/
def fmtVerb (format : List Char) : List Char × List Char :=
  let s : VerbState :=
    { out := [], rest := format.dropWhile isFlag, afterIndex := false, goodArgNum := true }
  let s := argNumber s
  let s : VerbState :=
    match s.rest with
    | '*' :: cs => { s with out := s.out ++ "%!(BADWIDTH)".data, rest := cs, afterIndex := false }
    | _ =>
      let r := parsenum 0 false s.rest
      if s.afterIndex = true ∧ r.1 = true then { s with rest := r.2, goodArgNum := false }
      else { s with rest := r.2 }
  let s : VerbState :=
    match s.rest with
    | '.' :: c :: cs =>
      let s : VerbState :=
        if s.afterIndex = true then { s with rest := c :: cs, goodArgNum := false }
        else { s with rest := c :: cs }
      let s := argNumber s
      match s.rest with
      | '*' :: cs2 =>
        { s with out := s.out ++ "%!(BADPREC)".data, rest := cs2, afterIndex := false }
      | _ => { s with rest := (parsenum 0 false s.rest).2 }
    | _ => s
  let s := if s.afterIndex = false then argNumber s else s
  match s.rest with
  | [] => (s.out ++ "%!(NOVERB)".data, [])
  | verb :: cs =>
    if verb = '%' then (s.out ++ ['%'], cs)
    else if s.goodArgNum = false then (s.out ++ "%!".data ++ verb :: "(BADINDEX)".data, cs)
    else (s.out ++ "%!".data ++ verb :: "(MISSING)".data, cs)

/-- Loop of `doPrintf` of package `fmt` for a call without operands. The
first argument bounds the number of rounds; the length of the format plus one
is enough. -/
def fmtLoop : Nat → List Char → List Char
  | 0, _ => []
  | _ + 1, [] => []
  | fuel + 1, c :: cs =>
    if c = '%' then (fmtVerb cs).1 ++ fmtLoop fuel (fmtVerb cs).2
    else c :: fmtLoop fuel cs

/-- Go `fmt.Errorf(format)` without operands; the error is identified with
its message. -/
def fmt_Errorf (format : String) : Logs.GoError :=
  String.mk (fmtLoop (format.data.length + 1) format.data)

/-! ## Types of other packages -/

/-- What `id_provider.go` uses of the type `protocol.Entity`, which package
`protocol` declares: the field `Name`, and the zero value that reading an
absent key of a Go map gives. -/
structure EntityType (Entity : Type) where
  Name : Entity → String
  zero : Entity

/-- The field of `entity.Identity` that `ResolveEntities` reads. -/
structure Identity (ID : Type) where
  ID : ID
  deriving DecidableEq, Repr

/-- The fields of `identityapi.RegisterEntityResponse`; `Key` is of a string
type and is read through `string(...)`. -/
structure RegisterEntityResponse (ID : Type) where
  ID : ID
  Key : String := ""
  Name : String := ""
  Err : String := ""
  deriving DecidableEq, Repr

/-- Method `RegisterBatchEntities` of `identityapi.RegisterClient`, from the
agent ID and the entities to the response and the error; the duration it also
returns is discarded by the caller. -/
abbrev RegisterClient (ID Entity : Type) :=
  ID → List Entity → List (RegisterEntityResponse ID) × Option Logs.GoError

/-! ## `id_provider.go` -/

/-- Go type `registeredEntitiesNameToID`. -/
abbrev registeredEntitiesNameToID (ID : Type) := GoMapOf ID

/-- Go type `reason`. -/
abbrev reason := String

/-- Go type `unregisteredEntity`. -/
structure unregisteredEntity (Entity : Type) where
  Reason : reason
  Err : Option Logs.GoError
  Entity : Entity
  deriving DecidableEq, Repr

/-- Go type `unregisteredEntitiesNamed`. -/
abbrev unregisteredEntitiesNamed (Entity : Type) := GoMapOf (unregisteredEntity Entity)

/-- Go type `UnregisteredEntities`. -/
abbrev UnregisteredEntities (Entity : Type) := List (unregisteredEntity Entity)

def reasonClientError : reason := "Identity client error"
def reasonEntityError : reason := "Entity error"

/-- Go `newUnregisteredEntity`. -/
def newUnregisteredEntity {Entity : Type} (entity : Entity) (reason : reason)
    (err : Option Logs.GoError) : unregisteredEntity Entity :=
  { Entity := entity, Reason := reason, Err := err }

/-- Go type `cachedIdProvider`. -/
structure cachedIdProvider (ID Entity : Type) where
  client : RegisterClient ID Entity
  cache : registeredEntitiesNameToID ID
  unregisteredEntities : unregisteredEntitiesNamed Entity

/-- Go `NewCachedIDProvider`. -/
def NewCachedIDProvider {ID Entity : Type} (client : RegisterClient ID Entity) :
    cachedIdProvider ID Entity :=
  { client := client, cache := [], unregisteredEntities := [] }

/-- Outcome of one call of `ResolveEntities`: the two values returned, the
provider after the call, and the calls made to the register client, each with
the agent ID and the entities passed. -/
structure Resolved (ID Entity : Type) where
  registeredEntities : registeredEntitiesNameToID ID
  unregisteredEntities : UnregisteredEntities Entity
  p : cachedIdProvider ID Entity
  calls : List (ID × List Entity)

/-- Body of the loop `for _, e := range entities` of `ResolveEntities`, on the
pair of `registeredEntities` and `entitiesToRegister`. -/
def lookupStep {ID Entity : Type} (et : EntityType Entity)
    (cache : registeredEntitiesNameToID ID)
    (st : registeredEntitiesNameToID ID × List Entity) (e : Entity) :
    registeredEntitiesNameToID ID × List Entity :=
  match cache.get (et.Name e) with
  | some foundID => (st.1.set (et.Name e) foundID, st.2)
  | none => (st.1, st.2 ++ [e])

/-- Body of the loop that fills `nameToEntity`. -/
def nameStep {Entity : Type} (et : EntityType Entity) (nameToEntity : GoMapOf Entity)
    (e : Entity) : GoMapOf Entity :=
  nameToEntity.set (et.Name e) e

/-- Body of the loop over `entitiesToRegister` after a client error, on the
provider and the list `unregisteredEntities`. -/
def clientErrorStep {ID Entity : Type} (et : EntityType Entity) (errClient : Logs.GoError)
    (st : cachedIdProvider ID Entity × UnregisteredEntities Entity) (e : Entity) :
    cachedIdProvider ID Entity × UnregisteredEntities Entity :=
  let unregisteredEntity := newUnregisteredEntity e reasonClientError (some errClient)
  ({ st.1 with unregisteredEntities := st.1.unregisteredEntities.set (et.Name e) unregisteredEntity },
    st.2 ++ [unregisteredEntity])

/-- Body of the loop over `response`, on the provider, the map
`registeredEntities` and the list `unregisteredEntities`. -/
def responseStep {ID Entity : Type} (et : EntityType Entity) (nameToEntity : GoMapOf Entity)
    (st : cachedIdProvider ID Entity × registeredEntitiesNameToID ID × UnregisteredEntities Entity)
    (r : RegisterEntityResponse ID) :
    cachedIdProvider ID Entity × registeredEntitiesNameToID ID × UnregisteredEntities Entity :=
  if r.Err ≠ "" then
    let unregisteredEntity :=
      newUnregisteredEntity ((nameToEntity.get r.Name).getD et.zero) reasonEntityError
        (some (fmt_Errorf r.Err))
    ({ st.1 with unregisteredEntities := st.1.unregisteredEntities.set r.Name unregisteredEntity },
      st.2.1, st.2.2 ++ [unregisteredEntity])
  else
    ({ st.1 with cache := st.1.cache.set r.Key r.ID }, st.2.1.set r.Key r.ID, st.2.2)

/-- Go `(*cachedIdProvider).ResolveEntities`. -/
def ResolveEntities {ID Entity : Type} (et : EntityType Entity) (p : cachedIdProvider ID Entity)
    (agentIdn : Identity ID) (entities : List Entity) : Resolved ID Entity :=
  let looked := entities.foldl (lookupStep et p.cache) ([], [])
  let registeredEntities := looked.1
  let entitiesToRegister := looked.2
  if entitiesToRegister.length = 0 then
    { registeredEntities := registeredEntities, unregisteredEntities := [], p := p, calls := [] }
  else
    let answer := p.client agentIdn.ID entitiesToRegister
    let response := answer.1
    let nameToEntity := entitiesToRegister.foldl (nameStep et) []
    match answer.2 with
    | some errClient =>
      let st := entitiesToRegister.foldl (clientErrorStep et errClient) (p, [])
      { registeredEntities := registeredEntities
        unregisteredEntities := st.2
        p := st.1
        calls := [(agentIdn.ID, entitiesToRegister)] }
    | none =>
      let st := response.foldl (responseStep et nameToEntity) (p, registeredEntities, [])
      { registeredEntities := st.2.1
        unregisteredEntities := st.2.2
        p := st.1
        calls := [(agentIdn.ID, entitiesToRegister)] }

/-! ## Sample inputs -/

/-- Entities given by their name and their display name. -/
def sampleEntityType : EntityType (String × String) :=
  { Name := Prod.fst, zero := ("", "") }

/-- A client that registers nothing and reports "internal server error". -/
def sampleFailingClient : RegisterClient Int (String × String) :=
  fun _ _ => ([], some "internal server error")

/-- A client that answers every call with one registered entity whose key is
not its name and one entity rejected as invalid. -/
def sampleClient : RegisterClient Int (String × String) :=
  fun _ _ =>
    ([{ ID := 1234, Key := "remote_entity_nginx_Key", Name := "remote_entity_nginx" },
      { ID := 0, Key := "remote_entity_kafka", Name := "remote_entity_kafka",
        Err := "invalid entityName" }], none)

/-- A client that registers every batch as one entity, `remote_entity_nginx`,
under a key that is not its name. -/
def sampleKeyClient : RegisterClient Int (String × String) :=
  fun _ _ =>
    ([{ ID := 1234, Key := "remote_entity_nginx_Key", Name := "remote_entity_nginx" }], none)

/-- A client that rejects every batch as one entity, `remote_entity_nginx`,
whose key is not its name. -/
def sampleKeyErrorClient : RegisterClient Int (String × String) :=
  fun _ _ =>
    ([{ ID := 0, Key := "remote_entity_nginx_Key", Name := "remote_entity_nginx",
        Err := "invalid entityName" }], none)

/-- A provider that has `remote_entity_flex` in its cache. -/
def sampleProvider (client : RegisterClient Int (String × String)) :
    cachedIdProvider Int (String × String) :=
  { client := client, cache := [("remote_entity_flex", 6543)], unregisteredEntities := [] }

/-- The agent identity of the samples. -/
def sampleIdentity : Identity Int := { ID := 13 }

end Dm

namespace Logs

/-! ## Theorems -/

/-! ### Association lists -/

theorem GoMap.get_filter_ne (m : GoMap) (k k' : String) (h : k ≠ k') :
    GoMap.get (m.filter (fun kv => !decide (kv.1 = k))) k' = GoMap.get m k' := by
  induction m with
  | nil => rfl
  | cons kv rest ih =>
    obtain ⟨a, b⟩ := kv
    by_cases ha : a = k
    · subst ha
      simp [List.filter, GoMap.get, h, ih]
    · simp [List.filter, GoMap.get, ha, ih]

theorem GoMap.get_set (m : GoMap) (k v k' : String) :
    GoMap.get (GoMap.set m k v) k' = if k = k' then some v else GoMap.get m k' := by
  unfold GoMap.set
  by_cases h : k = k'
  · simp [GoMap.get, h]
  · simp [GoMap.get, h, GoMap.get_filter_ne m k k' h]

theorem GoMap.get_eq_none_of_not_mem (m : GoMap) (k : String) (h : k ∉ GoMap.keys m) :
    GoMap.get m k = none := by
  induction m with
  | nil => rfl
  | cons kv rest ih =>
    obtain ⟨a, b⟩ := kv
    simp only [GoMap.keys, List.map_cons, List.mem_cons, not_or] at h
    have h2 : k ∉ GoMap.keys rest := h.2
    have h1 : ¬ a = k := fun e => h.1 e.symm
    simp [GoMap.get, h1, ih h2]

theorem GoMap.mem_keys_of_get (m : GoMap) (k v : String) (h : GoMap.get m k = some v) :
    k ∈ GoMap.keys m := by
  by_contra hk
  rw [GoMap.get_eq_none_of_not_mem m k hk] at h
  cases h

theorem GoMap.get_of_mem (m : GoMap) (hm : (GoMap.keys m).Nodup) (k v : String)
    (h : (k, v) ∈ m) : GoMap.get m k = some v := by
  induction m with
  | nil => cases h
  | cons kv rest ih =>
    obtain ⟨a, b⟩ := kv
    simp only [GoMap.keys, List.map_cons, List.nodup_cons] at hm
    rcases List.mem_cons.mp h with heq | hrest
    · cases heq
      simp [GoMap.get]
    · have hne : ¬ a = k := by
        intro e
        subst e
        exact hm.1 (List.mem_map_of_mem Prod.fst hrest)
      simp [GoMap.get, hne, ih hm.2 hrest]

/-! ### The record_modifier filter of one input -/

theorem isReserved_iff (k : String) :
    isReserved k = true ↔
      (k = "entity.guid.INFRA" ∨ k = "fb.input" ∨ k = "plugin.type" ∨ k = "hostname") := by
  simp [isReserved, rAttEntityGUID, rAttFbInput, rAttPluginType, rAttHostname, or_assoc]

theorem recordStep_foldl_fields (attrs : GoMap) (ret : FBCfgParser) :
    (attrs.foldl recordStep ret).Match = ret.Match ∧
      (attrs.foldl recordStep ret).Name = ret.Name ∧
      (attrs.foldl recordStep ret).RegexInclude = ret.RegexInclude ∧
      (attrs.foldl recordStep ret).RegexExclude = ret.RegexExclude := by
  induction attrs generalizing ret with
  | nil => exact ⟨rfl, rfl, rfl, rfl⟩
  | cons kv rest ih =>
    simp only [List.foldl_cons]
    obtain ⟨h1, h2, h3, h4⟩ := ih (recordStep ret kv)
    rw [h1, h2, h3, h4]
    unfold recordStep
    split <;> exact ⟨rfl, rfl, rfl, rfl⟩

theorem recordStep_foldl_get (attrs : GoMap) (hm : (GoMap.keys attrs).Nodup)
    (ret : FBCfgParser) (k : String) :
    GoMap.get (attrs.foldl recordStep ret).Records k =
      if isReserved k = true then GoMap.get ret.Records k
      else match GoMap.get attrs k with
        | some v => some v
        | none => GoMap.get ret.Records k := by
  induction attrs generalizing ret with
  | nil => simp [GoMap.get]
  | cons kv rest ih =>
    obtain ⟨a, b⟩ := kv
    simp only [GoMap.keys, List.map_cons, List.nodup_cons] at hm
    simp only [List.foldl_cons]
    rw [ih hm.2]
    by_cases hr : isReserved k = true
    · simp only [hr, if_true]
      unfold recordStep
      by_cases ha : isReserved a = true
      · simp [ha]
      · have hne : a ≠ k := fun e => ha (e ▸ hr)
        simp [ha, GoMap.get_set, hne]
    · simp only [hr, if_false]
      by_cases hak : a = k
      · subst hak
        have hnone : GoMap.get rest a = none := GoMap.get_eq_none_of_not_mem rest a hm.1
        simp [hnone, recordStep, hr, GoMap.get_set, GoMap.get]
      · simp only [GoMap.get, hak, if_false]
        cases hg : GoMap.get rest k with
        | some v => simp
        | none =>
          simp only
          unfold recordStep
          by_cases ha : isReserved a = true
          · simp [ha]
          · simp [ha, GoMap.get_set, hak]

theorem newRecordModifierFilterForInput_Match (tag kind : String) (attrs : GoMap) :
    (newRecordModifierFilterForInput tag kind attrs).Match = tag :=
  (recordStep_foldl_fields attrs _).1

theorem newRecordModifierFilterForInput_Name (tag kind : String) (attrs : GoMap) :
    (newRecordModifierFilterForInput tag kind attrs).Name = fbFilterTypeRecordModifier :=
  (recordStep_foldl_fields attrs _).2.1

/-! ### C1: the error of a failing block -/

/-- C1 (evaluation at the failing input): the block list made of a file block
followed by a block without any source. The second block fails to translate
with "invalid log integration config", yet `NewFBConf` returns a nil error,
because its bare `return` hands back the named result `e` that is never
assigned, and the returned configuration still carries the input and the
filter of the first block. -/
theorem NewFBConf_failing_block_returns_nil_error_and_partial_config (ext : External) :
    (parseConfigBlock ext sampleFileBlock "/var/db").2.2.2 = none ∧
      (parseConfigBlock ext sampleEmptyBlock "/var/db").2.2.2
        = some "invalid log integration config" ∧
      NewFBConf ext [sampleFileBlock, sampleEmptyBlock] sampleForward "GUID" "host"
        = ({ Inputs := [{ Name := "tail", Path := "/var/log/app.log", DB := "/var/db/fb.db",
                          Tag := "app", BufferMaxSize := "128k", SkipLongLines := "On" }]
             Parsers := [{ Name := "record_modifier", Match := "app",
                           Records := [("fb.input", "tail")] }] },
           none) :=
  ⟨rfl, rfl, rfl⟩

/-! ### C2: endpoint selection -/

/-- C2: `newNROutput` selects the endpoint by the precedence EU > staging >
default (the EU endpoint for an EU-region license key, also when the staging
flag is set; otherwise the staging endpoint when the flag is set; otherwise
the empty default endpoint) and copies the license key and the five proxy
fields verbatim. -/
theorem newNROutput_endpoint_precedence (ext : External) (cfg : LogForward) :
    (newNROutput ext cfg).Endpoint =
        (if ext.license_IsRegionEU cfg.License = true then euEndpoint
         else if cfg.IsStaging = true then stagingEndpoint
         else "") ∧
      (newNROutput ext cfg).LicenseKey = cfg.License ∧
      (newNROutput ext cfg).IgnoreSystemProxy = cfg.ProxyCfg.IgnoreSystemProxy ∧
      (newNROutput ext cfg).Proxy = cfg.ProxyCfg.Proxy ∧
      (newNROutput ext cfg).CABundleFile = cfg.ProxyCfg.CABundleFile ∧
      (newNROutput ext cfg).CABundleDir = cfg.ProxyCfg.CABundleDir ∧
      (newNROutput ext cfg).ValidateCerts = cfg.ProxyCfg.ValidateCerts := by
  unfold newNROutput
  cases hEU : ext.license_IsRegionEU cfg.License <;> cases hS : cfg.IsStaging <;> simp

/-! ### C3: reserved keys in the record_modifier filter of an input -/

/-- C3: for every tag, input kind and user attribute map (an association list
with distinct keys), the filter built by `newRecordModifierFilterForInput` is
a record_modifier filter with `Match = tag` whose `Records` (1) map
`fb.input` to the input kind, (2) map every user key that is none of
`entity.guid.INFRA`, `fb.input`, `plugin.type`, `hostname` to the user's
value, and (3) hold no other key: every key present is `fb.input` or a user
key outside the four reserved ones. -/
theorem newRecordModifierFilterForInput_records (tag kind : String) (attrs : GoMap)
    (hm : (GoMap.keys attrs).Nodup) :
    (newRecordModifierFilterForInput tag kind attrs).Name = "record_modifier" ∧
      (newRecordModifierFilterForInput tag kind attrs).Match = tag ∧
      GoMap.get (newRecordModifierFilterForInput tag kind attrs).Records "fb.input" = some kind ∧
      (∀ k v, (k, v) ∈ attrs →
        k ≠ "entity.guid.INFRA" → k ≠ "fb.input" → k ≠ "plugin.type" → k ≠ "hostname" →
        GoMap.get (newRecordModifierFilterForInput tag kind attrs).Records k = some v) ∧
      (∀ k, GoMap.get (newRecordModifierFilterForInput tag kind attrs).Records k ≠ none →
        k = "fb.input" ∨
          (k ∈ GoMap.keys attrs ∧
            k ≠ "entity.guid.INFRA" ∧ k ≠ "fb.input" ∧ k ≠ "plugin.type" ∧ k ≠ "hostname")) := by
  have hget : ∀ k, GoMap.get (newRecordModifierFilterForInput tag kind attrs).Records k =
      if isReserved k = true then (if "fb.input" = k then some kind else none)
      else match GoMap.get attrs k with
        | some v => some v
        | none => (if "fb.input" = k then some kind else none) := by
    intro k
    unfold newRecordModifierFilterForInput
    rw [recordStep_foldl_get attrs hm]
    simp [GoMap.get_set, GoMap.get, rAttFbInput]
  refine ⟨newRecordModifierFilterForInput_Name tag kind attrs,
    newRecordModifierFilterForInput_Match tag kind attrs, ?_, ?_, ?_⟩
  · rw [hget]
    have hr : isReserved "fb.input" = true := (isReserved_iff _).2 (Or.inr (Or.inl rfl))
    simp [hr]
  · intro k v hmem h1 h2 h3 h4
    have hr : ¬ isReserved k = true := by
      rw [isReserved_iff]
      rintro (h | h | h | h)
      exacts [h1 h, h2 h, h3 h, h4 h]
    rw [hget, if_neg hr, GoMap.get_of_mem attrs hm k v hmem]
  · intro k hk
    rw [hget] at hk
    by_cases hr : isReserved k = true
    · rw [if_pos hr] at hk
      by_cases hf : "fb.input" = k
      · exact Or.inl hf.symm
      · rw [if_neg hf] at hk
        exact absurd rfl hk
    · rw [if_neg hr] at hk
      by_cases hf : "fb.input" = k
      · exact Or.inl hf.symm
      · right
        have hnr := hr
        rw [isReserved_iff] at hnr
        push_neg at hnr
        refine ⟨?_, hnr.1, hnr.2.1, hnr.2.2.1, hnr.2.2.2⟩
        cases hg : GoMap.get attrs k with
        | some v => exact GoMap.mem_keys_of_get attrs k v hg
        | none =>
          rw [hg] at hk
          simp only [if_neg hf] at hk
          exact absurd rfl hk

/-- Witness of C3: a user map that tries to override `fb.input` and
`hostname` and adds the key `team`. -/
theorem newRecordModifierFilterForInput_records_witness :
    (GoMap.keys [("fb.input", "mine"), ("team", "core"), ("hostname", "h")]).Nodup ∧
      GoMap.get (newRecordModifierFilterForInput "app" "tail"
        [("fb.input", "mine"), ("team", "core"), ("hostname", "h")]).Records "fb.input"
          = some "tail" ∧
      GoMap.get (newRecordModifierFilterForInput "app" "tail"
        [("fb.input", "mine"), ("team", "core"), ("hostname", "h")]).Records "team"
          = some "core" ∧
      GoMap.get (newRecordModifierFilterForInput "app" "tail"
        [("fb.input", "mine"), ("team", "core"), ("hostname", "h")]).Records "hostname"
          = none :=
  have h := newRecordModifierFilterForInput_records "app" "tail"
    [("fb.input", "mine"), ("team", "core"), ("hostname", "h")] (by decide)
  ⟨by decide, h.2.2.1,
    h.2.2.2.1 "team" "core" (by decide) (by decide) (by decide) (by decide) (by decide),
    by decide⟩

/-! ### C6: the external block short-circuits -/

/-- C6: for every block whose `Fluentbit` field is set, `parseConfigBlock`
returns no error, the zero input descriptor, no filters and the external
reference made of `config_file` and `parsers_file`, whatever the other
fields of the block hold. -/
theorem parseConfigBlock_external (ext : External) (l : LogCfg) (logsHomeDir : String)
    (f : LogExternalFBCfg) (h : l.Fluentbit = some f) :
    parseConfigBlock ext l logsHomeDir =
      ({}, [], { CfgFilePath := f.CfgPath, ParsersFilePath := f.ParsersPath }, none) := by
  unfold parseConfigBlock
  rw [h]
  rfl

/-- Witness of C6: the external block also declares a file, a syslog URI of
an unsupported scheme and a tcp URI without a port; both URIs are rejected by
their own translators. -/
theorem parseConfigBlock_external_witness :
    sampleExternalBlock.Fluentbit
        = some { CfgPath := "/etc/fb/fb.conf", ParsersPath := "/etc/fb/parsers.conf" } ∧
      (newSyslogInput { URI := "ftp://x" } "ext" 128).2 ≠ none ∧
      (newTcpInput { Uri := "tcp://nowhere" } "ext" 128).2 ≠ none ∧
      parseConfigBlock sampleExternal sampleExternalBlock "/var/db" =
        ({}, [], { CfgFilePath := "/etc/fb/fb.conf", ParsersFilePath := "/etc/fb/parsers.conf" },
          none) :=
  ⟨rfl, by decide, by decide,
    parseConfigBlock_external sampleExternal sampleExternalBlock "/var/db"
      { CfgPath := "/etc/fb/fb.conf", ParsersPath := "/etc/fb/parsers.conf" } rfl⟩

/-! ### C7: one of descriptors or error -/

/-- C7 (evaluation at the failing input): a Winlog block whose collect list
holds the token `abc`. `parseConfigBlock` returns the error
"invalid EventId or range format" together with a non-zero input descriptor
and a non-empty filter list, where the Syslog and Tcp translators return the
zero descriptor and no filter next to their error. -/
theorem parseConfigBlock_winlog_error_keeps_descriptors (ext : External) :
    parseConfigBlock ext sampleBadWinlogBlock "/var/db"
        = ({ Name := "winlog", Channels := "Application", Tag := "w", DB := "/var/db/fb.db" },
           [{ Name := "record_modifier", Match := "w", Records := [("fb.input", "winlog")] }],
           {}, some "invalid EventId or range format") ∧
      (parseConfigBlock ext sampleBadWinlogBlock "/var/db").1 ≠ {} ∧
      (parseConfigBlock ext sampleBadWinlogBlock "/var/db").2.1 ≠ [] ∧
      parseSyslogInput { Name := "s" } { URI := "ftp://x" }
        = ({}, [], some ("syslog: wrong uri format or unsupported protocol " ++
            "(tcp, udp, unix_tcp, unix_udp) ftp://x")) ∧
      parseTcpInput { Name := "t" } { Uri := "tcp://nowhere" }
        = ({}, [], some "tcp: wrong uri format tcp://nowhere") := by
  refine ⟨rfl, ?_, ?_, rfl, rfl⟩
  · intro h
    have h2 := congrArg FBCfgInput.Name h
    revert h2
    change ¬ ("winlog" = "")
    decide
  · intro h
    have h2 := congrArg List.length h
    revert h2
    change ¬ (1 = 0)
    decide

/-! ### Translators of one block -/

theorem ne_of_head_ne (a b : String) (h : a.data.head? ≠ b.data.head?) : a ≠ b :=
  fun e => h (e ▸ rfl)

theorem numberRangesToRegexLoop_error (ext : External) (l acc : List String) :
    (numberRangesToRegexLoop ext l acc).2 = none ∨
      (numberRangesToRegexLoop ext l acc).2 = some "invalid EventId or range format" := by
  induction l generalizing acc with
  | nil => exact Or.inl rfl
  | cons t rest ih =>
    unfold numberRangesToRegexLoop
    split_ifs
    · exact ih _
    · exact ih _
    · exact Or.inr rfl

theorem newSyslogInput_spec (l : LogSyslogCfg) (tag : String) (bufSize : Int) :
    ((newSyslogInput l tag bufSize).2 = none ∧
        (newSyslogInput l tag bufSize).1.Name = "syslog") ∨
      (∃ e, (newSyslogInput l tag bufSize).2 = some e ∧ e.data.head? = some 's' ∧
        (newSyslogInput l tag bufSize).1 = {}) := by
  unfold newSyslogInput
  dsimp only
  split_ifs
  all_goals first
    | exact Or.inl ⟨rfl, rfl⟩
    | exact Or.inr ⟨_, rfl, rfl, rfl⟩

theorem newTcpInput_spec (t : LogTcpCfg) (tag : String) (bufSize : Int) :
    ((newTcpInput t tag bufSize).2 = none ∧ (newTcpInput t tag bufSize).1.Name = "tcp") ∨
      (∃ e, (newTcpInput t tag bufSize).2 = some e ∧ e.data.head? = some 't' ∧
        (newTcpInput t tag bufSize).1 = {}) := by
  unfold newTcpInput
  dsimp only
  split_ifs
  all_goals first
    | exact Or.inl ⟨rfl, rfl⟩
    | exact Or.inr ⟨_, rfl, rfl, rfl⟩

theorem parseSyslogInput_spec (l : LogCfg) (syslog : LogSyslogCfg) :
    ((parseSyslogInput l syslog).2.2 = none ∧ (parseSyslogInput l syslog).1.Name = "syslog") ∨
      (∃ e, (parseSyslogInput l syslog).2.2 = some e ∧ e.data.head? = some 's' ∧
        (parseSyslogInput l syslog).1 = {} ∧ (parseSyslogInput l syslog).2.1 = []) := by
  unfold parseSyslogInput
  rcases newSyslogInput_spec syslog l.Name (getBufferMaxSize l) with ⟨h1, h2⟩ | ⟨e, h1, h2, _⟩
  · rcases hr : newSyslogInput syslog l.Name (getBufferMaxSize l) with ⟨inp, err⟩
    rw [hr] at h1 h2
    simp only at h1 h2
    subst h1
    exact Or.inl ⟨rfl, h2⟩
  · rcases hr : newSyslogInput syslog l.Name (getBufferMaxSize l) with ⟨inp, err⟩
    rw [hr] at h1
    simp only at h1
    subst h1
    exact Or.inr ⟨e, rfl, h2, rfl, rfl⟩

theorem parseTcpInput_spec (l : LogCfg) (tcp : LogTcpCfg) :
    ((parseTcpInput l tcp).2.2 = none ∧ (parseTcpInput l tcp).1.Name = "tcp") ∨
      (∃ e, (parseTcpInput l tcp).2.2 = some e ∧ e.data.head? = some 't' ∧
        (parseTcpInput l tcp).1 = {} ∧ (parseTcpInput l tcp).2.1 = []) := by
  unfold parseTcpInput
  rcases newTcpInput_spec tcp l.Name (getBufferMaxSize l) with ⟨h1, h2⟩ | ⟨e, h1, h2, _⟩
  · rcases hr : newTcpInput tcp l.Name (getBufferMaxSize l) with ⟨inp, err⟩
    rw [hr] at h1 h2
    simp only at h1 h2
    subst h1
    exact Or.inl ⟨rfl, h2⟩
  · rcases hr : newTcpInput tcp l.Name (getBufferMaxSize l) with ⟨inp, err⟩
    rw [hr] at h1
    simp only at h1
    subst h1
    exact Or.inr ⟨e, rfl, h2, rfl, rfl⟩

theorem parseWinlogInput_spec (ext : External) (l : LogCfg) (winlog : LogWinlogCfg)
    (dbPath : String) :
    (parseWinlogInput ext l winlog dbPath).1.Name = "winlog" ∧
      ((parseWinlogInput ext l winlog dbPath).2.2 = none ∨
        (parseWinlogInput ext l winlog dbPath).2.2 = some "invalid EventId or range format") := by
  unfold parseWinlogInput
  dsimp only
  split_ifs
  · rcases hi : numberRangesToRegex ext winlog.CollectEventIds with ⟨ri, ei⟩
    have h1 := numberRangesToRegexLoop_error ext winlog.CollectEventIds []
    rw [show numberRangesToRegexLoop ext winlog.CollectEventIds [] =
      numberRangesToRegex ext winlog.CollectEventIds from rfl, hi] at h1
    simp only at h1
    rcases h1 with h1 | h1
    · subst h1
      rcases he : numberRangesToRegex ext winlog.ExcludeEventIds with ⟨re, ee⟩
      have h2 := numberRangesToRegexLoop_error ext winlog.ExcludeEventIds []
      rw [show numberRangesToRegexLoop ext winlog.ExcludeEventIds [] =
        numberRangesToRegex ext winlog.ExcludeEventIds from rfl, he] at h2
      simp only at h2
      rcases h2 with h2 | h2
      · subst h2
        exact ⟨rfl, Or.inl rfl⟩
      · subst h2
        exact ⟨rfl, Or.inr rfl⟩
    · subst h1
      exact ⟨rfl, Or.inr rfl⟩
  · exact ⟨rfl, Or.inl rfl⟩

theorem parseConfigBlockSources_of_no_source (ext : External) (l : LogCfg) (dbPath : String)
    (h : l.File = "" ∧ l.Folder = "" ∧ l.Systemd = "" ∧ l.EventLog = "" ∧
      l.Syslog = none ∧ l.Tcp = none ∧ l.Winlog = none) :
    parseConfigBlockSources ext l dbPath = ({}, [], none) := by
  obtain ⟨h1, h2, h3, h4, h5, h6, h7⟩ := h
  unfold parseConfigBlockSources
  simp [h1, h2, h3, h4, h5, h6, h7]

/-- With a source, the chain of `parseConfigBlock` ends either without error
and with a named input, or with an error other than the malformed-block
one. -/
theorem parseConfigBlockSources_of_source (ext : External) (l : LogCfg) (dbPath : String)
    (h : ¬ (l.File = "" ∧ l.Folder = "" ∧ l.Systemd = "" ∧ l.EventLog = "" ∧
      l.Syslog = none ∧ l.Tcp = none ∧ l.Winlog = none)) :
    ((parseConfigBlockSources ext l dbPath).2.2 = none ∧
        (parseConfigBlockSources ext l dbPath).1.Name ≠ "") ∨
      (∃ e, (parseConfigBlockSources ext l dbPath).2.2 = some e ∧
        e ≠ "invalid log integration config") := by
  unfold parseConfigBlockSources
  by_cases h1 : l.File = ""
  swap
  · rw [if_pos h1]
    have hn : ("tail" : String) ≠ "" := by decide
    exact Or.inl ⟨rfl, hn⟩
  rw [if_neg (not_not.mpr h1)]
  by_cases h2 : l.Folder = ""
  swap
  · rw [if_pos h2]
    have hn : ("tail" : String) ≠ "" := by decide
    exact Or.inl ⟨rfl, hn⟩
  rw [if_neg (not_not.mpr h2)]
  by_cases h3 : l.Systemd = ""
  swap
  · rw [if_pos h3]
    have hn : ("systemd" : String) ≠ "" := by decide
    exact Or.inl ⟨rfl, hn⟩
  rw [if_neg (not_not.mpr h3)]
  by_cases h4 : l.EventLog = ""
  swap
  · rw [if_pos h4]
    have hn : ("winlog" : String) ≠ "" := by decide
    exact Or.inl ⟨rfl, hn⟩
  rw [if_neg (not_not.mpr h4)]
  cases h5 : l.Syslog with
  | some syslog =>
    simp only
    rcases parseSyslogInput_spec l syslog with ⟨e1, e2⟩ | ⟨e, e1, e2, _⟩
    · exact Or.inl ⟨e1, by rw [e2]; decide⟩
    · exact Or.inr ⟨e, e1, ne_of_head_ne _ _ (by rw [e2]; decide)⟩
  | none =>
    cases h6 : l.Tcp with
    | some tcp =>
      simp only
      rcases parseTcpInput_spec l tcp with ⟨e1, e2⟩ | ⟨e, e1, e2, _⟩
      · exact Or.inl ⟨e1, by rw [e2]; decide⟩
      · exact Or.inr ⟨e, e1, ne_of_head_ne _ _ (by rw [e2]; decide)⟩
    | none =>
      cases h7 : l.Winlog with
      | some winlog =>
        simp only
        obtain ⟨e1, e2 | e2⟩ := parseWinlogInput_spec ext l winlog dbPath
        · exact Or.inl ⟨e2, by rw [e1]; decide⟩
        · exact Or.inr ⟨_, e2, by decide⟩
      | none => exact absurd ⟨h1, h2, h3, h4, h5, h6, h7⟩ h

theorem FBCfgInput.ne_zero_of_Name (i : FBCfgInput) (h : i.Name ≠ "") : i ≠ {} :=
  fun e => h (e ▸ rfl)

/-! ### C8: the malformed-block error -/

/-- C8: for every block with `Fluentbit` unset, `parseConfigBlock` fails with
"invalid log integration config" exactly when no source variant is populated
(`File`, `Folder`, `Systemd`, `EventLog` empty and `Syslog`, `Tcp`, `Winlog`
nil); and whenever it returns no error the input descriptor is not the zero
value. -/
theorem parseConfigBlock_malformed_iff (ext : External) (l : LogCfg) (logsHomeDir : String)
    (hf : l.Fluentbit = none) :
    ((parseConfigBlock ext l logsHomeDir).2.2.2 = some "invalid log integration config" ↔
        (l.File = "" ∧ l.Folder = "" ∧ l.Systemd = "" ∧ l.EventLog = "" ∧
          l.Syslog = none ∧ l.Tcp = none ∧ l.Winlog = none)) ∧
      ((parseConfigBlock ext l logsHomeDir).2.2.2 = none →
        (parseConfigBlock ext l logsHomeDir).1 ≠ {}) := by
  unfold parseConfigBlock
  rw [hf]
  dsimp only
  by_cases hs : (l.File = "" ∧ l.Folder = "" ∧ l.Systemd = "" ∧ l.EventLog = "" ∧
      l.Syslog = none ∧ l.Tcp = none ∧ l.Winlog = none)
  · rw [parseConfigBlockSources_of_no_source ext l _ hs]
    simp [hs]
  · rcases parseConfigBlockSources_of_source ext l
      (filepath_Join [logsHomeDir, fluentBitDbName]) hs with ⟨e1, e2⟩ | ⟨e, e1, e2⟩
    · have hz := FBCfgInput.ne_zero_of_Name _ e2
      rw [if_neg (not_not.mpr e1), if_neg hz]
      simp [hs, hz]
    · have hne : (parseConfigBlockSources ext l
          (filepath_Join [logsHomeDir, fluentBitDbName])).2.2 ≠ none := by
        rw [e1]
        exact Option.some_ne_none e
      rw [if_pos hne, e1]
      simp [hs, e2]

/-- Witness of C8: a block without any source fails with the malformed-block
error; a block with a file does not fail. -/
theorem parseConfigBlock_malformed_iff_witness :
    sampleEmptyBlock.Fluentbit = none ∧
      (parseConfigBlock sampleExternal sampleEmptyBlock "/var/db").2.2.2
        = some "invalid log integration config" ∧
      (parseConfigBlock sampleExternal sampleFileBlock "/var/db").2.2.2 = none :=
  ⟨rfl,
    (parseConfigBlock_malformed_iff sampleExternal sampleEmptyBlock "/var/db" rfl).1.2
      ⟨rfl, rfl, rfl, rfl, rfl, rfl, rfl⟩,
    rfl⟩

/-! ### Filters of one block are matched on the block name -/

theorem newGrepFilter_Match (tag grepField regexInclude regexExclude : String) :
    (newGrepFilter tag grepField regexInclude regexExclude).Match = tag := by
  unfold newGrepFilter
  dsimp only
  split_ifs <;> rfl

theorem parsePattern_Match (l : LogCfg) (field : String) (filters : List FBCfgParser)
    (h : ∀ p ∈ filters, p.Match = l.Name) :
    ∀ p ∈ parsePattern l field filters, p.Match = l.Name := by
  intro p hp
  unfold parsePattern at hp
  split_ifs at hp
  · rcases List.mem_append.mp hp with hp | hp
    · exact h p hp
    · rw [List.mem_singleton.mp hp]
      exact newGrepFilter_Match _ _ _ _
  · exact h p hp

theorem recordModifier_singleton_Match (l : LogCfg) (kind : String) :
    ∀ p ∈ [newRecordModifierFilterForInput l.Name kind l.Attributes], p.Match = l.Name := by
  intro p hp
  rw [List.mem_singleton.mp hp]
  exact newRecordModifierFilterForInput_Match _ _ _

theorem parseSyslogInput_Match (l : LogCfg) (syslog : LogSyslogCfg) :
    ∀ p ∈ (parseSyslogInput l syslog).2.1, p.Match = l.Name := by
  unfold parseSyslogInput
  rcases newSyslogInput syslog l.Name (getBufferMaxSize l) with ⟨inp, _ | e⟩
  · exact parsePattern_Match l _ _ (recordModifier_singleton_Match l _)
  · intro p hp
    cases hp

theorem parseTcpInput_Match (l : LogCfg) (tcp : LogTcpCfg) :
    ∀ p ∈ (parseTcpInput l tcp).2.1, p.Match = l.Name := by
  unfold parseTcpInput
  rcases newTcpInput tcp l.Name (getBufferMaxSize l) with ⟨inp, _ | e⟩
  · dsimp only
    split_ifs
    · exact parsePattern_Match l _ _ (recordModifier_singleton_Match l _)
    · exact recordModifier_singleton_Match l _
  · intro p hp
    cases hp

theorem parseWinlogInput_Match (ext : External) (l : LogCfg) (winlog : LogWinlogCfg)
    (dbPath : String) :
    ∀ p ∈ (parseWinlogInput ext l winlog dbPath).2.1, p.Match = l.Name := by
  unfold parseWinlogInput
  dsimp only
  split_ifs
  · rcases numberRangesToRegex ext winlog.CollectEventIds with ⟨ri, _ | ei⟩
    · rcases numberRangesToRegex ext winlog.ExcludeEventIds with ⟨re, _ | ee⟩
      · intro p hp
        rcases List.mem_append.mp hp with hp | hp
        · exact recordModifier_singleton_Match l _ p hp
        · rw [List.mem_singleton.mp hp]
          exact newGrepFilter_Match _ _ _ _
      · exact recordModifier_singleton_Match l _
    · exact recordModifier_singleton_Match l _
  · exact recordModifier_singleton_Match l _

theorem parseConfigBlockSources_Match (ext : External) (l : LogCfg) (dbPath : String) :
    ∀ p ∈ (parseConfigBlockSources ext l dbPath).2.1, p.Match = l.Name := by
  unfold parseConfigBlockSources
  split_ifs
  · exact parsePattern_Match l _ _ (recordModifier_singleton_Match l _)
  · exact parsePattern_Match l _ _ (recordModifier_singleton_Match l _)
  · exact parsePattern_Match l _ _ (recordModifier_singleton_Match l _)
  · exact recordModifier_singleton_Match l _
  · split
    · exact parseSyslogInput_Match l _
    · exact parseTcpInput_Match l _
    · exact parseWinlogInput_Match ext l _ dbPath
    · intro p hp
      cases hp

theorem parseConfigBlock_Match (ext : External) (l : LogCfg) (logsHomeDir : String) :
    ∀ p ∈ (parseConfigBlock ext l logsHomeDir).2.1, p.Match = l.Name := by
  unfold parseConfigBlock
  split
  · intro p hp
    cases hp
  · dsimp only
    split_ifs <;> exact parseConfigBlockSources_Match ext l _

theorem parseConfigBlock_ExternalCfg (ext : External) (l : LogCfg) (logsHomeDir : String) :
    (parseConfigBlock ext l logsHomeDir).2.2.1 =
      match l.Fluentbit with
      | some f => { CfgFilePath := f.CfgPath, ParsersFilePath := f.ParsersPath }
      | none => {} := by
  unfold parseConfigBlock
  split
  · rfl
  · dsimp only
    split_ifs <;> rfl

/-! ### The loop of `NewFBConf` -/

/-- When every block translates without error the loop of `NewFBConf` runs to
its end: the inputs are the non-zero input descriptors in block order, the
filters are the filters of all blocks in block order, and the external
reference is the first non-zero one, the one already set coming first. -/
theorem NewFBConfLoop_of_no_error (ext : External) (homeDir : String) (blocks : List LogCfg)
    (fb : FBCfg) (e : Option GoError)
    (hok : ∀ b ∈ blocks, (parseConfigBlock ext b homeDir).2.2.2 = none) :
    NewFBConfLoop ext homeDir blocks fb e =
      { fb :=
          { Inputs := fb.Inputs ++
              (blocks.map (fun b => (parseConfigBlock ext b homeDir).1)).filter
                (fun i => decide (i ≠ {}))
            Parsers := fb.Parsers ++
              (blocks.map (fun b => (parseConfigBlock ext b homeDir).2.1)).flatten
            ExternalCfg :=
              ((fb.ExternalCfg :: blocks.map (fun b => (parseConfigBlock ext b homeDir).2.2.1)).find?
                (fun x => decide (x ≠ {}))).getD {}
            Output := fb.Output }
        e := e
        returned := false } := by
  induction blocks generalizing fb with
  | nil =>
    unfold NewFBConfLoop
    by_cases hx : fb.ExternalCfg = {}
    · simp [hx]
      rw [← hx]
    · simp [hx]
  | cons b rest ih =>
    have hb : (parseConfigBlock ext b homeDir).2.2.2 = none := hok b (List.mem_cons_self _ _)
    have hrest : ∀ b' ∈ rest, (parseConfigBlock ext b' homeDir).2.2.2 = none :=
      fun b' hb' => hok b' (List.mem_cons_of_mem _ hb')
    unfold NewFBConfLoop
    rcases hp : parseConfigBlock ext b homeDir with ⟨input, filters, external, err⟩
    rw [hp] at hb
    simp only at hb
    subst hb
    simp only [ne_eq, not_true_eq_false, if_false]
    rw [ih _ hrest]
    by_cases hi : input = {} <;> by_cases hx : external = {} <;>
      by_cases hf : fb.ExternalCfg = {} <;>
      simp [hp, hi, hx, hf, List.filter_cons, List.find?_cons]

theorem NewFBConfLoop_e (ext : External) (homeDir : String) (blocks : List LogCfg)
    (fb : FBCfg) (e : Option GoError) :
    (NewFBConfLoop ext homeDir blocks fb e).e = e := by
  induction blocks generalizing fb with
  | nil => rfl
  | cons b rest ih =>
    unfold NewFBConfLoop
    rcases parseConfigBlock ext b homeDir with ⟨input, filters, external, err⟩
    dsimp only
    by_cases herr : err = none
    · rw [if_neg (not_not.mpr herr)]
      exact ih _
    · rw [if_pos herr]

/-- The error result of `NewFBConf` is nil on every input: the named result
`e` is never assigned. -/
theorem NewFBConf_error_nil (ext : External) (blocks : List LogCfg) (cfg : LogForward)
    (entityGUID hostname : String) :
    (NewFBConf ext blocks cfg entityGUID hostname).2 = none := by
  unfold NewFBConf
  dsimp only
  split_ifs <;> exact NewFBConfLoop_e ext _ blocks _ none

/-- Result of `NewFBConf` when every block translates without error: the
empty configuration when there is neither an input nor an external
reference, and otherwise the inputs, the filters followed by the global
record_modifier filter, the first non-zero external reference and the
output. -/
theorem NewFBConf_of_no_error (ext : External) (blocks : List LogCfg) (cfg : LogForward)
    (entityGUID hostname : String)
    (hok : ∀ b ∈ blocks, (parseConfigBlock ext b cfg.HomeDir).2.2.2 = none) :
    NewFBConf ext blocks cfg entityGUID hostname =
      if (blocks.map (fun b => (parseConfigBlock ext b cfg.HomeDir).1)).filter
            (fun i => decide (i ≠ {})) = [] ∧
          ((blocks.map (fun b => (parseConfigBlock ext b cfg.HomeDir).2.2.1)).find?
            (fun x => decide (x ≠ {}))).getD {} = {} then
        ({ Inputs := []
           Parsers := (blocks.map (fun b => (parseConfigBlock ext b cfg.HomeDir).2.1)).flatten
           ExternalCfg := {}
           Output := {} }, none)
      else
        ({ Inputs := (blocks.map (fun b => (parseConfigBlock ext b cfg.HomeDir).1)).filter
             (fun i => decide (i ≠ {}))
           Parsers := (blocks.map (fun b => (parseConfigBlock ext b cfg.HomeDir).2.1)).flatten ++
             [{ Name := "record_modifier"
                Match := "*"
                Records := [("hostname", hostname), ("plugin.type", "nri-agent"),
                  ("entity.guid.INFRA", entityGUID)] }]
           ExternalCfg :=
             ((blocks.map (fun b => (parseConfigBlock ext b cfg.HomeDir).2.2.1)).find?
               (fun x => decide (x ≠ {}))).getD {}
           Output := newNROutput ext cfg }, none) := by
  unfold NewFBConf
  dsimp only
  rw [NewFBConfLoop_of_no_error ext cfg.HomeDir blocks _ none hok]
  have hfind : ∀ l : List FBCfgExternal,
      (List.find? (fun x => decide (x ≠ {})) (({} : FBCfgExternal) :: l))
        = List.find? (fun x => decide (x ≠ {})) l := by
    intro l
    simp [List.find?_cons]
  simp only [hfind, List.nil_append, Bool.false_eq_true, if_false, List.length_eq_zero]
  split_ifs with h
  · rw [h.1, h.2]
  · rfl

/-! ### C4: the global record_modifier filter -/

/-- The sample file block translates without error. -/
theorem sample_file_block_translates :
    ∀ b ∈ [sampleFileBlock], (parseConfigBlock sampleExternal b "/var/db").2.2.2 = none := by
  intro b hb
  rw [List.mem_singleton.mp hb]
  rfl

/-- C4 (counterexample): for the block list made of one file block, which
translates without error and yields one input, no filter with Match `*`
returned by `NewFBConf` carries all four reserved keys: the only such filter
has no `fb.input` record. -/
theorem NewFBConf_global_filter_four_keys_counterexample :
    (∀ b ∈ [sampleFileBlock], (parseConfigBlock sampleExternal b "/var/db").2.2.2 = none) ∧
      (NewFBConf sampleExternal [sampleFileBlock] sampleForward "GUID" "host").1.Inputs ≠ [] ∧
      ¬ (∃ f,
          (NewFBConf sampleExternal [sampleFileBlock] sampleForward "GUID" "host").1.Parsers.filter
              (fun p => decide (p.Match = "*")) = [f] ∧
            f.Name = "record_modifier" ∧
            GoMap.get f.Records "entity.guid.INFRA" = some "GUID" ∧
            GoMap.get f.Records "fb.input" ≠ none ∧
            GoMap.get f.Records "plugin.type" = some "nri-agent" ∧
            GoMap.get f.Records "hostname" = some "host") := by
  refine ⟨sample_file_block_translates, by decide, ?_⟩
  rintro ⟨f, hf, -, -, h4, -, -⟩
  have hfilter :
      (NewFBConf sampleExternal [sampleFileBlock] sampleForward "GUID" "host").1.Parsers.filter
          (fun p => decide (p.Match = "*"))
        = [{ Name := "record_modifier", Match := "*",
             Records := [("hostname", "host"), ("plugin.type", "nri-agent"),
               ("entity.guid.INFRA", "GUID")] }] := by
    decide
  rw [hfilter] at hf
  have hf2 := (List.cons.inj hf).1
  rw [← hf2] at h4
  exact h4 (by decide)

/-- C4 (amended): for every block list that translates without error and
yields at least one input or an external reference, the filter list returned
by `NewFBConf` ends with the global filter: a record_modifier filter with
Match `*` whose Records hold exactly three reserved keys, `entity.guid.INFRA`
(the entity GUID argument), `plugin.type` (`nri-agent`) and `hostname` (the
hostname argument), and no `fb.input`. Every filter before it is matched on
the name of one of the blocks, so the global filter is the only filter with
Match `*` when no block is named `*`. -/
theorem NewFBConf_global_filter (ext : External) (blocks : List LogCfg) (cfg : LogForward)
    (entityGUID hostname : String)
    (hok : ∀ b ∈ blocks, (parseConfigBlock ext b cfg.HomeDir).2.2.2 = none)
    (hne : (NewFBConf ext blocks cfg entityGUID hostname).1.Inputs ≠ [] ∨
      (NewFBConf ext blocks cfg entityGUID hostname).1.ExternalCfg ≠ {}) :
    ∃ pre g,
      (NewFBConf ext blocks cfg entityGUID hostname).1.Parsers = pre ++ [g] ∧
        g.Name = "record_modifier" ∧ g.Match = "*" ∧
        (∀ k, GoMap.get g.Records k =
          if k = "hostname" then some hostname
          else if k = "plugin.type" then some "nri-agent"
          else if k = "entity.guid.INFRA" then some entityGUID
          else none) ∧
        GoMap.get g.Records "fb.input" = none ∧
        (∀ p ∈ pre, ∃ b ∈ blocks, p.Match = b.Name) ∧
        ((∀ b ∈ blocks, b.Name ≠ "*") →
          (NewFBConf ext blocks cfg entityGUID hostname).1.Parsers.filter
            (fun p => decide (p.Match = "*")) = [g]) := by
  rw [NewFBConf_of_no_error ext blocks cfg entityGUID hostname hok] at hne ⊢
  split_ifs at hne ⊢ with h
  · rcases hne with hne | hne
    · exact absurd rfl hne
    · exact absurd rfl hne
  · have hpre : ∀ p ∈ (blocks.map (fun b => (parseConfigBlock ext b cfg.HomeDir).2.1)).flatten,
        ∃ b ∈ blocks, p.Match = b.Name := by
      intro p hp
      obtain ⟨fs, hfs, hpfs⟩ := List.mem_flatten.mp hp
      obtain ⟨b, hb, rfl⟩ := List.mem_map.mp hfs
      exact ⟨b, hb, parseConfigBlock_Match ext b cfg.HomeDir p hpfs⟩
    refine ⟨_, _, rfl, rfl, rfl, ?_, rfl, hpre, ?_⟩
    · intro k
      simp only [GoMap.get]
      by_cases h1 : k = "hostname"
      · simp [h1]
      · by_cases h2 : k = "plugin.type"
        · simp [h2]
        · by_cases h3 : k = "entity.guid.INFRA"
          · simp [h3]
          · simp [h1, h2, h3, eq_comm]
    · intro hstar
      simp only [List.filter_append]
      have hnil : List.filter (fun p => decide (p.Match = "*"))
          (blocks.map (fun b => (parseConfigBlock ext b cfg.HomeDir).2.1)).flatten = [] := by
        rw [List.filter_eq_nil_iff]
        intro p hp
        obtain ⟨b, hb, hm⟩ := hpre p hp
        simp only [decide_eq_true_eq]
        rw [hm]
        exact hstar b hb
      rw [hnil]
      rfl

/-- Witness of C4 (amended): one file block. The global filter is the last of
the two filters and the only one with Match `*`. -/
theorem NewFBConf_global_filter_witness :
    (∀ b ∈ [sampleFileBlock], (parseConfigBlock sampleExternal b sampleForward.HomeDir).2.2.2
        = none) ∧
      (NewFBConf sampleExternal [sampleFileBlock] sampleForward "GUID" "host").1.Inputs ≠ [] ∧
      ∃ pre g,
        (NewFBConf sampleExternal [sampleFileBlock] sampleForward "GUID" "host").1.Parsers
            = pre ++ [g] ∧
          g.Name = "record_modifier" ∧ g.Match = "*" ∧
          GoMap.get g.Records "fb.input" = none :=
  have h := NewFBConf_global_filter sampleExternal [sampleFileBlock] sampleForward "GUID" "host"
    sample_file_block_translates (Or.inl (by decide))
  ⟨sample_file_block_translates, by decide,
    h.elim fun pre hg => hg.elim fun g hg =>
      ⟨pre, g, hg.1, hg.2.1, hg.2.2.1, hg.2.2.2.2.1⟩⟩

/-! ### C5: the external reference -/

/-- The sample list of three external blocks translates without error. -/
theorem sample_external_blocks_translate :
    ∀ b ∈ sampleExternalBlocks, (parseConfigBlock sampleExternal b "/var/db").2.2.2 = none := by
  intro b hb
  have h : b = { Name := "first", Fluentbit := some {} } ∨
      b = { Name := "second",
            Fluentbit := some { CfgPath := "/etc/fb.conf", ParsersPath := "/etc/parsers.conf" } } ∨
      b = { Name := "third", Fluentbit := some { CfgPath := "/opt/fb.conf" } } := by
    simpa [sampleExternalBlocks] using hb
  rcases h with h | h | h <;> rw [h] <;> rfl

/-- C5 (counterexample): three external blocks, the first with two empty
paths. All translate without error; the first block that declares an
external configuration has the pair `("", "")`, yet `NewFBConf` returns the
pair of the second block. -/
theorem NewFBConf_first_external_counterexample :
    (∀ b ∈ sampleExternalBlocks, (parseConfigBlock sampleExternal b "/var/db").2.2.2 = none) ∧
      ((sampleExternalBlocks.filterMap (fun b => b.Fluentbit)).head?.map newFBExternalConfig
        = some { CfgFilePath := "", ParsersFilePath := "" }) ∧
      (NewFBConf sampleExternal sampleExternalBlocks sampleForward "GUID" "host").1.ExternalCfg
        = { CfgFilePath := "/etc/fb.conf", ParsersFilePath := "/etc/parsers.conf" } ∧
      (NewFBConf sampleExternal sampleExternalBlocks sampleForward "GUID" "host").1.ExternalCfg
        ≠ { CfgFilePath := "", ParsersFilePath := "" } :=
  ⟨sample_external_blocks_translate, by decide, by decide, by decide⟩

theorem externals_find (ext : External) (homeDir : String) (blocks : List LogCfg) :
    ((blocks.map (fun b => (parseConfigBlock ext b homeDir).2.2.1)).find?
        (fun x => decide (x ≠ {}))).getD {} =
      match (blocks.filterMap (fun b => b.Fluentbit)).find?
          (fun f => decide (f.CfgPath ≠ "" ∨ f.ParsersPath ≠ "")) with
      | some f => { CfgFilePath := f.CfgPath, ParsersFilePath := f.ParsersPath }
      | none => {} := by
  induction blocks with
  | nil => rfl
  | cons b rest ih =>
    simp only [List.map_cons, List.find?_cons]
    rw [parseConfigBlock_ExternalCfg]
    cases hb : b.Fluentbit with
    | none =>
      rw [List.filterMap_cons_none hb]
      simpa using ih
    | some f =>
      rw [List.filterMap_cons_some hb]
      simp only [List.find?_cons]
      by_cases hz : f.CfgPath ≠ "" ∨ f.ParsersPath ≠ ""
      · have hne : ({ CfgFilePath := f.CfgPath, ParsersFilePath := f.ParsersPath } : FBCfgExternal)
            ≠ {} := by
          intro h
          injection h with h1 h2
          rcases hz with hz | hz
          · exact hz h1
          · exact hz h2
        simp [hz, hne]
      · push_neg at hz
        have he : ({ CfgFilePath := f.CfgPath, ParsersFilePath := f.ParsersPath } : FBCfgExternal)
            = {} := by
          rw [hz.1, hz.2]
        simp only [ne_eq, he, not_true_eq_false, decide_False]
        simpa [hz.1, hz.2] using ih

/-- C5 (amended): for every block list that translates without error,
`NewFBConf` returns no error and the `ExternalCfg` of the result is the
`(config_file, parsers_file)` pair of the first block in declaration order
whose `Fluentbit` is set with at least one non-empty path; the pairs of all
later external blocks are dropped. Without such a block `ExternalCfg` is the
empty pair. -/
theorem NewFBConf_first_nonempty_external (ext : External) (blocks : List LogCfg)
    (cfg : LogForward) (entityGUID hostname : String)
    (hok : ∀ b ∈ blocks, (parseConfigBlock ext b cfg.HomeDir).2.2.2 = none) :
    (NewFBConf ext blocks cfg entityGUID hostname).2 = none ∧
      (NewFBConf ext blocks cfg entityGUID hostname).1.ExternalCfg =
        match (blocks.filterMap (fun b => b.Fluentbit)).find?
            (fun f => decide (f.CfgPath ≠ "" ∨ f.ParsersPath ≠ "")) with
        | some f => { CfgFilePath := f.CfgPath, ParsersFilePath := f.ParsersPath }
        | none => {} := by
  refine ⟨NewFBConf_error_nil ext blocks cfg entityGUID hostname, ?_⟩
  rw [NewFBConf_of_no_error ext blocks cfg entityGUID hostname hok,
    ← externals_find ext cfg.HomeDir blocks]
  split_ifs with h
  · exact h.2.symm
  · rfl

/-- Witness of C5 (amended): of three external blocks, the first has two empty
paths; the pair of the second one is returned and the pair of the third one
is dropped. -/
theorem NewFBConf_first_nonempty_external_witness :
    (∀ b ∈ sampleExternalBlocks,
        (parseConfigBlock sampleExternal b sampleForward.HomeDir).2.2.2 = none) ∧
      (NewFBConf sampleExternal sampleExternalBlocks sampleForward "GUID" "host").2 = none ∧
      (NewFBConf sampleExternal sampleExternalBlocks sampleForward "GUID" "host").1.ExternalCfg
        = { CfgFilePath := "/etc/fb.conf", ParsersFilePath := "/etc/parsers.conf" } :=
  have h := NewFBConf_first_nonempty_external sampleExternal sampleExternalBlocks
    sampleForward "GUID" "host" sample_external_blocks_translate
  ⟨sample_external_blocks_translate, h.1, h.2⟩

/-! ### Event-ID tokens -/

theorem isDigit_iff (c : Char) :
    isDigit c = true ↔ c ∈ ['0', '1', '2', '3', '4', '5', '6', '7', '8', '9'] := by
  constructor
  · intro h
    simp only [isDigit, Bool.and_eq_true, decide_eq_true_eq] at h
    have h1 : 48 ≤ c.toNat := h.1
    have h2 : c.toNat ≤ 57 := h.2
    have hc : c = Char.ofNat c.toNat := (Char.ofNat_toNat c).symm
    generalize c.toNat = n at h1 h2 hc
    interval_cases n <;> (subst hc; decide)
  · intro h
    simp only [List.mem_cons, List.mem_singleton, List.not_mem_nil, or_false] at h
    rcases h with h | h | h | h | h | h | h | h | h | h <;> (subst h; decide)

theorem rmatch_chars (cs : List Char) (s : List Char) :
    ((cs.map RegularExpression.char).foldr RegularExpression.plus
        RegularExpression.zero).rmatch s = true ↔ ∃ c ∈ cs, s = [c] := by
  induction cs with
  | nil =>
    simp only [List.map_nil, List.foldr_nil, List.not_mem_nil, false_and, exists_false,
      iff_false, Bool.not_eq_true]
    exact RegularExpression.zero_rmatch s
  | cons c rest ih =>
    simp only [List.map_cons, List.foldr_cons, List.mem_cons]
    rw [show RegularExpression.plus (RegularExpression.char c)
        ((rest.map RegularExpression.char).foldr RegularExpression.plus RegularExpression.zero)
      = RegularExpression.char c +
        ((rest.map RegularExpression.char).foldr RegularExpression.plus RegularExpression.zero)
      from rfl, RegularExpression.add_rmatch_iff, RegularExpression.char_rmatch_iff, ih]
    constructor
    · rintro (h | ⟨d, hd, h⟩)
      · exact ⟨c, Or.inl rfl, h⟩
      · exact ⟨d, Or.inr hd, h⟩
    · rintro ⟨d, hd | hd, h⟩
      · exact Or.inl (hd ▸ h)
      · exact Or.inr ⟨d, hd, h⟩

theorem reDigit_rmatch (s : List Char) :
    reDigit.rmatch s = true ↔ ∃ c, isDigit c = true ∧ s = [c] := by
  unfold reDigit
  rw [rmatch_chars]
  constructor
  · rintro ⟨c, hc, h⟩
    exact ⟨c, (isDigit_iff c).2 hc, h⟩
  · rintro ⟨c, hc, h⟩
    exact ⟨c, (isDigit_iff c).1 hc, h⟩

theorem reDigit_star_rmatch (s : List Char) :
    (RegularExpression.star reDigit).rmatch s = true ↔ ∀ c ∈ s, isDigit c = true := by
  rw [RegularExpression.star_rmatch_iff]
  constructor
  · rintro ⟨S, rfl, hS⟩ c hc
    obtain ⟨t, ht, hct⟩ := List.mem_flatten.mp hc
    obtain ⟨d, hd, rfl⟩ := (reDigit_rmatch t).1 (hS t ht).2
    rw [List.mem_singleton.mp hct]
    exact hd
  · intro h
    refine ⟨s.map (fun c => [c]), ?_, ?_⟩
    · clear h
      induction s with
      | nil => rfl
      | cons c rest ih => simp [← ih]
    · intro t ht
      obtain ⟨c, hc, rfl⟩ := List.mem_map.mp ht
      exact ⟨List.cons_ne_nil _ _, (reDigit_rmatch _).2 ⟨c, h c hc, rfl⟩⟩

theorem reDigits_rmatch (s : List Char) : reDigits.rmatch s = true ↔ IsDecimal s := by
  unfold reDigits IsDecimal
  rw [show RegularExpression.comp reDigit (RegularExpression.star reDigit)
    = reDigit * RegularExpression.star reDigit from rfl, RegularExpression.mul_rmatch_iff]
  constructor
  · rintro ⟨t, u, rfl, ht, hu⟩
    obtain ⟨c, hc, rfl⟩ := (reDigit_rmatch t).1 ht
    refine ⟨by simp, ?_⟩
    intro d hd
    rcases List.mem_append.mp hd with hd | hd
    · rw [List.mem_singleton.mp hd]
      exact hc
    · exact (reDigit_star_rmatch u).1 hu d hd
  · rintro ⟨hne, h⟩
    cases s with
    | nil => exact absurd rfl hne
    | cons c rest =>
      refine ⟨[c], rest, rfl, (reDigit_rmatch _).2 ⟨c, h c (List.mem_cons_self _ _), rfl⟩, ?_⟩
      exact (reDigit_star_rmatch rest).2 (fun d hd => h d (List.mem_cons_of_mem _ hd))

/-- The pattern `^(\d+-\d+)$` accepts exactly the range tokens. -/
theorem eventIdRangeRegex_iff (t : String) :
    matchWhole eventIdRangeRegex t = true ↔ IsRangeToken t := by
  unfold matchWhole eventIdRangeRegex IsRangeToken
  rw [show RegularExpression.comp reDigits
      (RegularExpression.comp (RegularExpression.char '-') reDigits)
    = reDigits * (RegularExpression.char '-' * reDigits) from rfl,
    RegularExpression.mul_rmatch_iff]
  constructor
  · rintro ⟨lo, r, hs, hlo, hr⟩
    obtain ⟨m, hi, rfl, hm, hhi⟩ := (RegularExpression.mul_rmatch_iff _ _ r).1 hr
    rw [RegularExpression.char_rmatch_iff] at hm
    subst hm
    exact ⟨lo, hi, (reDigits_rmatch lo).1 hlo, (reDigits_rmatch hi).1 hhi, hs⟩
  · rintro ⟨lo, hi, hlo, hhi, hs⟩
    refine ⟨lo, '-' :: hi, hs, (reDigits_rmatch lo).2 hlo, ?_⟩
    exact (RegularExpression.mul_rmatch_iff _ _ _).2
      ⟨['-'], hi, rfl, (RegularExpression.char_rmatch_iff _ _).2 rfl, (reDigits_rmatch hi).2 hhi⟩

theorem isDecimal_iff_all (s : List Char) :
    IsDecimal s ↔ ¬ (s = [] ∨ ¬ (s.all isDigit = true)) := by
  unfold IsDecimal
  simp [List.all_eq_true]

theorem maxInt_eq : maxInt = 9223372036854775807 := by decide

theorem minInt_eq : minInt = -9223372036854775808 := by decide

theorem maxUint64_eq : maxUint64 = 18446744073709551615 := by decide

theorem foldl_digits_ge (cs : List Char) :
    ∀ m : Nat, m ≤ cs.foldl (fun n c => n * 10 + digitVal c) m := by
  induction cs with
  | nil => exact fun m => Nat.le_refl m
  | cons c cs ih =>
    intro m
    have h := ih (m * 10 + digitVal c)
    rw [List.foldl_cons]
    omega

/-- On decimal digits the scan of `ParseUint` reads the value, or stops with
the largest `uint64` when the value does not fit. -/
theorem parseUintL_digits (ds : List Char) (hd : ∀ c ∈ ds, isDigit c = true) :
    ∀ n : Nat, n ≤ maxUint64 →
      parseUintL n ds =
        if ds.foldl (fun n c => n * 10 + digitVal c) n ≤ maxUint64 then
          (ds.foldl (fun n c => n * 10 + digitVal c) n, none)
        else (maxUint64, some NumError.ErrRange) := by
  induction ds with
  | nil =>
    intro n hn
    rw [parseUintL, List.foldl_nil, if_pos hn]
  | cons c cs ih =>
    intro n hn
    have hc : isDigit c = true := hd c (List.mem_cons_self _ _)
    have hcs : ∀ x ∈ cs, isDigit x = true := fun x hx => hd x (List.mem_cons_of_mem _ hx)
    have hge := foldl_digits_ge cs (n * 10 + digitVal c)
    rw [parseUintL, if_neg (by rw [hc]; decide), List.foldl_cons]
    rw [maxUint64_eq] at hn ⊢
    by_cases h1 : 18446744073709551615 / 10 + 1 ≤ n
    · rw [if_pos h1, if_neg (by omega)]
    · rw [if_neg h1]
      by_cases h2 : 18446744073709551615 < n * 10 + digitVal c
      · rw [if_pos h2, if_neg (by omega)]
      · rw [if_neg h2]
        have := ih hcs (n * 10 + digitVal c) (by rw [maxUint64_eq]; omega)
        rw [maxUint64_eq] at this
        exact this

/-- The scan of `ParseUint` reports a range error only with the largest
`uint64`. -/
theorem parseUintL_range (ds : List Char) :
    ∀ n : Nat, (parseUintL n ds).2 = some NumError.ErrRange → (parseUintL n ds).1 = maxUint64 := by
  induction ds with
  | nil =>
    intro n h
    rw [parseUintL] at h
    cases h
  | cons c cs ih =>
    intro n h
    rw [parseUintL] at h ⊢
    split_ifs at h ⊢ with h1 h2 h3
    · cases h
    · rfl
    · rfl
    · exact ih _ h

/-- The scan of `ParseUint` fails on a text with a character that is not a
digit. -/
theorem parseUintL_non_digit (ds : List Char) (hd : ¬ ∀ c ∈ ds, isDigit c = true) :
    ∀ n : Nat, (parseUintL n ds).2 ≠ none := by
  induction ds with
  | nil => exact absurd (fun c hc => absurd hc (List.not_mem_nil c)) hd
  | cons c cs ih =>
    intro n
    rw [parseUintL]
    split_ifs with h1 h2 h3
    · simp
    · simp
    · simp
    · have hc : isDigit c = true := by
        cases hx : isDigit c with
        | true => rfl
        | false => exact absurd hx h1
      have hcs : ¬ ∀ x ∈ cs, isDigit x = true := by
        intro hall
        apply hd
        intro x hx
        rcases List.mem_cons.1 hx with rfl | hx
        · exact hc
        · exact hall x hx
      exact ih hcs _

/-- On decimal digits `parseIntL` gives the signed value, clamped to the
range of `int`. -/
theorem parseIntL_decimal (neg : Bool) (ds : List Char) (h : IsDecimal ds) :
    parseIntL neg ds =
      if (if neg = true then -(decimalVal ds : Int) else (decimalVal ds : Int)) < minInt then
        (minInt, some NumError.ErrRange)
      else if maxInt < (if neg = true then -(decimalVal ds : Int) else (decimalVal ds : Int)) then
        (maxInt, some NumError.ErrRange)
      else ((if neg = true then -(decimalVal ds : Int) else (decimalVal ds : Int)), none) := by
  obtain ⟨hne, hd⟩ := h
  have hscan := parseUintL_digits ds hd 0 (Nat.zero_le _)
  have hval : ds.foldl (fun n c => n * 10 + digitVal c) 0 = decimalVal ds := rfl
  rw [hval] at hscan
  have h63 : (2 : Nat) ^ 63 = 9223372036854775808 := by norm_num
  unfold parseIntL
  rw [if_neg hne]
  dsimp only
  rw [hscan, maxUint64_eq, maxInt_eq, minInt_eq, h63]
  by_cases hfit : decimalVal ds ≤ 18446744073709551615
  · rw [if_pos hfit]
    dsimp only
    rw [if_neg (by simp)]
    cases neg with
    | true =>
      simp only [Bool.true_eq_false, false_and, if_false, true_and, if_true]
      by_cases hr : 9223372036854775808 < decimalVal ds
      · rw [if_pos hr, if_pos (by omega)]
      · rw [if_neg hr, if_neg (by omega), if_neg (by omega)]
    | false =>
      simp only [Bool.false_eq_true, false_and, if_false, true_and]
      by_cases hr : 9223372036854775808 ≤ decimalVal ds
      · rw [if_pos hr, if_neg (by omega), if_pos (by omega)]
      · rw [if_neg hr, if_neg (by omega), if_neg (by omega)]
  · rw [if_neg hfit]
    dsimp only
    rw [if_neg (by simp)]
    cases neg with
    | true =>
      simp only [Bool.true_eq_false, false_and, if_false, true_and, if_true]
      rw [if_pos (by omega), if_pos (by omega)]
    | false =>
      simp only [Bool.false_eq_true, false_and, if_false, true_and]
      rw [if_pos (by omega), if_neg (by omega), if_pos (by omega)]

/-- `parseIntL` fails on every text that is not a string of decimal digits. -/
theorem parseIntL_not_decimal (neg : Bool) (ds : List Char) (h : ¬ IsDecimal ds) :
    (parseIntL neg ds).2 ≠ none := by
  unfold parseIntL
  by_cases hne : ds = []
  · rw [if_pos hne]
    simp
  · rw [if_neg hne]
    dsimp only
    have hnd : ¬ ∀ c ∈ ds, isDigit c = true := fun hall => h ⟨hne, hall⟩
    have herr := parseUintL_non_digit ds hnd 0
    have h63 : (2 : Nat) ^ 63 = 9223372036854775808 := by norm_num
    by_cases hs : (parseUintL 0 ds).2 = some NumError.ErrSyntax
    · rw [if_pos hs]
      simp
    · rw [if_neg hs]
      have hr : (parseUintL 0 ds).2 = some NumError.ErrRange := by
        cases hx : (parseUintL 0 ds).2 with
        | none => exact absurd hx herr
        | some e =>
          cases e with
          | ErrSyntax => exact absurd hx hs
          | ErrRange => rfl
      have hmax := parseUintL_range ds 0 hr
      rw [hmax, maxUint64_eq, h63]
      cases neg with
      | true =>
        rw [if_neg (by simp), if_pos ⟨rfl, by omega⟩]
        simp
      | false =>
        rw [if_pos ⟨rfl, by omega⟩]
        simp

theorem parseIntL_ok_iff (neg : Bool) (ds : List Char) :
    (parseIntL neg ds).2 = none ↔
      IsDecimal ds ∧
        (if neg = true then minInt ≤ -(decimalVal ds : Int) else (decimalVal ds : Int) ≤ maxInt) := by
  have hnn : (0 : Int) ≤ (decimalVal ds : Int) := Int.natCast_nonneg _
  by_cases hdec : IsDecimal ds
  · rw [parseIntL_decimal neg ds hdec]
    rw [maxInt_eq, minInt_eq]
    cases neg with
    | true =>
      simp only [if_true]
      constructor
      · intro h
        split_ifs at h with h1 h2
        exact ⟨hdec, by omega⟩
      · rintro ⟨-, h⟩
        rw [if_neg (by omega), if_neg (by omega)]
    | false =>
      simp only [Bool.false_eq_true, if_false]
      constructor
      · intro h
        split_ifs at h with h1 h2
        exact ⟨hdec, by omega⟩
      · rintro ⟨-, h⟩
        rw [if_neg (by omega), if_neg (by omega)]
  · constructor
    · intro h
      exact absurd h (parseIntL_not_decimal neg ds hdec)
    · rintro ⟨h, -⟩
      exact absurd h hdec

/-- `strconv.Atoi` succeeds exactly on the integer tokens. -/
theorem strconv_Atoi_ok_iff (t : String) : (strconv_Atoi t).2 = none ↔ IsIntToken t := by
  unfold strconv_Atoi IsIntToken
  generalize t.data = s
  have hminus : isDigit '-' = false := by decide
  have hplus : isDigit '+' = false := by decide
  cases s with
  | nil =>
    constructor
    · intro h
      exact absurd h (by decide)
    · rintro ⟨ds, ⟨hne, -⟩, h | h | h⟩
      · exact absurd h.1.symm hne
      · cases h.1
      · cases h.1
  | cons c cs =>
    by_cases hm : c = '-'
    · subst hm
      rw [show atoiL ('-' :: cs) = parseIntL true cs from rfl, parseIntL_ok_iff]
      simp only [if_true]
      constructor
      · rintro ⟨hdec, h⟩
        exact ⟨cs, hdec, Or.inr (Or.inr ⟨rfl, h⟩)⟩
      · rintro ⟨ds, hds, h | h | h⟩
        · exfalso
          have := hds.2 '-' (h.1 ▸ List.mem_cons_self _ _)
          rw [hminus] at this
          cases this
        · cases h.1
        · obtain ⟨h1, h2⟩ := h
          have hcs : cs = ds := (List.cons.inj h1).2
          subst hcs
          exact ⟨hds, h2⟩
    · by_cases hp : c = '+'
      · subst hp
        rw [show atoiL ('+' :: cs) = parseIntL false cs from rfl, parseIntL_ok_iff]
        simp only [Bool.false_eq_true, if_false]
        constructor
        · rintro ⟨hdec, h⟩
          exact ⟨cs, hdec, Or.inr (Or.inl ⟨rfl, h⟩)⟩
        · rintro ⟨ds, hds, h | h | h⟩
          · exfalso
            have := hds.2 '+' (h.1 ▸ List.mem_cons_self _ _)
            rw [hplus] at this
            cases this
          · obtain ⟨h1, h2⟩ := h
            have hcs : cs = ds := (List.cons.inj h1).2
            subst hcs
            exact ⟨hds, h2⟩
          · exact absurd (List.cons.inj h.1).1 hm
      · have hd : atoiL (c :: cs) = parseIntL false (c :: cs) := by
          unfold atoiL
          simp [hm, hp]
        rw [hd, parseIntL_ok_iff]
        simp only [Bool.false_eq_true, if_false]
        constructor
        · rintro ⟨hdec, h⟩
          exact ⟨c :: cs, hdec, Or.inl ⟨rfl, h⟩⟩
        · rintro ⟨ds, hds, h | h | h⟩
          · obtain ⟨h1, h2⟩ := h
            subst h1
            exact ⟨hds, h2⟩
          · exact absurd (List.cons.inj h.1).1 hp
          · exact absurd (List.cons.inj h.1).1 hm

theorem numberRangesToRegexLoop_error_iff (ext : External) (l acc : List String) :
    (numberRangesToRegexLoop ext l acc).2 ≠ none ↔
      ∃ t ∈ l, ¬ (matchWhole eventIdRangeRegex t = true) ∧ ¬ ((strconv_Atoi t).2 = none) := by
  induction l generalizing acc with
  | nil =>
    unfold numberRangesToRegexLoop
    simp
  | cons t rest ih =>
    unfold numberRangesToRegexLoop
    by_cases h1 : matchWhole eventIdRangeRegex t = true
    · rw [if_pos h1]
      dsimp only
      rw [ih]
      constructor
      · rintro ⟨u, hu, h⟩
        exact ⟨u, List.mem_cons_of_mem _ hu, h⟩
      · rintro ⟨u, hu, h⟩
        rcases List.mem_cons.mp hu with rfl | hu
        · exact absurd h1 h.1
        · exact ⟨u, hu, h⟩
    · rw [if_neg h1]
      by_cases h2 : (strconv_Atoi t).2 = none
      · rw [if_pos h2, ih]
        constructor
        · rintro ⟨u, hu, h⟩
          exact ⟨u, List.mem_cons_of_mem _ hu, h⟩
        · rintro ⟨u, hu, h⟩
          rcases List.mem_cons.mp hu with rfl | hu
          · exact absurd h2 h.2
          · exact ⟨u, hu, h⟩
      · rw [if_neg h2]
        constructor
        · intro _
          exact ⟨t, List.mem_cons_self _ _, h1, h2⟩
        · intro _
          exact Option.some_ne_none _

/-! ### C9: the tokens that `numberRangesToRegex` rejects -/

/-- C9 (counterexample): the signed token `-5` is neither a bare non-negative
decimal integer nor a range, yet `numberRangesToRegex` accepts the list
`["-5"]`; and the token `99999999999999999999` is a bare non-negative decimal
integer, yet the list made of it is rejected. -/
theorem numberRangesToRegex_signed_token_counterexample :
    ¬ ((numberRangesToRegex sampleExternal ["-5"]).2 ≠ none ↔
        ∃ t ∈ ["-5"], ¬ IsDecimal t.data ∧ ¬ IsRangeToken t) ∧
      (numberRangesToRegex sampleExternal ["-5"]).2 = none ∧
      (numberRangesToRegex sampleExternal ["+5"]).2 = none ∧
      IsDecimal "99999999999999999999".data ∧
      (numberRangesToRegex sampleExternal ["99999999999999999999"]).2 ≠ none := by
  have hacc : (numberRangesToRegex sampleExternal ["-5"]).2 = none := by decide
  refine ⟨?_, hacc, by decide, ?_, by decide⟩
  · intro h
    refine h.2 ⟨"-5", List.mem_singleton.mpr rfl, ?_, ?_⟩ hacc
    · unfold IsDecimal
      decide
    · rw [← eventIdRangeRegex_iff]
      decide
  · unfold IsDecimal
    decide

/-- C9 (amended): `numberRangesToRegex` returns an error exactly when the
token list contains a token that is neither a well-formed range
`<low>-<high>` of two non-negative decimal integers nor a decimal integer,
with an optional sign `+` or `-`, whose value fits a 64-bit `int`. -/
theorem numberRangesToRegex_error_iff (ext : External) (numberRanges : List String) :
    (numberRangesToRegex ext numberRanges).2 ≠ none ↔
      ∃ t ∈ numberRanges, ¬ IsRangeToken t ∧ ¬ IsIntToken t := by
  unfold numberRangesToRegex
  rw [numberRangesToRegexLoop_error_iff]
  constructor
  · rintro ⟨t, ht, h1, h2⟩
    exact ⟨t, ht, fun h => h1 ((eventIdRangeRegex_iff t).2 h),
      fun h => h2 ((strconv_Atoi_ok_iff t).2 h)⟩
  · rintro ⟨t, ht, h1, h2⟩
    exact ⟨t, ht, fun h => h1 ((eventIdRangeRegex_iff t).1 h),
      fun h => h2 ((strconv_Atoi_ok_iff t).1 h)⟩

/-! ### C20: `IsValid` -/

/-- C20 (counterexample): a block with a name that declares both a file and a
folder populates two source variants and no external reference, yet `IsValid`
returns true for it. -/
theorem IsValid_two_sources_counterexample :
    sampleTwoSourceBlock.sourceCount = 2 ∧ sampleTwoSourceBlock.Fluentbit = none ∧
      sampleTwoSourceBlock.IsValid = true ∧
      ¬ (sampleTwoSourceBlock.IsValid = true ↔
          sampleTwoSourceBlock.Name ≠ "" ∧
            (sampleTwoSourceBlock.sourceCount = 1 ∨ sampleTwoSourceBlock.Fluentbit ≠ none)) := by
  refine ⟨by decide, rfl, by decide, ?_⟩
  intro h
  have h2 := h.1 (by decide)
  revert h2
  decide

/-- C20 (amended): `IsValid` returns true exactly for the blocks that carry a
non-empty `Name` and at least one of the source variants `File`, `Folder`,
`Systemd`, `EventLog`, `Syslog`, `Tcp`, `Winlog` or an external `Fluentbit`
reference; it returns false for a block with an empty `Name` and for a block
with neither a source variant nor an external reference. -/
theorem IsValid_iff (l : LogCfg) :
    l.IsValid = true ↔
      l.Name ≠ "" ∧
        (l.File ≠ "" ∨ l.Folder ≠ "" ∨ l.Systemd ≠ "" ∨ l.EventLog ≠ "" ∨ l.Syslog ≠ none ∨
          l.Tcp ≠ none ∨ l.Fluentbit ≠ none ∨ l.Winlog ≠ none) := by
  unfold LogCfg.IsValid
  simp only [Bool.and_eq_true, Bool.or_eq_true, decide_eq_true_eq, Option.isSome_iff_ne_none,
    or_assoc]

/-! ### Filters of the translators -/

theorem String.length_pos_of_ne_empty (s : String) (h : s ≠ "") : s.length > 0 := by
  cases s with
  | mk d =>
    cases d with
    | nil => exact absurd rfl h
    | cons c cs => simp [String.length]

theorem recordStep_foldl_get_reserved (attrs : GoMap) (ret : FBCfgParser) (k : String)
    (hk : isReserved k = true) :
    GoMap.get (attrs.foldl recordStep ret).Records k = GoMap.get ret.Records k := by
  induction attrs generalizing ret with
  | nil => rfl
  | cons kv rest ih =>
    simp only [List.foldl_cons]
    rw [ih]
    unfold recordStep
    by_cases ha : isReserved kv.1 = true
    · simp [ha]
    · have hne : kv.1 ≠ k := fun e => ha (e ▸ hk)
      simp [ha, GoMap.get_set, hne]

/-- The record_modifier filter of an input tags the input kind, whatever the
user attributes are. -/
theorem newRecordModifierFilterForInput_kind (tag kind : String) (attrs : GoMap) :
    GoMap.get (newRecordModifierFilterForInput tag kind attrs).Records "fb.input" = some kind := by
  unfold newRecordModifierFilterForInput
  rw [recordStep_foldl_get_reserved _ _ _ ((isReserved_iff _).2 (Or.inr (Or.inl rfl)))]
  rfl

theorem newGrepFilter_of_include (tag grepField regexInclude : String)
    (h : regexInclude ≠ "") :
    newGrepFilter tag grepField regexInclude "" =
      { Name := "grep", Match := tag, RegexInclude := grepField ++ " " ++ regexInclude } := by
  unfold newGrepFilter
  have h1 : regexInclude.length > 0 := String.length_pos_of_ne_empty _ h
  have h2 : ¬ (("" : String).length > 0) := by decide
  simp only [h1, h2, if_true, if_false]
  rfl

theorem parsePattern_eq (l : LogCfg) (field : String) (filters : List FBCfgParser) :
    parsePattern l field filters =
      if l.Pattern = "" then filters
      else filters ++ [{ Name := "grep", Match := l.Name, RegexInclude := field ++ " " ++ l.Pattern }] := by
  unfold parsePattern
  by_cases h : l.Pattern = ""
  · simp [h]
  · simp only [h, ne_eq, not_false_eq_true, if_true, if_false]
    rw [newGrepFilter_of_include _ _ _ h]

/-! ### C15: filters of a Tcp block -/

/-- C15: for every Tcp block whose URI `newTcpInput` accepts, `parseTcpInput`
returns no error and, when the format is not `none`, exactly one filter, the
record_modifier filter tagging kind `tcp`, whatever the `Pattern`; when the
format is `none`, that filter is followed by one grep filter with
`Match = Name` and include expression `log <Pattern>` exactly when `Pattern`
is not empty. -/
theorem parseTcpInput_filters (l : LogCfg) (tcp : LogTcpCfg)
    (hv : (newTcpInput tcp l.Name (getBufferMaxSize l)).2 = none) :
    (parseTcpInput l tcp).2.2 = none ∧
      (parseTcpInput l tcp).2.1 =
        (if tcp.Format = "none" ∧ l.Pattern ≠ "" then
          [newRecordModifierFilterForInput l.Name "tcp" l.Attributes,
            { Name := "grep", Match := l.Name, RegexInclude := "log " ++ l.Pattern,
              RegexExclude := "" }]
        else [newRecordModifierFilterForInput l.Name "tcp" l.Attributes]) ∧
      (newRecordModifierFilterForInput l.Name "tcp" l.Attributes).Name = "record_modifier" ∧
      (newRecordModifierFilterForInput l.Name "tcp" l.Attributes).Match = l.Name ∧
      GoMap.get (newRecordModifierFilterForInput l.Name "tcp" l.Attributes).Records "fb.input"
        = some "tcp" := by
  refine ⟨?_, ?_, newRecordModifierFilterForInput_Name _ _ _,
    newRecordModifierFilterForInput_Match _ _ _, newRecordModifierFilterForInput_kind _ _ _⟩
  · unfold parseTcpInput
    rcases hr : newTcpInput tcp l.Name (getBufferMaxSize l) with ⟨inp, err⟩
    rw [hr] at hv
    simp only at hv
    subst hv
    rfl
  · unfold parseTcpInput
    rcases hr : newTcpInput tcp l.Name (getBufferMaxSize l) with ⟨inp, err⟩
    rw [hr] at hv
    simp only at hv
    subst hv
    dsimp only
    by_cases hf : tcp.Format = "none"
    · rw [if_pos hf, parsePattern_eq]
      by_cases hp : l.Pattern = ""
      · simp [hp, fbInputTypeTcp]
      · simp [hp, hf, fbInputTypeTcp, fbGrepFieldForTcpPlain]
    · rw [if_neg hf]
      simp [hf, fbInputTypeTcp]

/-- Witness of C15: a raw-line Tcp block with the pattern `error`, and the
same block with the format `json`. -/
theorem parseTcpInput_filters_witness :
    (newTcpInput sampleTcpCfg sampleTcpBlock.Name (getBufferMaxSize sampleTcpBlock)).2 = none ∧
      (parseTcpInput sampleTcpBlock sampleTcpCfg).2.1 =
        [{ Name := "record_modifier", Match := "raw", Records := [("fb.input", "tcp")] },
          { Name := "grep", Match := "raw", RegexInclude := "log error" }] ∧
      (parseTcpInput sampleTcpBlock { sampleTcpCfg with Format := "json" }).2.1 =
        [{ Name := "record_modifier", Match := "raw", Records := [("fb.input", "tcp")] }] :=
  ⟨by decide, (parseTcpInput_filters sampleTcpBlock sampleTcpCfg (by decide)).2.1, by decide⟩

/-! ### C16: filters of the File, Folder, Systemd and Syslog translators -/

/-- C16: the filters returned by the File, Folder, Systemd and Syslog
translators (the last one for a URI that `newSyslogInput` accepts) are the
record_modifier filter of the block (`Match = Name`, tagging the input kind
`tail`, `tail`, `systemd`, `syslog`) alone when `Pattern` is empty, and that
filter followed by exactly one grep filter when `Pattern` is not empty, with
`Match = Name`, no exclude expression and the include expression
`<field> <Pattern>`, the field being `log` for File and Folder, `MESSAGE` for
Systemd and `message` for Syslog, the pattern taken literally. -/
theorem translators_filters (l : LogCfg) (dbPath : String) :
    (parseFileInput l dbPath).2 =
        (if l.Pattern = "" then [newRecordModifierFilterForInput l.Name "tail" l.Attributes]
         else [newRecordModifierFilterForInput l.Name "tail" l.Attributes,
           { Name := "grep", Match := l.Name, RegexInclude := "log " ++ l.Pattern,
             RegexExclude := "" }]) ∧
      (parseFolderInput l dbPath).2 =
        (if l.Pattern = "" then [newRecordModifierFilterForInput l.Name "tail" l.Attributes]
         else [newRecordModifierFilterForInput l.Name "tail" l.Attributes,
           { Name := "grep", Match := l.Name, RegexInclude := "log " ++ l.Pattern,
             RegexExclude := "" }]) ∧
      (parseSystemdInput l dbPath).2 =
        (if l.Pattern = "" then [newRecordModifierFilterForInput l.Name "systemd" l.Attributes]
         else [newRecordModifierFilterForInput l.Name "systemd" l.Attributes,
           { Name := "grep", Match := l.Name, RegexInclude := "MESSAGE " ++ l.Pattern,
             RegexExclude := "" }]) ∧
      (∀ syslog : LogSyslogCfg, (newSyslogInput syslog l.Name (getBufferMaxSize l)).2 = none →
        (parseSyslogInput l syslog).2.2 = none ∧
        (parseSyslogInput l syslog).2.1 =
          (if l.Pattern = "" then [newRecordModifierFilterForInput l.Name "syslog" l.Attributes]
           else [newRecordModifierFilterForInput l.Name "syslog" l.Attributes,
             { Name := "grep", Match := l.Name, RegexInclude := "message " ++ l.Pattern,
               RegexExclude := "" }])) ∧
      (∀ kind : String,
        (newRecordModifierFilterForInput l.Name kind l.Attributes).Name = "record_modifier" ∧
        (newRecordModifierFilterForInput l.Name kind l.Attributes).Match = l.Name ∧
        GoMap.get (newRecordModifierFilterForInput l.Name kind l.Attributes).Records "fb.input"
          = some kind) := by
  refine ⟨?_, ?_, ?_, ?_, fun kind => ⟨newRecordModifierFilterForInput_Name _ _ _,
    newRecordModifierFilterForInput_Match _ _ _, newRecordModifierFilterForInput_kind _ _ _⟩⟩
  · unfold parseFileInput
    dsimp only
    rw [parsePattern_eq]
    split_ifs <;> rfl
  · unfold parseFolderInput
    dsimp only
    rw [parsePattern_eq]
    split_ifs <;> rfl
  · unfold parseSystemdInput
    dsimp only
    rw [parsePattern_eq]
    split_ifs <;> rfl
  · intro syslog hv
    unfold parseSyslogInput
    rcases hr : newSyslogInput syslog l.Name (getBufferMaxSize l) with ⟨inp, err⟩
    rw [hr] at hv
    simp only at hv
    subst hv
    dsimp only
    refine ⟨rfl, ?_⟩
    rw [parsePattern_eq]
    split_ifs <;> rfl

/-- Witness of C16: a block with the pattern `error`, read as a file block and
as a syslog block with the URI `udp://127.0.0.1:5140`. -/
theorem translators_filters_witness :
    (newSyslogInput { URI := "udp://127.0.0.1:5140" } samplePatternBlock.Name
        (getBufferMaxSize samplePatternBlock)).2 = none ∧
      (parseSyslogInput samplePatternBlock { URI := "udp://127.0.0.1:5140" }).2.1 =
        [{ Name := "record_modifier", Match := "app", Records := [("fb.input", "syslog")] },
          { Name := "grep", Match := "app", RegexInclude := "message error" }] ∧
      (parseFileInput samplePatternBlock "/var/db/fb.db").2 =
        [{ Name := "record_modifier", Match := "app", Records := [("fb.input", "tail")] },
          { Name := "grep", Match := "app", RegexInclude := "log error" }] :=
  have h := translators_filters samplePatternBlock "/var/db/fb.db"
  ⟨by decide, (h.2.2.2.1 { URI := "udp://127.0.0.1:5140" } (by decide)).2, h.1⟩

/-! ### C14: the separator of a raw-line Tcp input -/

theorem replaceL_cons_of_no_match (old new : List Char) (c : Char) (cs : List Char)
    (h : old.isPrefixOf (c :: cs) = false) :
    replaceL old new 0 (c :: cs) = c :: replaceL old new 0 cs := by
  rw [replaceL]
  simp [h]

theorem collapseBackslashPairs_cons (c : Char) (rest : List Char)
    (hne : ∀ r, c = '\\' → rest = '\\' :: r → False) :
    collapseBackslashPairs (c :: rest) = c :: collapseBackslashPairs rest := by
  rw [collapseBackslashPairs]
  intro rest' h1 h2
  exact hne rest' h1 h2

theorem replaceL_backslash_pairs (s : List Char) :
    replaceL ['\\', '\\'] ['\\'] 0 s = collapseBackslashPairs s := by
  induction s using collapseBackslashPairs.induct with
  | case1 rest ih =>
    simp only [replaceL, collapseBackslashPairs]
    simpa using ih
  | case2 c rest hne ih =>
    have hp : List.isPrefixOf ['\\', '\\'] (c :: rest) = false := by
      cases rest with
      | nil => simp [List.isPrefixOf]
      | cons d rest' =>
        by_contra hcon
        simp [List.isPrefixOf] at hcon
        exact hne rest' hcon.1.symm (by rw [hcon.2])
    rw [replaceL_cons_of_no_match _ _ _ _ hp, collapseBackslashPairs_cons c rest hne, ih]
  | case3 => rfl

theorem mem_collapseBackslashPairs (s : List Char) (c : Char)
    (h : c ∈ collapseBackslashPairs s) : c ∈ s := by
  induction s using collapseBackslashPairs.induct with
  | case1 rest ih =>
    simp only [collapseBackslashPairs, List.mem_cons] at h ⊢
    rcases h with h | h
    · exact Or.inl h
    · exact Or.inr (Or.inr (ih h))
  | case2 d rest hne ih =>
    rw [collapseBackslashPairs_cons d rest hne] at h
    rcases List.mem_cons.mp h with h | h
    · exact h ▸ List.mem_cons_self _ _
    · exact List.mem_cons_of_mem _ (ih h)
  | case3 => exact h

/-- C14 (counterexample): for the valid URI `tcp://0.0.0.0:9000` and the
format `none`, the separator written as backslash followed by `n` is kept as
these two characters, and the separator written as two backslashes followed
by `n` becomes backslash followed by `n`; neither yields the newline
character. -/
theorem newTcpInput_separator_newline_counterexample :
    (newTcpInput sampleTcpCfg "raw" 128).2 = none ∧
      (newTcpInput sampleTcpCfg "raw" 128).1.TcpSeparator = "\\n" ∧
      (newTcpInput sampleTcpCfg "raw" 128).1.TcpSeparator ≠ "\n" ∧
      (newTcpInput { sampleTcpCfg with Separator := "\\\\n" } "raw" 128).1.TcpSeparator = "\\n" ∧
      (newTcpInput { sampleTcpCfg with Separator := "\\\\n" } "raw" 128).1.TcpSeparator ≠ "\n" := by
  refine ⟨by decide, by decide, by decide, by decide, by decide⟩

/-- C14 (amended): for a Tcp part whose URI `newTcpInput` accepts and whose
format is `none`, the `TcpSeparator` of the input descriptor is the declared
separator in which every pair of consecutive backslashes is replaced by one
backslash; no other character is changed, so every character of
`TcpSeparator` is a character of the declared separator and a newline is
there only if the declared separator holds one. For any other format
`TcpSeparator` is empty. -/
theorem newTcpInput_separator (t : LogTcpCfg) (tag : String) (bufSize : Int)
    (hv : (newTcpInput t tag bufSize).2 = none) :
    (t.Format = "none" →
        (newTcpInput t tag bufSize).1.TcpSeparator.data
          = collapseBackslashPairs t.Separator.data) ∧
      (t.Format ≠ "none" → (newTcpInput t tag bufSize).1.TcpSeparator = "") ∧
      (∀ c, c ∈ (newTcpInput t tag bufSize).1.TcpSeparator.data → c ∈ t.Separator.data) := by
  unfold newTcpInput at hv ⊢
  by_cases hm : matchPrefix tcpRegex t.Uri = true
  · simp only [hm, not_true_eq_false, if_false]
    by_cases hf : t.Format = "none"
    · simp only [hf, if_true, ne_eq, not_true_eq_false, false_implies, true_and, forall_const]
      have hrep : (strings_Replace t.Separator "\\\\" "\\").data
          = collapseBackslashPairs t.Separator.data := replaceL_backslash_pairs _
      refine ⟨hrep, ?_⟩
      intro c hc
      rw [hrep] at hc
      exact mem_collapseBackslashPairs _ _ hc
    · simp only [hf, if_false, false_implies, ne_eq, not_false_eq_true, true_implies, true_and]
      intro c hc
      cases hc
  · simp [hm] at hv

/-- Witness of C14 (amended): the separator written as two backslashes
followed by `n`. -/
theorem newTcpInput_separator_witness :
    (newTcpInput { sampleTcpCfg with Separator := "\\\\n" } "raw" 128).2 = none ∧
      (newTcpInput { sampleTcpCfg with Separator := "\\\\n" } "raw" 128).1.TcpSeparator.data
        = ['\\', 'n'] :=
  ⟨by decide,
    (newTcpInput_separator { sampleTcpCfg with Separator := "\\\\n" } "raw" 128 (by decide)).1 rfl⟩

/-! ### C19: nothing to forward -/

/-- A block without external reference that translates without error returns
a non-zero input. -/
theorem parseConfigBlock_input_ne_zero (ext : External) (l : LogCfg) (logsHomeDir : String)
    (hfb : l.Fluentbit = none) (herr : (parseConfigBlock ext l logsHomeDir).2.2.2 = none) :
    (parseConfigBlock ext l logsHomeDir).1 ≠ {} := by
  unfold parseConfigBlock at herr ⊢
  rw [hfb] at herr ⊢
  dsimp only at herr ⊢
  by_cases hs : (l.File = "" ∧ l.Folder = "" ∧ l.Systemd = "" ∧ l.EventLog = "" ∧
      l.Syslog = none ∧ l.Tcp = none ∧ l.Winlog = none)
  · rw [parseConfigBlockSources_of_no_source ext l _ hs] at herr
    simp at herr
  · rcases parseConfigBlockSources_of_source ext l
      (filepath_Join [logsHomeDir, fluentBitDbName]) hs with ⟨e1, e2⟩ | ⟨e, e1, e2⟩
    · have hz := FBCfgInput.ne_zero_of_Name _ e2
      rw [if_neg (not_not.mpr e1), if_neg hz]
      exact hz
    · have hne : (parseConfigBlockSources ext l
          (filepath_Join [logsHomeDir, fluentBitDbName])).2.2 ≠ none := by
        rw [e1]
        exact Option.some_ne_none e
      rw [if_pos hne, e1] at herr
      cases herr

/-- A block that translates without error and returns a filter also returns a
non-zero input. -/
theorem parseConfigBlock_filters_input (ext : External) (l : LogCfg) (logsHomeDir : String)
    (herr : (parseConfigBlock ext l logsHomeDir).2.2.2 = none)
    (hf : (parseConfigBlock ext l logsHomeDir).2.1 ≠ []) :
    (parseConfigBlock ext l logsHomeDir).1 ≠ {} := by
  cases hfb : l.Fluentbit with
  | some f =>
    exfalso
    apply hf
    unfold parseConfigBlock
    rw [hfb]
  | none => exact parseConfigBlock_input_ne_zero ext l logsHomeDir hfb herr

/-- The loop of `NewFBConf` never touches the output, and it keeps the
property that filters are present only together with inputs. -/
theorem NewFBConfLoop_filters_inputs (ext : External) (homeDir : String) (blocks : List LogCfg)
    (fb : FBCfg) (e : Option GoError) (hinv : fb.Parsers = [] ∨ fb.Inputs ≠ []) :
    ((NewFBConfLoop ext homeDir blocks fb e).fb.Parsers = [] ∨
        (NewFBConfLoop ext homeDir blocks fb e).fb.Inputs ≠ []) ∧
      (NewFBConfLoop ext homeDir blocks fb e).fb.Output = fb.Output := by
  induction blocks generalizing fb with
  | nil => exact ⟨hinv, rfl⟩
  | cons b rest ih =>
    unfold NewFBConfLoop
    have hfi := parseConfigBlock_filters_input ext b homeDir
    rcases hpb : parseConfigBlock ext b homeDir with ⟨input, filters, external, err⟩
    rw [hpb] at hfi
    dsimp only at hfi ⊢
    by_cases herr : err = none
    · rw [if_neg (not_not.mpr herr)]
      have hstep : ∀ fb' : FBCfg, (fb'.Parsers = [] ∨ fb'.Inputs ≠ []) →
          ((NewFBConfLoop ext homeDir rest fb' e).fb.Parsers = [] ∨
            (NewFBConfLoop ext homeDir rest fb' e).fb.Inputs ≠ []) ∧
          (NewFBConfLoop ext homeDir rest fb' e).fb.Output = fb'.Output := fun fb' h => ih fb' h
      by_cases hi : input = {}
      · have hfil : filters = [] := by
          by_contra hne
          exact hfi herr hne hi
        subst hfil
        simp only [hi, ne_eq, not_true_eq_false, if_false, List.append_nil]
        split_ifs
        · exact hstep _ hinv
        · exact hstep _ hinv
        · exact hstep _ hinv
      · simp only [ne_eq, hi, not_false_eq_true, if_true]
        have hin : fb.Inputs ++ [input] ≠ [] := by simp
        split_ifs
        · exact hstep _ (Or.inr hin)
        · exact hstep _ (Or.inr hin)
        · exact hstep _ (Or.inr hin)
    · rw [if_pos herr]
      exact ⟨hinv, rfl⟩

theorem NewFBConf_Inputs_ExternalCfg (ext : External) (blocks : List LogCfg) (cfg : LogForward)
    (entityGUID hostname : String) :
    (NewFBConf ext blocks cfg entityGUID hostname).1.Inputs =
        (NewFBConfLoop ext cfg.HomeDir blocks { Inputs := [], Parsers := [] } none).fb.Inputs ∧
      (NewFBConf ext blocks cfg entityGUID hostname).1.ExternalCfg =
        (NewFBConfLoop ext cfg.HomeDir blocks { Inputs := [], Parsers := [] } none).fb.ExternalCfg := by
  unfold NewFBConf
  dsimp only
  split_ifs <;> exact ⟨rfl, rfl⟩

/-- C19: for every block list from which `NewFBConf` gets no input and no
external reference, it returns no error and the empty configuration: no
inputs, no filters (the global record_modifier filter is not appended), the
zero output descriptor and the empty external reference. -/
theorem NewFBConf_nothing_to_forward (ext : External) (blocks : List LogCfg) (cfg : LogForward)
    (entityGUID hostname : String)
    (hin : (NewFBConf ext blocks cfg entityGUID hostname).1.Inputs = [])
    (hex : (NewFBConf ext blocks cfg entityGUID hostname).1.ExternalCfg = {}) :
    NewFBConf ext blocks cfg entityGUID hostname =
      ({ Inputs := [], Parsers := [], ExternalCfg := {}, Output := {} }, none) := by
  obtain ⟨h1, h2⟩ := NewFBConf_Inputs_ExternalCfg ext blocks cfg entityGUID hostname
  rw [h1] at hin
  rw [h2] at hex
  obtain ⟨hp, ho⟩ := NewFBConfLoop_filters_inputs ext cfg.HomeDir blocks
    { Inputs := [], Parsers := [] } none (Or.inl rfl)
  have he := NewFBConfLoop_e ext cfg.HomeDir blocks { Inputs := [], Parsers := [] } none
  have hpar : (NewFBConfLoop ext cfg.HomeDir blocks { Inputs := [], Parsers := [] } none).fb.Parsers
      = [] := by
    rcases hp with hp | hp
    · exact hp
    · exact absurd hin hp
  have hfb : (NewFBConfLoop ext cfg.HomeDir blocks { Inputs := [], Parsers := [] } none).fb
      = { Inputs := [], Parsers := [], ExternalCfg := {}, Output := {} } := by
    rcases hst : (NewFBConfLoop ext cfg.HomeDir blocks
      { Inputs := [], Parsers := [] } none).fb with ⟨i, p, x, o⟩
    rw [hst] at hin hex hpar ho
    simp only at hin hex hpar ho
    rw [hin, hex, hpar, ho]
  unfold NewFBConf
  dsimp only
  split_ifs with hr hc
  · rw [hfb, he]
  · rw [hfb, he]
  · exfalso
    apply hc
    rw [hin, hex]
    exact ⟨rfl, rfl⟩

/-- Witness of C19: the empty block list. -/
theorem NewFBConf_nothing_to_forward_witness :
    (NewFBConf sampleExternal [] sampleForward "GUID" "host").1.Inputs = [] ∧
      (NewFBConf sampleExternal [] sampleForward "GUID" "host").1.ExternalCfg = {} ∧
      NewFBConf sampleExternal [] sampleForward "GUID" "host" =
        ({ Inputs := [], Parsers := [], ExternalCfg := {}, Output := {} }, none) ∧
      NewFBConf sampleExternal sampleNothingBlocks sampleForward "GUID" "host" =
        ({ Inputs := [], Parsers := [], ExternalCfg := {}, Output := {} }, none) :=
  ⟨rfl, rfl, NewFBConf_nothing_to_forward sampleExternal [] sampleForward "GUID" "host" rfl rfl,
    by decide⟩

/-! ### The URI patterns -/

theorem reLit_rmatch (l s : List Char) : (reLit l).rmatch s = true ↔ s = l := by
  induction l generalizing s with
  | nil => exact RegularExpression.one_rmatch_iff s
  | cons c cs ih =>
    rw [show reLit (c :: cs) = RegularExpression.char c * reLit cs from rfl,
      RegularExpression.mul_rmatch_iff]
    constructor
    · rintro ⟨t, u, rfl, ht, hu⟩
      rw [RegularExpression.char_rmatch_iff] at ht
      rw [ht, (ih u).1 hu]
      rfl
    · rintro rfl
      exact ⟨[c], cs, rfl, (RegularExpression.char_rmatch_iff _ _).2 rfl, (ih cs).2 rfl⟩

theorem reDigit13_rmatch (s : List Char) : reDigit13.rmatch s = true ↔ IsOctet s := by
  unfold reDigit13 IsOctet IsDecimal
  rw [show RegularExpression.comp reDigit
      (RegularExpression.plus RegularExpression.epsilon
        (RegularExpression.comp reDigit
          (RegularExpression.plus RegularExpression.epsilon reDigit)))
    = reDigit * (1 + reDigit * (1 + reDigit)) from rfl]
  simp only [RegularExpression.mul_rmatch_iff, RegularExpression.add_rmatch_iff,
    RegularExpression.one_rmatch_iff, reDigit_rmatch]
  constructor
  · rintro ⟨t, u, rfl, ⟨c1, h1, rfl⟩, hu⟩
    rcases hu with rfl | ⟨v, w, rfl, ⟨c2, h2, rfl⟩, hw⟩
    · exact ⟨⟨by simp, by simpa using h1⟩, by simp⟩
    · rcases hw with rfl | ⟨c3, h3, rfl⟩
      · exact ⟨⟨by simp, by simp [h1, h2]⟩, by simp⟩
      · exact ⟨⟨by simp, by simp [h1, h2, h3]⟩, by simp⟩
  · rintro ⟨⟨hne, hd⟩, hlen⟩
    match s, hne, hd, hlen with
    | [c1], _, hd, _ =>
      exact ⟨[c1], [], rfl, ⟨c1, hd c1 (by simp), rfl⟩, Or.inl rfl⟩
    | [c1, c2], _, hd, _ =>
      exact ⟨[c1], [c2], rfl, ⟨c1, hd c1 (by simp), rfl⟩,
        Or.inr ⟨[c2], [], rfl, ⟨c2, hd c2 (by simp), rfl⟩, Or.inl rfl⟩⟩
    | [c1, c2, c3], _, hd, _ =>
      exact ⟨[c1], [c2, c3], rfl, ⟨c1, hd c1 (by simp), rfl⟩,
        Or.inr ⟨[c2], [c3], rfl, ⟨c2, hd c2 (by simp), rfl⟩,
          Or.inr ⟨c3, hd c3 (by simp), rfl⟩⟩⟩
    | _ :: _ :: _ :: _ :: _, _, _, hlen => simp at hlen

/-- The pattern `(\d{1,3}\.){3}\d{1,3}:\d+` accepts exactly the texts
`a.b.c.d:port`. -/
theorem reHostPort_rmatch (s : List Char) : reHostPort.rmatch s = true ↔ IsHostPort s := by
  unfold reHostPort IsHostPort dotted
  dsimp only
  rw [show ∀ P Q : RegularExpression Char, RegularExpression.comp P Q = P * Q from fun _ _ => rfl]
  simp only [show ∀ P Q : RegularExpression Char, RegularExpression.comp P Q = P * Q
    from fun _ _ => rfl, RegularExpression.mul_rmatch_iff, RegularExpression.char_rmatch_iff,
    reDigit13_rmatch, reDigits_rmatch]
  constructor
  · rintro ⟨_, _, rfl, ⟨a, _, rfl, ha, rfl⟩, _, _, rfl, ⟨b, _, rfl, hb, rfl⟩, _, _, rfl,
      ⟨c, _, rfl, hc, rfl⟩, d, _, rfl, hd, _, port, rfl, rfl, hp⟩
    exact ⟨a, b, c, d, port, ha, hb, hc, hd, hp, by simp⟩
  · rintro ⟨a, b, c, d, port, ha, hb, hc, hd, hp, rfl⟩
    exact ⟨a ++ ['.'], _, by simp, ⟨a, ['.'], rfl, ha, rfl⟩, b ++ ['.'], _, rfl,
      ⟨b, ['.'], rfl, hb, rfl⟩, c ++ ['.'], _, rfl, ⟨c, ['.'], rfl, hc, rfl⟩, d, _, rfl, hd,
      [':'], port, rfl, rfl, hp⟩

theorem matchPrefix_iff (r : RegularExpression Char) (s : String) :
    matchPrefix r s = true ↔ ∃ p tail, s.data = p ++ tail ∧ r.rmatch p = true := by
  unfold matchPrefix
  rw [List.any_eq_true]
  constructor
  · rintro ⟨p, hp, hr⟩
    obtain ⟨tail, ht⟩ := (List.mem_inits p s.data).1 hp
    exact ⟨p, tail, ht.symm, hr⟩
  · rintro ⟨p, tail, hs, hr⟩
    exact ⟨p, (List.mem_inits p s.data).2 ⟨tail, hs.symm⟩, hr⟩

/-! ### `strings.Split` -/

theorem splitL_skip (sep x b : List Char) : splitL sep x.length (x ++ b) = splitL sep 0 b := by
  induction x with
  | nil => rfl
  | cons c x ih =>
    rw [List.length_cons, List.cons_append, splitL]
    exact ih

theorem splitL_sep (h : Char) (t b : List Char) :
    splitL (h :: t) 0 ((h :: t) ++ b) = [] :: splitL (h :: t) 0 b := by
  have hp : List.isPrefixOf (h :: t) (h :: (t ++ b)) = true := by
    rw [List.isPrefixOf_iff_prefix]
    exact ⟨b, rfl⟩
  rw [List.cons_append, splitL, if_pos hp]
  simp only [List.length_cons, Nat.add_sub_cancel]
  rw [splitL_skip]

theorem splitL_cons_ne (h : Char) (t : List Char) (c : Char) (cs : List Char) (hc : c ≠ h) :
    splitL (h :: t) 0 (c :: cs) =
      match splitL (h :: t) 0 cs with
      | [] => [[c]]
      | p :: ps => (c :: p) :: ps := by
  have hp : ¬ (List.isPrefixOf (h :: t) (c :: cs) = true) := by
    rw [List.isPrefixOf_iff_prefix]
    rintro ⟨r, hr⟩
    exact hc (List.cons.inj hr).1.symm
  rw [splitL, if_neg hp]

/-- Splitting `a ++ sep ++ b` cuts off `a` when the first character of the
separator does not occur in `a`. -/
theorem splitL_append_sep (h : Char) (t a b : List Char) (ha : h ∉ a) :
    splitL (h :: t) 0 (a ++ ((h :: t) ++ b)) = a :: splitL (h :: t) 0 b := by
  induction a with
  | nil => exact splitL_sep h t b
  | cons c a ih =>
    have hc : c ≠ h := fun e => ha (e ▸ List.mem_cons_self _ _)
    have ha' : h ∉ a := fun e => ha (List.mem_cons_of_mem _ e)
    rw [List.cons_append, splitL_cons_ne h t c _ hc, ih ha']

/-- A text without some character of the separator is not split. -/
theorem splitL_of_not_mem (sep s : List Char) (c : Char) (hc : c ∈ sep) (hs : c ∉ s) :
    splitL sep 0 s = [s] := by
  induction s with
  | nil => rfl
  | cons x xs ih =>
    have hp : ¬ (List.isPrefixOf sep (x :: xs) = true) := by
      rw [List.isPrefixOf_iff_prefix]
      intro hpre
      exact hs (hpre.subset hc)
    have hxs : c ∉ xs := fun e => hs (List.mem_cons_of_mem _ e)
    rw [splitL, if_neg hp, ih hxs]

/-! ### `strconv.Atoi` on digits -/

theorem isDigit_ne_sign (c : Char) (h : isDigit c = true) : c ≠ '-' ∧ c ≠ '+' := by
  constructor <;> (rintro rfl; revert h; decide)

/-- On a string of decimal digits `strconv.Atoi` returns its value, or the
largest `int` with a range error when the value does not fit. -/
theorem atoiL_decimal (ds : List Char) (h : IsDecimal ds) :
    atoiL ds =
      if (decimalVal ds : Int) ≤ maxInt then ((decimalVal ds : Int), none)
      else (maxInt, some NumError.ErrRange) := by
  have hdec := h
  obtain ⟨hne, hd⟩ := h
  cases ds with
  | nil => exact absurd rfl hne
  | cons c cs =>
    obtain ⟨h1, h2⟩ := isDigit_ne_sign c (hd c (List.mem_cons_self _ _))
    have hnn : (0 : Int) ≤ (decimalVal (c :: cs) : Int) := Int.natCast_nonneg _
    have hmin : ¬ ((decimalVal (c :: cs) : Int) < minInt) := by
      rw [minInt_eq]
      omega
    have hform : atoiL (c :: cs) = parseIntL false (c :: cs) := by
      unfold atoiL
      simp [h1, h2]
    rw [hform, parseIntL_decimal false (c :: cs) hdec]
    simp only [Bool.false_eq_true, if_false]
    rw [if_neg hmin]
    by_cases hle : (decimalVal (c :: cs) : Int) ≤ maxInt
    · rw [if_neg (not_lt.mpr hle), if_pos hle]
    · rw [if_pos (not_le.mp hle), if_neg hle]

/-! ### The host and the port of a URI -/

theorem IsDecimal.not_mem (s : List Char) (h : IsDecimal s) (c : Char) (hc : isDigit c = false) :
    c ∉ s := by
  intro hmem
  rw [h.2 c hmem] at hc
  cases hc

theorem dotted_not_mem (a b c d : List Char) (ha : IsOctet a) (hb : IsOctet b) (hc : IsOctet c)
    (hd : IsOctet d) (x : Char) (hx : isDigit x = false) (hdot : x ≠ '.') :
    x ∉ dotted a b c d := by
  unfold dotted
  simp only [List.mem_append, List.mem_cons, not_or]
  exact ⟨ha.1.not_mem a x hx, hdot, hb.1.not_mem b x hx, hdot, hc.1.not_mem c x hx, hdot,
    hd.1.not_mem d x hx⟩

/-- The pattern `^tcp://(\d{1,3}\.){3}\d{1,3}:\d+` holds exactly for the
texts that begin with `tcp://a.b.c.d:port`. -/
theorem tcpRegex_iff (uri : String) :
    matchPrefix tcpRegex uri = true ↔
      ∃ hp tail, IsHostPort hp ∧ uri.data = "tcp://".data ++ hp ++ tail := by
  rw [matchPrefix_iff]
  unfold tcpRegex
  constructor
  · rintro ⟨p, tail, hs, hr⟩
    obtain ⟨t, u, rfl, ht, hu⟩ := (RegularExpression.mul_rmatch_iff _ _ p).1 hr
    rw [reLit_rmatch] at ht
    subst ht
    exact ⟨u, tail, (reHostPort_rmatch u).1 hu, hs⟩
  · rintro ⟨hp, tail, hhp, hs⟩
    exact ⟨"tcp://".data ++ hp, tail, hs,
      (RegularExpression.mul_rmatch_iff _ _ _).2
        ⟨"tcp://".data, hp, rfl, (reLit_rmatch _ _).2 rfl, (reHostPort_rmatch hp).2 hhp⟩⟩

theorem strings_Split_colon_host (host rest : List Char) (hh : ':' ∉ host) :
    strings_Split (String.mk (host ++ ':' :: rest)) ":" =
      String.mk host :: (splitL [':'] 0 rest).map String.mk := by
  unfold strings_Split
  rw [show (":" : String).data = [':'] from rfl]
  rw [show host ++ ':' :: rest = host ++ ([':'] ++ rest) from rfl, splitL_append_sep ':' [] host rest hh]
  rfl

theorem splitL_colon_port_head (port tail : List Char) (hp : IsDecimal port)
    (ht : tail = [] ∨ tail.head? = some ':') :
    ((splitL [':'] 0 (port ++ tail)).map String.mk).getD 0 "" = String.mk port := by
  have hnc : ':' ∉ port := hp.not_mem port ':' (by decide)
  rcases ht with rfl | ht
  · rw [List.append_nil, splitL_of_not_mem [':'] port ':' (List.mem_singleton.2 rfl) hnc]
    rfl
  · cases tail with
    | nil => cases ht
    | cons c tail' =>
      simp only [List.head?_cons, Option.some.injEq] at ht
      subst ht
      rw [show port ++ ':' :: tail' = port ++ ([':'] ++ tail') from rfl,
        splitL_append_sep ':' [] port tail' hnc]
      rfl

/-! ### C13: the URI of a Tcp input -/

/-- C13 (counterexample): the URI `tcp://1.2.3.4:80abc` does not have the form
`tcp://a.b.c.d:port`, because `1.2.3.4:80abc` is no host and port, yet
`newTcpInput` accepts it, and the port of the descriptor is `0`, not `80`. -/
theorem newTcpInput_trailing_text_counterexample :
    ¬ IsHostPort "1.2.3.4:80abc".data ∧
      (newTcpInput { Uri := "tcp://1.2.3.4:80abc" } "t" 128).2 = none ∧
      (newTcpInput { Uri := "tcp://1.2.3.4:80abc" } "t" 128).1.TcpListen = "1.2.3.4" ∧
      (newTcpInput { Uri := "tcp://1.2.3.4:80abc" } "t" 128).1.TcpPort = 0 := by
  refine ⟨?_, by decide, by decide, by decide⟩
  rw [← reHostPort_rmatch]
  decide

/-- C13 (amended): `newTcpInput` accepts exactly the URIs that begin with
`tcp://a.b.c.d:port` (four groups of one to three digits, a decimal port),
whatever follows the port digits; every other URI is rejected with the error
`tcp: wrong uri format <uri>` and the zero descriptor. For every accepted URI
`TcpListen` is the host `a.b.c.d`, and `TcpPort` is the decimal value of the
port when the URI ends after the port digits or a colon follows them, and
the value fits the `int` type. -/
theorem newTcpInput_uri (t : LogTcpCfg) (tag : String) (bufSize : Int) :
    ((newTcpInput t tag bufSize).2 = none ↔
        ∃ hp tail, IsHostPort hp ∧ t.Uri.data = "tcp://".data ++ hp ++ tail) ∧
      ((newTcpInput t tag bufSize).2 ≠ none →
        newTcpInput t tag bufSize = ({}, some ("tcp: wrong uri format " ++ t.Uri))) ∧
      (∀ a b c d port tail, IsOctet a → IsOctet b → IsOctet c → IsOctet d → IsDecimal port →
        t.Uri.data = "tcp://".data ++ (dotted a b c d ++ ':' :: port) ++ tail →
        (newTcpInput t tag bufSize).1.TcpListen = String.mk (dotted a b c d) ∧
          ((tail = [] ∨ tail.head? = some ':') → (decimalVal port : Int) ≤ maxInt →
            (newTcpInput t tag bufSize).1.TcpPort = (decimalVal port : Int))) := by
  refine ⟨?_, ?_, ?_⟩
  · rw [← tcpRegex_iff]
    unfold newTcpInput
    by_cases hm : matchPrefix tcpRegex t.Uri = true
    · simp [hm]
    · simp [hm]
  · intro herr
    unfold newTcpInput at herr ⊢
    by_cases hm : matchPrefix tcpRegex t.Uri = true
    · simp [hm] at herr
    · simp [hm]
  · intro a b c d port tail ha hb hc hd hp huri
    have hm : matchPrefix tcpRegex t.Uri = true :=
      (tcpRegex_iff t.Uri).2 ⟨_, tail, ⟨a, b, c, d, port, ha, hb, hc, hd, hp, rfl⟩, huri⟩
    have hdrop : String.mk (t.Uri.data.drop 6)
        = String.mk (dotted a b c d ++ ':' :: (port ++ tail)) := by
      rw [huri, show ("tcp://" : String).data = ['t', 'c', 'p', ':', '/', '/'] from rfl]
      simp
    have hsplit := strings_Split_colon_host (dotted a b c d) (port ++ tail)
      (dotted_not_mem a b c d ha hb hc hd ':' (by decide) (by decide))
    unfold newTcpInput
    simp only [hm, not_true_eq_false, if_false]
    rw [hdrop, hsplit]
    constructor
    · split_ifs <;> rfl
    · intro ht hle
      have hport : (List.map String.mk (splitL [':'] 0 (port ++ tail))).getD 0 ""
          = String.mk port := splitL_colon_port_head port tail hp ht
      have hval : (strconv_Atoi (String.mk port)).1 = (decimalVal port : Int) := by
        unfold strconv_Atoi
        rw [atoiL_decimal port hp, if_pos hle]
      split_ifs
      · simp only [List.getD_cons_succ]
        rw [hport, hval]
      · simp only [List.getD_cons_succ]
        rw [hport, hval]

/-- Witness of C13 (amended): the URI `tcp://0.0.0.0:9000`. -/
theorem newTcpInput_uri_witness :
    IsOctet ['0'] ∧ IsDecimal "9000".data ∧
      (newTcpInput sampleTcpCfg "raw" 128).1.TcpListen = "0.0.0.0" ∧
      (newTcpInput sampleTcpCfg "raw" 128).1.TcpPort = 9000 :=
  have ho : IsOctet ['0'] := ⟨⟨by decide, by decide⟩, by decide⟩
  have hp : IsDecimal "9000".data := ⟨by decide, by decide⟩
  have h := (newTcpInput_uri sampleTcpCfg "raw" 128).2.2 ['0'] ['0'] ['0'] ['0'] "9000".data []
    ho ho ho ho hp rfl
  ⟨ho, hp, h.1, h.2 (Or.inl rfl) (by decide)⟩

/-! ### The syslog URI patterns -/

/-- The pattern `^(tcp|udp|unix_tcp|unix_udp)://.*` holds exactly for the
texts that begin with one of the four schemes followed by `://`. -/
theorem syslogRegex_iff (uri : String) :
    matchPrefix syslogRegex uri = true ↔
      ∃ S x, (S = "tcp" ∨ S = "udp" ∨ S = "unix_tcp" ∨ S = "unix_udp") ∧
        uri.data = S.data ++ "://".data ++ x := by
  rw [matchPrefix_iff]
  unfold syslogRegex
  rw [show ∀ P Q : RegularExpression Char, RegularExpression.comp P Q = P * Q from fun _ _ => rfl]
  simp only [show ∀ P Q : RegularExpression Char, RegularExpression.plus P Q = P + Q
    from fun _ _ => rfl, RegularExpression.mul_rmatch_iff, RegularExpression.add_rmatch_iff,
    reLit_rmatch]
  constructor
  · rintro ⟨p, tail, hs, t, u, rfl, ht, rfl⟩
    rcases ht with rfl | rfl | rfl | rfl
    · exact ⟨"tcp", tail, Or.inl rfl, hs⟩
    · exact ⟨"udp", tail, Or.inr (Or.inl rfl), hs⟩
    · exact ⟨"unix_tcp", tail, Or.inr (Or.inr (Or.inl rfl)), hs⟩
    · exact ⟨"unix_udp", tail, Or.inr (Or.inr (Or.inr rfl)), hs⟩
  · rintro ⟨S, x, hS, hs⟩
    refine ⟨S.data ++ "://".data, x, hs, S.data, "://".data, rfl, ?_, rfl⟩
    rcases hS with rfl | rfl | rfl | rfl
    · exact Or.inl rfl
    · exact Or.inr (Or.inl rfl)
    · exact Or.inr (Or.inr (Or.inl rfl))
    · exact Or.inr (Or.inr (Or.inr rfl))

/-- The pattern `^(tcp|udp)://(\d{1,3}\.){3}\d{1,3}:\d+` holds exactly for
the texts that begin with `tcp://a.b.c.d:port` or `udp://a.b.c.d:port`. -/
theorem tcpUdpRegex_iff (uri : String) :
    matchPrefix tcpUdpRegex uri = true ↔
      ∃ hp tail, IsHostPort hp ∧
        (uri.data = "tcp://".data ++ hp ++ tail ∨ uri.data = "udp://".data ++ hp ++ tail) := by
  rw [matchPrefix_iff]
  unfold tcpUdpRegex
  rw [show ∀ P Q : RegularExpression Char, RegularExpression.comp P Q = P * Q from fun _ _ => rfl]
  simp only [show ∀ P Q : RegularExpression Char, RegularExpression.plus P Q = P + Q
    from fun _ _ => rfl, show ∀ P Q : RegularExpression Char, RegularExpression.comp P Q = P * Q
    from fun _ _ => rfl, RegularExpression.mul_rmatch_iff, RegularExpression.add_rmatch_iff,
    reLit_rmatch, reHostPort_rmatch]
  constructor
  · rintro ⟨p, tail, hs, t, u, rfl, ht, v, hp, rfl, rfl, hhp⟩
    rcases ht with rfl | rfl
    · exact ⟨hp, tail, hhp, Or.inl (by rw [hs]; rfl)⟩
    · exact ⟨hp, tail, hhp, Or.inr (by rw [hs]; rfl)⟩
  · rintro ⟨hp, tail, hhp, hs | hs⟩
    · exact ⟨"tcp://".data ++ hp, tail, hs, "tcp".data, "://".data ++ hp, rfl, Or.inl rfl,
        "://".data, hp, rfl, rfl, hhp⟩
    · exact ⟨"udp://".data ++ hp, tail, hs, "udp".data, "://".data ++ hp, rfl, Or.inr rfl,
        "://".data, hp, rfl, rfl, hhp⟩

/-- The pattern `^unix_(udp|tcp):///.*` holds exactly for the texts that
begin with `unix_udp:///` or `unix_tcp:///`. -/
theorem unixSocketRegex_iff (uri : String) :
    matchPrefix unixSocketRegex uri = true ↔
      ∃ path, uri.data = "unix_tcp://".data ++ '/' :: path ∨
        uri.data = "unix_udp://".data ++ '/' :: path := by
  rw [matchPrefix_iff]
  unfold unixSocketRegex
  rw [show ∀ P Q : RegularExpression Char, RegularExpression.comp P Q = P * Q from fun _ _ => rfl]
  simp only [show ∀ P Q : RegularExpression Char, RegularExpression.plus P Q = P + Q
    from fun _ _ => rfl, show ∀ P Q : RegularExpression Char, RegularExpression.comp P Q = P * Q
    from fun _ _ => rfl, RegularExpression.mul_rmatch_iff, RegularExpression.add_rmatch_iff,
    reLit_rmatch]
  constructor
  · rintro ⟨p, tail, hs, t, u, rfl, rfl, v, w, rfl, hv, rfl⟩
    rcases hv with rfl | rfl
    · exact ⟨tail, Or.inr (by rw [hs]; rfl)⟩
    · exact ⟨tail, Or.inl (by rw [hs]; rfl)⟩
  · rintro ⟨path, hs | hs⟩
    · exact ⟨"unix_tcp:///".data, path, by rw [hs]; rfl, "unix_".data, "tcp:///".data, rfl, rfl,
        "tcp".data, ":///".data, rfl, Or.inr rfl, rfl⟩
    · exact ⟨"unix_udp:///".data, path, by rw [hs]; rfl, "unix_".data, "udp:///".data, rfl, rfl,
        "udp".data, ":///".data, rfl, Or.inl rfl, rfl⟩

/-- The scheme of a URI: the first part of its split on `://`. -/
theorem strings_Split_scheme (uri : String) (S x : List Char) (hS : ':' ∉ S)
    (huri : uri.data = S ++ "://".data ++ x) :
    strings_Split uri "://" = String.mk S :: (splitL "://".data 0 x).map String.mk := by
  unfold strings_Split
  rw [huri, show ("://" : String).data = ':' :: ['/', '/'] from rfl, List.append_assoc,
    splitL_append_sep ':' ['/', '/'] S x hS]
  rfl

/-! ### `newSyslogInput` on a URI with a known scheme -/

/-- `newSyslogInput` on a URI that begins with one of the four schemes and
`://`: the protocol is the scheme, and the text between `://` and the next
`://`, if any, is what the host and port or the socket path are read from. -/
theorem newSyslogInput_of_scheme (l : LogSyslogCfg) (tag : String) (bufSize : Int)
    (S : String) (x : List Char)
    (hS : S = "tcp" ∨ S = "udp" ∨ S = "unix_tcp" ∨ S = "unix_udp")
    (huri : l.URI.data = S.data ++ "://".data ++ x) :
    newSyslogInput l tag bufSize =
      if ((S = "udp" ∨ S = "tcp") ∧ matchPrefix tcpUdpRegex l.URI = false) ∨
          ((S = "unix_udp" ∨ S = "unix_tcp") ∧ matchPrefix unixSocketRegex l.URI = false) then
        ({}, some ("syslog: wrong uri format for " ++ S ++ " " ++ l.URI))
      else
        let seg := ((splitL "://".data 0 x).map String.mk).getD 0 ""
        let fbInput : FBCfgInput :=
          { Name := fbInputTypeSyslog
            Tag := tag
            SyslogMode := S
            SyslogParser := getSyslogParser l.Parser }
        let fbInput :=
          if S = "tcp" ∨ S = "udp" then
            let listenPort := strings_Split seg ":"
            { fbInput with
              SyslogListen := listenPort.getD 0 ""
              SyslogPort := (strconv_Atoi (listenPort.getD 1 "")).1 }
          else
            { fbInput with
              SyslogUnixPath := seg
              SyslogUnixPermissions := l.UnixPermissions }
        let fbInput :=
          if S = "udp" ∨ S = "unix_udp" then
            { fbInput with BufferChunkSize := fmtInt bufSize ++ "k" }
          else
            { fbInput with BufferMaxSize := fmtInt bufSize ++ "k" }
        (fbInput, none) := by
  have hm : matchPrefix syslogRegex l.URI = true := (syslogRegex_iff l.URI).2 ⟨S, x, hS, huri⟩
  have hcolon : ':' ∉ S.data := by
    rcases hS with rfl | rfl | rfl | rfl <;> decide
  have hsplit := strings_Split_scheme l.URI S.data x hcolon huri
  unfold newSyslogInput
  simp only [hm, not_true_eq_false, if_false]
  rw [hsplit]
  rfl

/-- Acceptance by `newSyslogInput`. -/
theorem newSyslogInput_accepts_iff (l : LogSyslogCfg) (tag : String) (bufSize : Int) :
    (newSyslogInput l tag bufSize).2 = none ↔ IsSyslogURI l.URI.data := by
  have htcp : ("tcp://" : String).data = "tcp".data ++ "://".data := rfl
  have hudp : ("udp://" : String).data = "udp".data ++ "://".data := rfl
  have hutcp : ("unix_tcp://" : String).data = "unix_tcp".data ++ "://".data := rfl
  have huudp : ("unix_udp://" : String).data = "unix_udp".data ++ "://".data := rfl
  constructor
  · intro herr
    by_cases hm : matchPrefix syslogRegex l.URI = true
    · obtain ⟨S, x, hS, huri⟩ := (syslogRegex_iff l.URI).1 hm
      rw [newSyslogInput_of_scheme l tag bufSize S x hS huri] at herr
      by_cases hc : ((S = "udp" ∨ S = "tcp") ∧ matchPrefix tcpUdpRegex l.URI = false) ∨
          ((S = "unix_udp" ∨ S = "unix_tcp") ∧ matchPrefix unixSocketRegex l.URI = false)
      · rw [if_pos hc] at herr
        cases herr
      · simp only [not_or, not_and, Bool.not_eq_false] at hc
        rcases hS with rfl | rfl | rfl | rfl
        · exact Or.inl ((tcpUdpRegex_iff l.URI).1 (hc.1 (Or.inr rfl)))
        · exact Or.inl ((tcpUdpRegex_iff l.URI).1 (hc.1 (Or.inl rfl)))
        · exact Or.inr ((unixSocketRegex_iff l.URI).1 (hc.2 (Or.inr rfl)))
        · exact Or.inr ((unixSocketRegex_iff l.URI).1 (hc.2 (Or.inl rfl)))
    · unfold newSyslogInput at herr
      simp [hm] at herr
  · intro h
    rcases h with ⟨hp, tail, hhp, huri | huri⟩ | ⟨path, huri | huri⟩
    · have hre := (tcpUdpRegex_iff l.URI).2 ⟨hp, tail, hhp, Or.inl huri⟩
      rw [newSyslogInput_of_scheme l tag bufSize "tcp" (hp ++ tail) (Or.inl rfl)
        (by rw [huri, htcp]; simp)]
      rw [if_neg]
      simp only [not_or, not_and, Bool.not_eq_false]
      exact ⟨fun _ => hre, fun h => absurd h (by decide)⟩
    · have hre := (tcpUdpRegex_iff l.URI).2 ⟨hp, tail, hhp, Or.inr huri⟩
      rw [newSyslogInput_of_scheme l tag bufSize "udp" (hp ++ tail) (Or.inr (Or.inl rfl))
        (by rw [huri, hudp]; simp)]
      rw [if_neg]
      simp only [not_or, not_and, Bool.not_eq_false]
      exact ⟨fun _ => hre, fun h => absurd h (by decide)⟩
    · have hre := (unixSocketRegex_iff l.URI).2 ⟨path, Or.inl huri⟩
      rw [newSyslogInput_of_scheme l tag bufSize "unix_tcp" ('/' :: path)
        (Or.inr (Or.inr (Or.inl rfl))) (by rw [huri, hutcp])]
      rw [if_neg]
      simp only [not_or, not_and, Bool.not_eq_false]
      exact ⟨fun h => absurd h (by decide), fun _ => hre⟩
    · have hre := (unixSocketRegex_iff l.URI).2 ⟨path, Or.inr huri⟩
      rw [newSyslogInput_of_scheme l tag bufSize "unix_udp" ('/' :: path)
        (Or.inr (Or.inr (Or.inr rfl))) (by rw [huri, huudp])]
      rw [if_neg]
      simp only [not_or, not_and, Bool.not_eq_false]
      exact ⟨fun h => absurd h (by decide), fun _ => hre⟩

/-! ### C12: the syslog URIs that are rejected -/

/-- C12 (counterexample): the URI `tcp://1.2.3.4:80abc` has the scheme `tcp`
and its rest `1.2.3.4:80abc` is not of the shape host and port, yet
`newSyslogInput` accepts it (with the port `0`). -/
theorem newSyslogInput_trailing_text_counterexample :
    ¬ IsHostPort "1.2.3.4:80abc".data ∧
      (newSyslogInput { URI := "tcp://1.2.3.4:80abc" } "t" 128).2 = none ∧
      (newSyslogInput { URI := "tcp://1.2.3.4:80abc" } "t" 128).1.SyslogPort = 0 := by
  refine ⟨?_, by decide, by decide⟩
  rw [← reHostPort_rmatch]
  decide

/-- C12 (amended): `newSyslogInput` returns an error, and then the zero input
descriptor, exactly when the URI is outside the grammar it reads: the URI
does not begin with `tcp://` or `udp://` followed by a host and port
`a.b.c.d:port` (any text may follow the port digits), nor with `unix_tcp://`
or `unix_udp://` followed by a path that begins with `/`. Every URI of the
grammar is accepted. -/
theorem newSyslogInput_error_iff (l : LogSyslogCfg) (tag : String) (bufSize : Int) :
    ((newSyslogInput l tag bufSize).2 ≠ none ↔ ¬ IsSyslogURI l.URI.data) ∧
      ((newSyslogInput l tag bufSize).2 ≠ none → (newSyslogInput l tag bufSize).1 = {}) := by
  constructor
  · rw [← newSyslogInput_accepts_iff l tag bufSize]
  · intro herr
    rcases newSyslogInput_spec l tag bufSize with ⟨h, -⟩ | ⟨e, -, -, h⟩
    · exact absurd h herr
    · exact h

/-- Witness of C12 (amended): the URI `ftp://x` is rejected with the zero
descriptor and the URI `unix_udp:///var/run/syslog.sock` is accepted. -/
theorem newSyslogInput_error_iff_witness :
    (newSyslogInput { URI := "ftp://x" } "t" 128).2 ≠ none ∧
      (newSyslogInput { URI := "ftp://x" } "t" 128).1 = {} ∧
      IsSyslogURI "unix_udp:///var/run/syslog.sock".data :=
  have h := newSyslogInput_error_iff { URI := "ftp://x" } "t" 128
  have h2 := newSyslogInput_error_iff { URI := "unix_udp:///var/run/syslog.sock" } "t" 128
  ⟨by decide, h.2 (by decide), not_not.mp (fun hn => (h2.1.2 hn) (by decide))⟩

/-! ### C11: the fields of a syslog input -/

theorem String.append_k_ne_empty (s : String) : s ++ "k" ≠ "" := by
  intro h
  have h2 := congrArg String.length h
  simp at h2
  exact absurd h2.2 (by decide)

/-- C11 (counterexample): the port of the URI
`tcp://127.0.0.1:99999999999999999999` is a decimal number, yet `SyslogPort`
is the largest `int`, not the value of the port. -/
theorem newSyslogInput_port_counterexample :
    IsDecimal "99999999999999999999".data ∧
      (newSyslogInput { URI := "tcp://127.0.0.1:99999999999999999999" } "t" 128).2 = none ∧
      (newSyslogInput { URI := "tcp://127.0.0.1:99999999999999999999" } "t" 128).1.SyslogPort
        = 9223372036854775807 ∧
      (newSyslogInput { URI := "tcp://127.0.0.1:99999999999999999999" } "t" 128).1.SyslogPort
        ≠ 99999999999999999999 := by
  refine ⟨?_, by decide, by decide, by decide⟩
  unfold IsDecimal
  decide

/-- C11 (amended): for every syslog URI `<scheme>://a.b.c.d:port` with scheme
`tcp` or `udp`, four groups of one to three digits and a decimal port,
`newSyslogInput` succeeds with `SyslogMode` the scheme, `SyslogListen` the
host `a.b.c.d`, `SyslogPort` the value of the port when it fits the `int`
type and the largest `int` otherwise, `SyslogParser` the declared parser or
`rfc3164` when none is declared, and the buffer size `<n>k` in
`BufferMaxSize` (`BufferChunkSize` empty) for `tcp` and in `BufferChunkSize`
(`BufferMaxSize` empty) for `udp`. For every accepted URI that begins with
one of the four schemes, `SyslogMode` is that scheme, `BufferChunkSize` is
`<n>k` with `BufferMaxSize` empty exactly when the scheme is `udp` or
`unix_udp`, and otherwise `BufferMaxSize` is `<n>k` with `BufferChunkSize`
empty. -/
theorem newSyslogInput_fields (tag : String) (bufSize : Int) :
    (∀ (l : LogSyslogCfg) (S : String) (a b c d port : List Char),
      (S = "tcp" ∨ S = "udp") → IsOctet a → IsOctet b → IsOctet c → IsOctet d →
      IsDecimal port → l.URI.data = S.data ++ "://".data ++ (dotted a b c d ++ ':' :: port) →
      (newSyslogInput l tag bufSize).2 = none ∧
        (newSyslogInput l tag bufSize).1.SyslogMode = S ∧
        (newSyslogInput l tag bufSize).1.SyslogListen = String.mk (dotted a b c d) ∧
        (newSyslogInput l tag bufSize).1.SyslogPort =
          (if (decimalVal port : Int) ≤ maxInt then (decimalVal port : Int) else maxInt) ∧
        (newSyslogInput l tag bufSize).1.SyslogParser =
          (if l.Parser = "" then "rfc3164" else l.Parser) ∧
        (S = "tcp" →
          (newSyslogInput l tag bufSize).1.BufferMaxSize = fmtInt bufSize ++ "k" ∧
            (newSyslogInput l tag bufSize).1.BufferChunkSize = "") ∧
        (S = "udp" →
          (newSyslogInput l tag bufSize).1.BufferChunkSize = fmtInt bufSize ++ "k" ∧
            (newSyslogInput l tag bufSize).1.BufferMaxSize = "")) ∧
      (∀ (l : LogSyslogCfg) (S : String) (x : List Char),
        (S = "tcp" ∨ S = "udp" ∨ S = "unix_tcp" ∨ S = "unix_udp") →
        l.URI.data = S.data ++ "://".data ++ x → (newSyslogInput l tag bufSize).2 = none →
        (newSyslogInput l tag bufSize).1.SyslogMode = S ∧
          (((newSyslogInput l tag bufSize).1.BufferChunkSize = fmtInt bufSize ++ "k" ∧
              (newSyslogInput l tag bufSize).1.BufferMaxSize = "") ↔
            (S = "udp" ∨ S = "unix_udp")) ∧
          (¬ (S = "udp" ∨ S = "unix_udp") →
            (newSyslogInput l tag bufSize).1.BufferMaxSize = fmtInt bufSize ++ "k" ∧
              (newSyslogInput l tag bufSize).1.BufferChunkSize = "")) := by
  constructor
  · intro l S a b c d port hS ha hb hc hd hp huri
    have hS4 : S = "tcp" ∨ S = "udp" ∨ S = "unix_tcp" ∨ S = "unix_udp" := by
      rcases hS with h | h
      · exact Or.inl h
      · exact Or.inr (Or.inl h)
    have hhp : IsHostPort (dotted a b c d ++ ':' :: port) := ⟨a, b, c, d, port, ha, hb, hc, hd, hp, rfl⟩
    have hre : matchPrefix tcpUdpRegex l.URI = true := by
      rw [tcpUdpRegex_iff]
      refine ⟨_, [], hhp, ?_⟩
      rcases hS with rfl | rfl
      · exact Or.inl (by rw [huri, List.append_nil]; rfl)
      · exact Or.inr (by rw [huri, List.append_nil]; rfl)
    have hslash : '/' ∉ dotted a b c d ++ ':' :: port := by
      simp only [List.mem_append, List.mem_cons, not_or]
      exact ⟨dotted_not_mem a b c d ha hb hc hd '/' (by decide) (by decide), by decide,
        hp.not_mem port '/' (by decide)⟩
    have hseg : ((splitL "://".data 0 (dotted a b c d ++ ':' :: port)).map String.mk).getD 0 ""
        = String.mk (dotted a b c d ++ ':' :: port) := by
      rw [splitL_of_not_mem "://".data _ '/' (by decide) hslash]
      rfl
    have hsplit := strings_Split_colon_host (dotted a b c d) port
      (dotted_not_mem a b c d ha hb hc hd ':' (by decide) (by decide))
    have hport : ((splitL [':'] 0 port).map String.mk).getD 0 "" = String.mk port := by
      have := splitL_colon_port_head port [] hp (Or.inl rfl)
      rwa [List.append_nil] at this
    have hval : (strconv_Atoi (String.mk port)).1 =
        (if (decimalVal port : Int) ≤ maxInt then (decimalVal port : Int) else maxInt) := by
      unfold strconv_Atoi
      rw [atoiL_decimal port hp]
      split_ifs <;> rfl
    have hcond : ¬ (((S = "udp" ∨ S = "tcp") ∧ matchPrefix tcpUdpRegex l.URI = false) ∨
        ((S = "unix_udp" ∨ S = "unix_tcp") ∧ matchPrefix unixSocketRegex l.URI = false)) := by
      rintro (⟨-, h⟩ | ⟨h, -⟩)
      · rw [hre] at h
        cases h
      · rcases hS with rfl | rfl <;> rcases h with h | h <;> exact absurd h (by decide)
    rw [newSyslogInput_of_scheme l tag bufSize S _ hS4 huri, if_neg hcond]
    dsimp only
    rw [hseg, hsplit, List.getD_cons_zero, List.getD_cons_succ, hport, hval]
    have hor : S = "tcp" ∨ S = "udp" := hS
    rw [if_pos hor]
    rcases hS with rfl | rfl
    · refine ⟨rfl, rfl, rfl, rfl, rfl, fun _ => ⟨rfl, rfl⟩, fun h => absurd h (by decide)⟩
    · refine ⟨rfl, rfl, rfl, rfl, rfl, fun h => absurd h (by decide), fun _ => ⟨rfl, rfl⟩⟩
  · intro l S x hS huri herr
    rw [newSyslogInput_of_scheme l tag bufSize S x hS huri] at herr ⊢
    by_cases hc : ((S = "udp" ∨ S = "tcp") ∧ matchPrefix tcpUdpRegex l.URI = false) ∨
        ((S = "unix_udp" ∨ S = "unix_tcp") ∧ matchPrefix unixSocketRegex l.URI = false)
    · rw [if_pos hc] at herr
      cases herr
    · rw [if_neg hc]
      dsimp only
      have hk := String.append_k_ne_empty (fmtInt bufSize)
      by_cases hd : S = "udp" ∨ S = "unix_udp"
      · rw [if_pos hd]
        refine ⟨?_, ?_, fun h => absurd hd h⟩
        · split_ifs <;> rfl
        · constructor
          · intro _
            exact hd
          · intro _
            split_ifs <;> exact ⟨rfl, rfl⟩
      · rw [if_neg hd]
        refine ⟨?_, ?_, fun _ => ?_⟩
        · split_ifs <;> rfl
        · constructor
          · rintro ⟨h1, -⟩
            exfalso
            apply hk
            rw [← h1]
            split_ifs <;> rfl
          · intro h
            exact absurd h hd
        · split_ifs <;> exact ⟨rfl, rfl⟩

/-- Witness of C11 (amended): the URIs `tcp://127.0.0.1:5140` and
`udp://127.0.0.1:5140`. -/
theorem newSyslogInput_fields_witness :
    (newSyslogInput { URI := "tcp://127.0.0.1:5140" } "t" 128).1.SyslogListen = "127.0.0.1" ∧
      (newSyslogInput { URI := "tcp://127.0.0.1:5140" } "t" 128).1.SyslogPort = 5140 ∧
      (newSyslogInput { URI := "tcp://127.0.0.1:5140" } "t" 128).1.BufferMaxSize = "128k" ∧
      (newSyslogInput { URI := "udp://127.0.0.1:5140" } "t" 128).1.BufferChunkSize = "128k" ∧
      (newSyslogInput { URI := "udp://127.0.0.1:5140" } "t" 128).1.BufferMaxSize = "" :=
  have h1 : IsOctet "127".data := ⟨⟨by decide, by decide⟩, by decide⟩
  have h0 : IsOctet ['0'] := ⟨⟨by decide, by decide⟩, by decide⟩
  have ho : IsOctet ['1'] := ⟨⟨by decide, by decide⟩, by decide⟩
  have hp : IsDecimal "5140".data := ⟨by decide, by decide⟩
  have ht := (newSyslogInput_fields "t" 128).1 { URI := "tcp://127.0.0.1:5140" } "tcp"
    "127".data ['0'] ['0'] ['1'] "5140".data (Or.inl rfl) h1 h0 h0 ho hp rfl
  have hu := (newSyslogInput_fields "t" 128).2 { URI := "udp://127.0.0.1:5140" } "udp"
    "127.0.0.1:5140".data (Or.inr (Or.inl rfl)) rfl (by decide)
  ⟨ht.2.2.1, ht.2.2.2.1, (ht.2.2.2.2.2.1 rfl).1, (hu.2.1.2 (Or.inl rfl)).1,
    (hu.2.1.2 (Or.inl rfl)).2⟩

/-! ### Decimal rendering -/

theorem digitChar_isDigit (m : Nat) (hm : m < 10) :
    isDigit (Nat.digitChar m) = true ∧ digitVal (Nat.digitChar m) = m := by
  interval_cases m <;> decide

theorem decimalVal_append_singleton (ds : List Char) (d : Char) :
    decimalVal (ds ++ [d]) = decimalVal ds * 10 + digitVal d := by
  unfold decimalVal
  rw [List.foldl_append]
  rfl

/-- With enough fuel `Nat.toDigitsCore` at base ten puts the decimal digits
of the number in front of the accumulator. -/
theorem toDigitsCore_decimal (fuel n : Nat) (acc : List Char) (hfuel : n < fuel) :
    ∃ ds, IsDecimal ds ∧ decimalVal ds = n ∧ Nat.toDigitsCore 10 fuel n acc = ds ++ acc := by
  induction fuel generalizing n acc with
  | zero => omega
  | succ fuel ih =>
    have hmod : n % 10 < 10 := Nat.mod_lt n (by decide)
    obtain ⟨hdig, hval⟩ := digitChar_isDigit (n % 10) hmod
    obtain ⟨last, hlast⟩ : ∃ last, last = Nat.digitChar (n % 10) := ⟨_, rfl⟩
    rw [← hlast] at hdig hval
    have hstep : Nat.toDigitsCore 10 (fuel + 1) n acc =
        if n / 10 = 0 then last :: acc else Nat.toDigitsCore 10 fuel (n / 10) (last :: acc) := by
      rw [hlast]
      rfl
    rw [hstep]
    by_cases hz : n / 10 = 0
    · rw [if_pos hz]
      have hlt : n < 10 := by omega
      have hone : decimalVal [last] = digitVal last := by simp [decimalVal]
      refine ⟨[last], ⟨by simp, ?_⟩, ?_, rfl⟩
      · intro c hc
        rw [List.mem_singleton.mp hc]
        exact hdig
      · rw [hone, hval]
        exact Nat.mod_eq_of_lt hlt
    · rw [if_neg hz]
      have hq : n / 10 < fuel := by omega
      obtain ⟨front, hdec, hv, hfront⟩ := ih (n / 10) (last :: acc) hq
      refine ⟨front ++ [last], ⟨by simp, ?_⟩, ?_, ?_⟩
      · intro c hc
        rcases List.mem_append.mp hc with h | h
        · exact hdec.2 c h
        · rw [List.mem_singleton.mp h]
          exact hdig
      · rw [decimalVal_append_singleton, hv, hval]
        omega
      · rw [hfront]
        simp

/-- Go `%d` of a natural number: its decimal digits. -/
theorem Nat_repr_decimal (n : Nat) :
    IsDecimal (Nat.repr n).data ∧ decimalVal (Nat.repr n).data = n := by
  obtain ⟨ds, hdec, hv, hds⟩ := toDigitsCore_decimal (n + 1) n [] (Nat.lt_succ_self n)
  have hdata : (Nat.repr n).data = ds := by
    rw [show (Nat.repr n).data = Nat.toDigitsCore 10 (n + 1) n [] from rfl, hds, List.append_nil]
  rw [hdata]
  exact ⟨hdec, hv⟩

/-- Of a syslog input that is accepted, one of the two buffer fields holds
the buffer size and the other one is empty. -/
theorem newSyslogInput_buffer (l : LogSyslogCfg) (tag : String) (bufSize : Int)
    (h : (newSyslogInput l tag bufSize).2 = none) :
    ((newSyslogInput l tag bufSize).1.BufferMaxSize = fmtInt bufSize ++ "k" ∧
        (newSyslogInput l tag bufSize).1.BufferChunkSize = "") ∨
      ((newSyslogInput l tag bufSize).1.BufferChunkSize = fmtInt bufSize ++ "k" ∧
        (newSyslogInput l tag bufSize).1.BufferMaxSize = "") := by
  unfold newSyslogInput at h ⊢
  dsimp only at h ⊢
  split_ifs at h ⊢
  all_goals first
    | exact Or.inl ⟨rfl, rfl⟩
    | exact Or.inr ⟨rfl, rfl⟩

/-! ### C18: the buffer size -/

/-- C18 (counterexample): a file block with `max_line_kb: -5` gets the buffer
field `-5k`, which is not a decimal number followed by `k`. -/
theorem buffer_size_negative_counterexample :
    (parseFileInput sampleNegativeBufferBlock "/var/db/fb.db").1.BufferMaxSize = "-5k" ∧
      ¬ (∃ ds, IsDecimal ds ∧ 0 < decimalVal ds ∧
          (parseFileInput sampleNegativeBufferBlock "/var/db/fb.db").1.BufferMaxSize.data
            = ds ++ ['k']) := by
  refine ⟨by decide, ?_⟩
  rintro ⟨ds, hdec, -, hds⟩
  have hd : (parseFileInput sampleNegativeBufferBlock "/var/db/fb.db").1.BufferMaxSize.data
      = ['-', '5'] ++ ['k'] := by decide
  rw [hd] at hds
  have hds2 : ds = ['-', '5'] := (List.append_left_inj ['k']).1 hds.symm
  have hm := hdec.2 '-' (by rw [hds2]; exact List.mem_cons_self _ _)
  revert hm
  decide

/-- C18 (amended): for every block, the buffer size used by the File, Folder
and Syslog translators is `MaxLineKb` when it is set and the constant 128
when it is unset (0), and the buffer field of the produced input
(`BufferMaxSize`, or `BufferChunkSize` of a syslog input, the other of the two
being empty) is the decimal rendering of that size followed by `k`. When
`MaxLineKb` is not negative this is a positive decimal number followed by
`k`, and `128k` when `MaxLineKb` is unset. -/
theorem buffer_size (l : LogCfg) (dbPath : String) :
    getBufferMaxSize l = (if l.MaxLineKb = 0 then 128 else l.MaxLineKb) ∧
      (parseFileInput l dbPath).1.BufferMaxSize = fmtInt (getBufferMaxSize l) ++ "k" ∧
      (parseFolderInput l dbPath).1.BufferMaxSize = fmtInt (getBufferMaxSize l) ++ "k" ∧
      (∀ syslog : LogSyslogCfg, (parseSyslogInput l syslog).2.2 = none →
        ((parseSyslogInput l syslog).1.BufferMaxSize = fmtInt (getBufferMaxSize l) ++ "k" ∧
            (parseSyslogInput l syslog).1.BufferChunkSize = "") ∨
          ((parseSyslogInput l syslog).1.BufferChunkSize = fmtInt (getBufferMaxSize l) ++ "k" ∧
            (parseSyslogInput l syslog).1.BufferMaxSize = "")) ∧
      (0 ≤ l.MaxLineKb →
        ∃ ds, IsDecimal ds ∧ 0 < decimalVal ds ∧ (decimalVal ds : Int) = getBufferMaxSize l ∧
          (fmtInt (getBufferMaxSize l) ++ "k").data = ds ++ ['k']) ∧
      (l.MaxLineKb = 0 → fmtInt (getBufferMaxSize l) ++ "k" = "128k") := by
  refine ⟨rfl, rfl, rfl, ?_, ?_, ?_⟩
  · intro syslog herr
    unfold parseSyslogInput at herr ⊢
    rcases hr : newSyslogInput syslog l.Name (getBufferMaxSize l) with ⟨inp, err⟩
    rw [hr] at herr
    cases err with
    | some e => cases herr
    | none =>
      have hb := newSyslogInput_buffer syslog l.Name (getBufferMaxSize l) (by rw [hr])
      rw [hr] at hb
      exact hb
  · intro hnn
    have hpos : 0 < getBufferMaxSize l := by
      unfold getBufferMaxSize defaultBufferMaxSize
      dsimp only
      split_ifs with h0
      · decide
      · omega
    obtain ⟨n, hn⟩ := Int.eq_ofNat_of_zero_le (le_of_lt hpos)
    rw [hn] at hpos ⊢
    obtain ⟨hdec, hv⟩ := Nat_repr_decimal n
    refine ⟨(Nat.repr n).data, hdec, ?_, ?_, ?_⟩
    · rw [hv]
      exact_mod_cast hpos
    · rw [hv]
    · rfl
  · intro h0
    unfold getBufferMaxSize
    simp only [h0, if_true]
    decide

/-- Witness of C18 (amended): a file block with `max_line_kb: 32`. -/
theorem buffer_size_witness :
    (0 : Int) ≤ ({ Name := "app", File := "/var/log/app.log", MaxLineKb := 32 } : LogCfg).MaxLineKb ∧
      (parseFileInput { Name := "app", File := "/var/log/app.log", MaxLineKb := 32 }
        "/var/db/fb.db").1.BufferMaxSize = "32k" ∧
      ∃ ds, IsDecimal ds ∧ 0 < decimalVal ds ∧
        (fmtInt (getBufferMaxSize { Name := "app", File := "/var/log/app.log", MaxLineKb := 32 })
          ++ "k").data = ds ++ ['k'] :=
  have h := buffer_size { Name := "app", File := "/var/log/app.log", MaxLineKb := 32 }
    "/var/db/fb.db"
  ⟨by decide, h.2.1, (h.2.2.2.2.1 (by decide)).elim fun ds hds => ⟨ds, hds.1, hds.2.1, hds.2.2.2⟩⟩

/-! ### `filepath.Clean` on paths of plain elements -/

theorem joinSlash_cons (e : List Char) (rest : List (List Char)) (h : rest ≠ []) :
    joinSlash (e :: rest) = e ++ '/' :: joinSlash rest := by
  cases rest with
  | nil => exact absurd rfl h
  | cons r rs => rfl

theorem joinSlash_append_singleton (es : List (List Char)) (x : List Char) (h : es ≠ []) :
    joinSlash (es ++ [x]) = joinSlash es ++ '/' :: x := by
  induction es with
  | nil => exact absurd rfl h
  | cons e rest ih =>
    cases rest with
    | nil => rfl
    | cons r rs =>
      rw [List.cons_append, joinSlash_cons e _ (by simp), ih (by simp),
        joinSlash_cons e _ (by simp), List.append_assoc]
      rfl

theorem strings_Join_data (es : List (List Char)) :
    (strings_Join (es.map String.mk) "/").data = joinSlash es := by
  induction es with
  | nil => rfl
  | cons e rest ih =>
    cases rest with
    | nil => rfl
    | cons r rs =>
      rw [show strings_Join (List.map String.mk (e :: r :: rs)) "/"
          = String.mk e ++ "/" ++ strings_Join (List.map String.mk (r :: rs)) "/" from rfl,
        String.data_append, String.data_append, ih, joinSlash_cons e _ (by simp)]
      simp

theorem splitL_slash_cons (e r : List Char) (he : '/' ∉ e) :
    splitL ['/'] 0 (e ++ '/' :: r) = e :: splitL ['/'] 0 r := by
  rw [show e ++ '/' :: r = e ++ (['/'] ++ r) from rfl]
  exact splitL_append_sep '/' [] e r he

theorem splitL_joinSlash (es : List (List Char)) (r : List Char) (hes : ∀ e ∈ es, '/' ∉ e)
    (hne : es ≠ []) :
    splitL ['/'] 0 (joinSlash es ++ '/' :: r) = es ++ splitL ['/'] 0 r := by
  induction es with
  | nil => exact absurd rfl hne
  | cons e rest ih =>
    have he : '/' ∉ e := hes e (List.mem_cons_self _ _)
    cases rest with
    | nil => exact splitL_slash_cons e r he
    | cons x xs =>
      rw [joinSlash_cons e _ (by simp), List.append_assoc, List.cons_append,
        splitL_slash_cons e _ he,
        ih (fun y hy => hes y (List.mem_cons_of_mem _ hy)) (by simp)]
      rfl

theorem splitL_slashes_star (k : Nat) :
    splitL ['/'] 0 (List.replicate k '/' ++ ['*']) = List.replicate k [] ++ [['*']] := by
  induction k with
  | zero => rfl
  | succ k ih =>
    rw [List.replicate_succ, List.cons_append,
      show '/' :: (List.replicate k '/' ++ ['*']) = [] ++ '/' :: (List.replicate k '/' ++ ['*'])
        from rfl,
      splitL_slash_cons [] _ (by simp), ih]
    rfl

/-- The lexical processing keeps the plain elements and drops the empty
ones. -/
theorem cleanElems_plain (rooted : Bool) (xs stack : List (List Char))
    (hxs : ∀ x ∈ xs, x = [] ∨ IsPlainElem x) :
    cleanElems rooted xs stack = stack.reverse ++ xs.filter (fun x => !decide (x = [])) := by
  induction xs generalizing stack with
  | nil => simp [cleanElems]
  | cons x rest ih =>
    have hrest : ∀ y ∈ rest, y = [] ∨ IsPlainElem y :=
      fun y hy => hxs y (List.mem_cons_of_mem _ hy)
    rcases hxs x (List.mem_cons_self _ _) with hx | hx
    · subst hx
      unfold cleanElems
      rw [if_pos (Or.inl rfl), ih stack hrest]
      simp
    · obtain ⟨h1, -, h3, h4⟩ := hx
      have hn : ¬ (x = [] ∨ x = ['.']) := fun h => h.elim h1 h3
      unfold cleanElems
      rw [if_neg hn, if_neg h4, ih (x :: stack) hrest]
      simp [h1]

theorem filepath_Clean_data (p : String) (hp : p.data ≠ []) :
    (filepath_Clean p).data =
      if (if p.data.head? = some '/' then
            '/' :: joinSlash (cleanElems (decide (p.data.head? = some '/'))
              (splitL ['/'] 0 p.data) [])
          else joinSlash (cleanElems (decide (p.data.head? = some '/'))
              (splitL ['/'] 0 p.data) [])) = [] then ['.']
      else
        (if p.data.head? = some '/' then
            '/' :: joinSlash (cleanElems (decide (p.data.head? = some '/'))
              (splitL ['/'] 0 p.data) [])
          else joinSlash (cleanElems (decide (p.data.head? = some '/'))
              (splitL ['/'] 0 p.data) [])) := by
  have hpe : p ≠ "" := fun h => hp (by rw [h])
  unfold filepath_Clean
  rw [if_neg hpe]
  dsimp only
  by_cases hr : p.data.head? = some '/'
  · simp only [hr, decide_True, if_true]
    have hne : ("/" ++ strings_Join (List.map String.mk
        (cleanElems true (splitL ['/'] 0 p.data) [])) "/" : String) ≠ "" := by
      intro h
      have := congrArg String.data h
      rw [String.data_append] at this
      cases this
    rw [if_neg hne, String.data_append, strings_Join_data]
    simp
  · simp only [hr, decide_False, if_false, Bool.false_eq_true]
    by_cases hb : strings_Join (List.map String.mk
        (cleanElems false (splitL ['/'] 0 p.data) [])) "/" = ""
    · have hb2 := congrArg String.data hb
      rw [strings_Join_data] at hb2
      rw [if_pos hb, if_pos hb2]
    · have hb2 : joinSlash (cleanElems false (splitL ['/'] 0 p.data) []) ≠ [] := by
        intro h
        apply hb
        apply String.ext
        rw [strings_Join_data, h]
      rw [if_neg hb, if_neg hb2, strings_Join_data]

theorem replicate_append_cons (k : Nat) (a : Char) (l : List Char) :
    List.replicate k a ++ a :: l = a :: (List.replicate k a ++ l) := by
  induction k with
  | zero => rfl
  | succ k ih => rw [List.replicate_succ, List.cons_append, ih, List.cons_append]

theorem filter_nonempty_plain (elems : List (List Char)) (h : ∀ e ∈ elems, IsPlainElem e) :
    elems.filter (fun x => !decide (x = [])) = elems := by
  rw [List.filter_eq_self]
  intro e he
  simp [(h e he).1]

theorem filter_nonempty_replicate (k : Nat) :
    (List.replicate k ([] : List Char)).filter (fun x => !decide (x = [])) = [] := by
  rw [List.filter_eq_nil_iff]
  intro x hx
  simp [(List.mem_replicate.mp hx).2]

theorem joinSlash_head (elems : List (List Char)) (r : List Char) (hne : elems ≠ [])
    (h : ∀ e ∈ elems, IsPlainElem e) : (joinSlash elems ++ r).head? ≠ some '/' := by
  cases elems with
  | nil => exact absurd rfl hne
  | cons e rest =>
    obtain ⟨h1, h2, -, -⟩ := h e (List.mem_cons_self _ _)
    cases e with
    | nil => exact absurd rfl h1
    | cons c cs =>
      have hc : c ≠ '/' := fun hc => h2 (hc ▸ List.mem_cons_self _ _)
      cases rest with
      | nil =>
        intro hh
        exact hc (by simpa [joinSlash] using hh)
      | cons x xs =>
        intro hh
        exact hc (by simpa [joinSlash] using hh)

/-- Cleaning a path of plain elements that is followed by separators and
`/*`: the elements are kept and `*` is added as the last one. -/
theorem cleanElems_folder (rooted : Bool) (elems : List (List Char)) (k : Nat)
    (hne : elems ≠ []) (h : ∀ e ∈ elems, IsPlainElem e) :
    cleanElems rooted
        (splitL ['/'] 0 (joinSlash elems ++ '/' :: (List.replicate k '/' ++ ['*']))) []
      = elems ++ [['*']] := by
  have hstar : IsPlainElem ['*'] := ⟨by decide, by decide, by decide, by decide⟩
  rw [splitL_joinSlash elems _ (fun e he => (h e he).2.1) hne, splitL_slashes_star,
    cleanElems_plain]
  · simp only [List.reverse_nil, List.nil_append, List.filter_append,
      filter_nonempty_plain elems h, filter_nonempty_replicate]
    rfl
  · intro x hx
    rcases List.mem_append.mp hx with hx | hx
    · exact Or.inr (h x hx)
    · rcases List.mem_append.mp hx with hx | hx
      · exact Or.inl (List.mem_replicate.mp hx).2
      · rw [List.mem_singleton.mp hx]
        exact Or.inr hstar

/-! ### C17: the path of a folder input -/

/-- C17 (counterexample): for the folder `/var/log/`, which ends with a
separator, the path of the tail input is `/var/log/*` and not the folder
followed by `/*`, which is `/var/log//*`. -/
theorem parseFolderInput_trailing_separator_counterexample :
    sampleFolderBlock.Folder ≠ "" ∧
      (parseFolderInput sampleFolderBlock "/var/db/fb.db").1.Path = "/var/log/*" ∧
      sampleFolderBlock.Folder ++ "/*" = "/var/log//*" ∧
      (parseFolderInput sampleFolderBlock "/var/db/fb.db").1.Path
        ≠ sampleFolderBlock.Folder ++ "/*" := by
  refine ⟨by decide, by decide, by decide, by decide⟩

/-- C17 (amended): for every Folder block (non-empty folder string), the
`Path` of the tail input produced by `parseFolderInput` is the cleaned form of
folder + `/*` (`filepath.Join`). When the folder is a path of plain elements
(non-empty, neither `.` nor `..`), rooted or not, followed by any number of
trailing separators, the `Path` is the folder without its trailing
separators followed by `/*`; for a folder without trailing separator this
is folder + `/*`. -/
theorem parseFolderInput_Path (l : LogCfg) (dbPath : String) :
    (l.Folder ≠ "" →
        (parseFolderInput l dbPath).1.Path = filepath_Clean (l.Folder ++ "/" ++ "*")) ∧
      (∀ (rooted : Bool) (elems : List (List Char)) (k : Nat), elems ≠ [] →
        (∀ e ∈ elems, IsPlainElem e) →
        l.Folder.data = (if rooted = true then ['/'] else []) ++ joinSlash elems ++
          List.replicate k '/' →
        (parseFolderInput l dbPath).1.Path.data =
          (if rooted = true then ['/'] else []) ++ joinSlash elems ++ ['/', '*']) := by
  have hpath : l.Folder ≠ "" →
      (parseFolderInput l dbPath).1.Path = filepath_Clean (l.Folder ++ "/" ++ "*") := by
    intro hf
    unfold parseFolderInput newFileInput filepath_Join
    have hfilter : List.filter (fun e => decide (e ≠ "")) [l.Folder, "*"] = [l.Folder, "*"] := by
      simp [List.filter, hf]
    simp only [hfilter]
    rfl
  refine ⟨hpath, ?_⟩
  intro rooted elems k hne hplain hfolder
  have hjn : joinSlash elems ≠ [] := by
    intro hj
    have hh := joinSlash_head elems ['/'] hne hplain
    rw [hj] at hh
    exact hh rfl
  have hfne : l.Folder ≠ "" := by
    intro h
    rw [h] at hfolder
    have h1 := (List.append_eq_nil.mp hfolder.symm).1
    exact hjn (List.append_eq_nil.mp h1).2
  rw [hpath hfne]
  have hdata : (l.Folder ++ "/" ++ "*").data =
      (if rooted = true then ['/'] else []) ++
        (joinSlash elems ++ '/' :: (List.replicate k '/' ++ ['*'])) := by
    rw [String.data_append, String.data_append, hfolder,
      show ("/" : String).data = ['/'] from rfl, show ("*" : String).data = ['*'] from rfl]
    simp only [List.append_assoc]
    rw [show List.replicate k '/' ++ (['/'] ++ ['*']) = List.replicate k '/' ++ '/' :: ['*']
      from rfl, replicate_append_cons]
  have hnonempty : (l.Folder ++ "/" ++ "*").data ≠ [] := by
    rw [String.data_append]
    simp
  rw [filepath_Clean_data _ hnonempty, hdata]
  cases rooted
  · have hh : (joinSlash elems ++ '/' :: (List.replicate k '/' ++ ['*'])).head? ≠ some '/' :=
      joinSlash_head elems _ hne hplain
    simp only [Bool.false_eq_true, if_false, List.nil_append, hh, decide_False]
    rw [cleanElems_folder false elems k hne hplain, joinSlash_append_singleton elems _ hne]
    simp
  · simp only [if_true, List.cons_append, List.nil_append, List.head?_cons, decide_True]
    rw [show '/' :: (joinSlash elems ++ '/' :: (List.replicate k '/' ++ ['*']))
        = [] ++ '/' :: (joinSlash elems ++ '/' :: (List.replicate k '/' ++ ['*'])) from rfl,
      splitL_slash_cons [] _ (by simp)]
    have hcl : cleanElems true
        ([] :: splitL ['/'] 0 (joinSlash elems ++ '/' :: (List.replicate k '/' ++ ['*']))) []
        = elems ++ [['*']] := by
      unfold cleanElems
      rw [if_pos (Or.inl rfl)]
      exact cleanElems_folder true elems k hne hplain
    rw [hcl, joinSlash_append_singleton elems _ hne]
    simp

/-- Witness of C17 (amended): the folder `/var/log/` with one trailing
separator, and the folder `logs/app` without one. -/
theorem parseFolderInput_Path_witness :
    (parseFolderInput sampleFolderBlock "/var/db/fb.db").1.Path.data = "/var/log/*".data ∧
      (parseFolderInput { Name := "rel", Folder := "logs/app" } "/var/db/fb.db").1.Path.data
        = "logs/app".data ++ "/*".data :=
  have hp : ∀ e ∈ ["var".data, "log".data], IsPlainElem e := by
    intro e he
    simp only [List.mem_cons, List.mem_singleton, List.not_mem_nil, or_false] at he
    rcases he with rfl | rfl <;> exact ⟨by decide, by decide, by decide, by decide⟩
  have hq : ∀ e ∈ ["logs".data, "app".data], IsPlainElem e := by
    intro e he
    simp only [List.mem_cons, List.mem_singleton, List.not_mem_nil, or_false] at he
    rcases he with rfl | rfl <;> exact ⟨by decide, by decide, by decide, by decide⟩
  ⟨(parseFolderInput_Path sampleFolderBlock "/var/db/fb.db").2 true ["var".data, "log".data] 1
      (by decide) hp rfl,
    (parseFolderInput_Path { Name := "rel", Folder := "logs/app" } "/var/db/fb.db").2 false
      ["logs".data, "app".data] 0 (by decide) hq rfl⟩

/-! ### Inputs and filters of an error-free block list -/

/-- Among blocks that translate without error, the non-zero input
descriptors are those of the blocks without a `fluentbit` reference. -/
theorem inputs_filter_ne_zero (ext : External) (homeDir : String) (blocks : List LogCfg)
    (hok : ∀ b ∈ blocks, (parseConfigBlock ext b homeDir).2.2.2 = none) :
    (blocks.map (fun b => (parseConfigBlock ext b homeDir).1)).filter (fun i => decide (i ≠ {})) =
      (blocks.filter (fun b => b.Fluentbit.isNone)).map
        (fun b => (parseConfigBlock ext b homeDir).1) := by
  induction blocks with
  | nil => rfl
  | cons b rest ih =>
    have ih1 := ih (fun x hx => hok x (List.mem_cons_of_mem _ hx))
    have hb := hok b (List.mem_cons_self _ _)
    rw [List.map_cons]
    cases hfb : b.Fluentbit with
    | none =>
      have hne := parseConfigBlock_input_ne_zero ext b homeDir hfb hb
      rw [List.filter_cons_of_pos (by simpa using hne),
        List.filter_cons_of_pos (by rw [hfb]; rfl), List.map_cons, ih1]
    | some fluentbit =>
      have hz : (parseConfigBlock ext b homeDir).1 = {} := by
        unfold parseConfigBlock
        rw [hfb]
      rw [List.filter_cons_of_neg (by simp [hz]),
        List.filter_cons_of_neg (by rw [hfb]; simp), ih1]

/-- C24: when every block translates without error and the result holds an
input or an external reference, `NewFBConf` returns as `Inputs` the input
descriptors of the blocks without a `fluentbit` reference, one per such block
and in declaration order, and as `Parsers` the filters of the blocks,
concatenated in declaration order, followed by the global `record_modifier`
filter as last element. -/
theorem NewFBConf_inputs_and_parsers (ext : External) (blocks : List LogCfg) (cfg : LogForward)
    (entityGUID hostname : String)
    (hok : ∀ b ∈ blocks, (parseConfigBlock ext b cfg.HomeDir).2.2.2 = none)
    (hres : (NewFBConf ext blocks cfg entityGUID hostname).1.Inputs ≠ [] ∨
      (NewFBConf ext blocks cfg entityGUID hostname).1.ExternalCfg ≠ {}) :
    (NewFBConf ext blocks cfg entityGUID hostname).1.Inputs =
        (blocks.filter (fun b => b.Fluentbit.isNone)).map
          (fun b => (parseConfigBlock ext b cfg.HomeDir).1) ∧
      (NewFBConf ext blocks cfg entityGUID hostname).1.Inputs.length =
        (blocks.filter (fun b => b.Fluentbit.isNone)).length ∧
      (NewFBConf ext blocks cfg entityGUID hostname).1.Parsers =
        (blocks.map (fun b => (parseConfigBlock ext b cfg.HomeDir).2.1)).flatten ++
          [{ Name := "record_modifier"
             Match := "*"
             Records := [("hostname", hostname), ("plugin.type", "nri-agent"),
               ("entity.guid.INFRA", entityGUID)] }] := by
  have hfull := NewFBConf_of_no_error ext blocks cfg entityGUID hostname hok
  have hin := inputs_filter_ne_zero ext cfg.HomeDir blocks hok
  rw [hfull] at hres ⊢
  split_ifs at hres ⊢ with hc
  · rcases hres with h | h
    · exact absurd rfl h
    · exact absurd rfl h
  · refine ⟨hin, ?_, rfl⟩
    show (List.filter _ _).length = _
    rw [hin, List.length_map]

theorem NewFBConf_inputs_and_parsers_witness :
    (∀ b ∈ sampleExternalBlocks ++ [sampleFileBlock],
        (parseConfigBlock sampleExternal b sampleForward.HomeDir).2.2.2 = none) ∧
      (NewFBConf sampleExternal (sampleExternalBlocks ++ [sampleFileBlock]) sampleForward
        "guid" "host").1.Inputs.length = 1 :=
  ⟨by decide,
    ((NewFBConf_inputs_and_parsers sampleExternal (sampleExternalBlocks ++ [sampleFileBlock])
      sampleForward "guid" "host" (by decide) (Or.inl (by decide))).2.1).trans (by decide)⟩

/-! ### Priority of the source variants -/

theorem parseConfigBlockSources_clearLowerPriority (ext : External) (l : LogCfg)
    (dbPath : String) :
    parseConfigBlockSources ext l dbPath =
      parseConfigBlockSources ext l.clearLowerPriority dbPath := by
  rcases l with ⟨Name, File, MaxLineKb, Folder, Systemd, EventLog, Pattern, Attributes, Syslog,
    Tcp, Fluentbit, Winlog⟩
  have hE : ¬ (("" : String) ≠ "") := fun h => h rfl
  unfold LogCfg.clearLowerPriority
  dsimp only
  by_cases h1 : File ≠ ""
  · rw [if_pos h1]
    unfold parseConfigBlockSources
    dsimp only
    rw [if_pos h1, if_pos h1]
    rfl
  rw [if_neg h1]
  by_cases h2 : Folder ≠ ""
  · rw [if_pos h2]
    unfold parseConfigBlockSources
    dsimp only
    rw [if_neg h1, if_pos h2, if_neg h1, if_pos h2]
    rfl
  rw [if_neg h2]
  by_cases h3 : Systemd ≠ ""
  · rw [if_pos h3]
    unfold parseConfigBlockSources
    dsimp only
    rw [if_neg h1, if_neg h2, if_pos h3, if_neg h1, if_neg h2, if_pos h3]
    rfl
  rw [if_neg h3]
  by_cases h4 : EventLog ≠ ""
  · rw [if_pos h4]
    unfold parseConfigBlockSources
    dsimp only
    rw [if_neg h1, if_neg h2, if_neg h3, if_pos h4, if_neg h1, if_neg h2, if_neg h3, if_pos h4]
    rfl
  rw [if_neg h4]
  cases Syslog with
  | some syslog =>
    rw [if_pos (by simp)]
    unfold parseConfigBlockSources
    dsimp only
    rw [if_neg h1, if_neg h2, if_neg h3, if_neg h4, if_neg h1, if_neg h2, if_neg h3, if_neg h4]
    rfl
  | none =>
    rw [if_neg (by simp)]
    cases Tcp with
    | some tcp =>
      rw [if_pos (by simp)]
      unfold parseConfigBlockSources
      dsimp only
      rw [if_neg h1, if_neg h2, if_neg h3, if_neg h4, if_neg h1, if_neg h2, if_neg h3,
        if_neg h4]
      rfl
    | none =>
      rw [if_neg (by simp)]

/-- The result of `parseConfigBlock` on a block without a `fluentbit`
reference, from the values that the chain of sources leaves in the named
results. -/
theorem parseConfigBlock_of_sources (ext : External) (l : LogCfg) (logsHomeDir : String)
    (hfb : l.Fluentbit = none) (r : FBCfgInput × List FBCfgParser × Option GoError)
    (hr : parseConfigBlockSources ext l (filepath_Join [logsHomeDir, fluentBitDbName]) = r)
    (hok : r.2.2 = none → r.1 ≠ {}) :
    parseConfigBlock ext l logsHomeDir = (r.1, r.2.1, {}, r.2.2) := by
  unfold parseConfigBlock
  rw [hfb]
  dsimp only
  rw [hr]
  by_cases he : r.2.2 = none
  · rw [if_neg (not_not.2 he), if_neg (hok he), he]
  · rw [if_pos he]

/-- C28: `parseConfigBlock` on a block without a `fluentbit` reference
translates the first populated source variant in the order File, Folder,
Systemd, EventLog, Syslog, Tcp, Winlog and ignores the variants after it. The
result is that of the block with the later variants cleared, and it is, for
each variant in turn when the variants before it are not populated: the
`tail` input on the file with the filters of the File translator; the `tail`
input on the folder joined with `*` with the filters of the Folder
translator; the `systemd` input on the unit of the service with the filters
of the Systemd translator; the `winlog` input on the event log as channel
with the `record_modifier` filter; what `newSyslogInput` makes of the syslog
section, with its filters, or its error alone; what `newTcpInput` makes of
the tcp section, with its filters, or its error alone; and the `winlog` input
on the channel of the winlog section with what `parseWinlogInput` returns as
filters and error. In particular a block that declares a file translates
without error as a file block, whatever its other sections hold. -/
theorem parseConfigBlock_priority (ext : External) (l : LogCfg) (logsHomeDir : String)
    (hfb : l.Fluentbit = none) :
    parseConfigBlock ext l logsHomeDir =
        parseConfigBlock ext l.clearLowerPriority logsHomeDir ∧
      (l.File ≠ "" →
        parseConfigBlock ext l logsHomeDir =
          ((parseFileInput l (filepath_Join [logsHomeDir, fluentBitDbName])).1,
            (parseFileInput l (filepath_Join [logsHomeDir, fluentBitDbName])).2, {}, none)) ∧
      (l.File ≠ "" →
        parseConfigBlock ext l logsHomeDir =
          ({ Name := "tail"
             Path := l.File
             DB := filepath_Join [logsHomeDir, fluentBitDbName]
             Tag := l.Name
             BufferMaxSize := fmtInt (getBufferMaxSize l) ++ "k"
             SkipLongLines := "On" },
            parsePattern l "log" [newRecordModifierFilterForInput l.Name "tail" l.Attributes],
            {}, none)) ∧
      (l.File = "" → l.Folder ≠ "" →
        parseConfigBlock ext l logsHomeDir =
          ({ Name := "tail"
             Path := filepath_Join [l.Folder, "*"]
             DB := filepath_Join [logsHomeDir, fluentBitDbName]
             Tag := l.Name
             BufferMaxSize := fmtInt (getBufferMaxSize l) ++ "k"
             SkipLongLines := "On" },
            parsePattern l "log" [newRecordModifierFilterForInput l.Name "tail" l.Attributes],
            {}, none)) ∧
      (l.File = "" → l.Folder = "" → l.Systemd ≠ "" →
        parseConfigBlock ext l logsHomeDir =
          ({ Name := "systemd"
             Systemd_Filter := "_SYSTEMD_UNIT=" ++ l.Systemd ++ ".service"
             Tag := l.Name
             DB := filepath_Join [logsHomeDir, fluentBitDbName] },
            parsePattern l "MESSAGE"
              [newRecordModifierFilterForInput l.Name "systemd" l.Attributes],
            {}, none)) ∧
      (l.File = "" → l.Folder = "" → l.Systemd = "" → l.EventLog ≠ "" →
        parseConfigBlock ext l logsHomeDir =
          ({ Name := "winlog"
             Channels := l.EventLog
             Tag := l.Name
             DB := filepath_Join [logsHomeDir, fluentBitDbName] },
            [newRecordModifierFilterForInput l.Name "winlog" l.Attributes], {}, none)) ∧
      (l.File = "" → l.Folder = "" → l.Systemd = "" → l.EventLog = "" →
        ∀ syslog, l.Syslog = some syslog →
          parseConfigBlock ext l logsHomeDir =
            match newSyslogInput syslog l.Name (getBufferMaxSize l) with
            | (_, some e) => ({}, [], {}, some e)
            | (input, none) =>
              (input,
                parsePattern l "message"
                  [newRecordModifierFilterForInput l.Name "syslog" l.Attributes],
                {}, none)) ∧
      (l.File = "" → l.Folder = "" → l.Systemd = "" → l.EventLog = "" → l.Syslog = none →
        ∀ tcp, l.Tcp = some tcp →
          parseConfigBlock ext l logsHomeDir =
            match newTcpInput tcp l.Name (getBufferMaxSize l) with
            | (_, some e) => ({}, [], {}, some e)
            | (input, none) =>
              (input,
                if tcp.Format = "none" then
                  parsePattern l "log"
                    [newRecordModifierFilterForInput l.Name "tcp" l.Attributes]
                else [newRecordModifierFilterForInput l.Name "tcp" l.Attributes],
                {}, none)) ∧
      (l.File = "" → l.Folder = "" → l.Systemd = "" → l.EventLog = "" → l.Syslog = none →
        l.Tcp = none → ∀ winlog, l.Winlog = some winlog →
          parseConfigBlock ext l logsHomeDir =
            ({ Name := "winlog"
               Channels := winlog.Channel
               Tag := l.Name
               DB := filepath_Join [logsHomeDir, fluentBitDbName] },
              (parseWinlogInput ext l winlog
                (filepath_Join [logsHomeDir, fluentBitDbName])).2.1, {},
              (parseWinlogInput ext l winlog
                (filepath_Join [logsHomeDir, fluentBitDbName])).2.2)) := by
  have hfb2 : l.clearLowerPriority.Fluentbit = none := by
    unfold LogCfg.clearLowerPriority
    split_ifs <;> exact hfb
  have hE : ¬ (("" : String) ≠ "") := fun h => h rfl
  have htail : ("tail" : String) ≠ "" := by decide
  have hsysd : ("systemd" : String) ≠ "" := by decide
  have hwin : ("winlog" : String) ≠ "" := by decide
  have hfile : l.File ≠ "" →
      parseConfigBlock ext l logsHomeDir =
        ((parseFileInput l (filepath_Join [logsHomeDir, fluentBitDbName])).1,
          (parseFileInput l (filepath_Join [logsHomeDir, fluentBitDbName])).2, {}, none) := by
    intro h1
    exact parseConfigBlock_of_sources ext l logsHomeDir hfb _
      (by unfold parseConfigBlockSources; rw [if_pos h1])
      (fun _ => FBCfgInput.ne_zero_of_Name _ htail)
  refine ⟨?_, hfile, fun h1 => (hfile h1).trans rfl, ?_, ?_, ?_, ?_, ?_, ?_⟩
  · unfold parseConfigBlock
    rw [hfb, hfb2]
    dsimp only
    rw [← parseConfigBlockSources_clearLowerPriority ext l]
  · intro h1 h2
    exact parseConfigBlock_of_sources ext l logsHomeDir hfb
      ((parseFolderInput l (filepath_Join [logsHomeDir, fluentBitDbName])).1,
        (parseFolderInput l (filepath_Join [logsHomeDir, fluentBitDbName])).2, none)
      (by unfold parseConfigBlockSources; rw [h1, if_neg hE, if_pos h2])
      (fun _ => FBCfgInput.ne_zero_of_Name _ htail)
  · intro h1 h2 h3
    exact parseConfigBlock_of_sources ext l logsHomeDir hfb
      ((parseSystemdInput l (filepath_Join [logsHomeDir, fluentBitDbName])).1,
        (parseSystemdInput l (filepath_Join [logsHomeDir, fluentBitDbName])).2, none)
      (by unfold parseConfigBlockSources; rw [h1, h2, if_neg hE, if_neg hE, if_pos h3])
      (fun _ => FBCfgInput.ne_zero_of_Name _ hsysd)
  · intro h1 h2 h3 h4
    exact parseConfigBlock_of_sources ext l logsHomeDir hfb
      ((parseEventLogInput l (filepath_Join [logsHomeDir, fluentBitDbName])).1,
        (parseEventLogInput l (filepath_Join [logsHomeDir, fluentBitDbName])).2, none)
      (by
        unfold parseConfigBlockSources
        rw [h1, h2, h3, if_neg hE, if_neg hE, if_neg hE, if_pos h4])
      (fun _ => FBCfgInput.ne_zero_of_Name _ hwin)
  · intro h1 h2 h3 h4 syslog hs
    have hsrc : parseConfigBlockSources ext l (filepath_Join [logsHomeDir, fluentBitDbName]) =
        parseSyslogInput l syslog := by
      unfold parseConfigBlockSources
      rw [h1, h2, h3, h4, if_neg hE, if_neg hE, if_neg hE, if_neg hE, hs]
    have hspec := parseSyslogInput_spec l syslog
    have hres := parseConfigBlock_of_sources ext l logsHomeDir hfb _ hsrc (fun hn => by
      rcases hspec with ⟨-, hname⟩ | ⟨e, he, -⟩
      · exact FBCfgInput.ne_zero_of_Name _ (by rw [hname]; decide)
      · rw [he] at hn
        cases hn)
    rw [hres]
    unfold parseSyslogInput
    rcases newSyslogInput syslog l.Name (getBufferMaxSize l) with ⟨input, _ | e⟩ <;> rfl
  · intro h1 h2 h3 h4 hs tcp ht
    have hsrc : parseConfigBlockSources ext l (filepath_Join [logsHomeDir, fluentBitDbName]) =
        parseTcpInput l tcp := by
      unfold parseConfigBlockSources
      rw [h1, h2, h3, h4, if_neg hE, if_neg hE, if_neg hE, if_neg hE, hs, ht]
    have hspec := parseTcpInput_spec l tcp
    have hres := parseConfigBlock_of_sources ext l logsHomeDir hfb _ hsrc (fun hn => by
      rcases hspec with ⟨-, hname⟩ | ⟨e, he, -⟩
      · exact FBCfgInput.ne_zero_of_Name _ (by rw [hname]; decide)
      · rw [he] at hn
        cases hn)
    rw [hres]
    unfold parseTcpInput
    rcases newTcpInput tcp l.Name (getBufferMaxSize l) with ⟨input, _ | e⟩ <;> rfl
  · intro h1 h2 h3 h4 hs ht winlog hw
    have hsrc : parseConfigBlockSources ext l (filepath_Join [logsHomeDir, fluentBitDbName]) =
        parseWinlogInput ext l winlog (filepath_Join [logsHomeDir, fluentBitDbName]) := by
      unfold parseConfigBlockSources
      rw [h1, h2, h3, h4, if_neg hE, if_neg hE, if_neg hE, if_neg hE, hs, ht, hw]
    have hspec := parseWinlogInput_spec ext l winlog
      (filepath_Join [logsHomeDir, fluentBitDbName])
    have hres := parseConfigBlock_of_sources ext l logsHomeDir hfb _ hsrc
      (fun _ => FBCfgInput.ne_zero_of_Name _ (by rw [hspec.1]; decide))
    rw [hres]
    have hin : (parseWinlogInput ext l winlog
        (filepath_Join [logsHomeDir, fluentBitDbName])).1 =
        { Name := "winlog"
          Channels := winlog.Channel
          Tag := l.Name
          DB := filepath_Join [logsHomeDir, fluentBitDbName] } := by
      unfold parseWinlogInput
      dsimp only
      split_ifs
      · rcases numberRangesToRegex ext winlog.CollectEventIds with ⟨ri, _ | ei⟩
        · rcases numberRangesToRegex ext winlog.ExcludeEventIds with ⟨re, _ | ee⟩ <;> rfl
        · rfl
      · rfl
    rw [hin]

theorem parseConfigBlock_priority_witness :
    sampleFileAndBadSourcesBlock.Fluentbit = none ∧
      (parseConfigBlock sampleExternal sampleFileAndBadSourcesBlock "/var/db").2.2.2 = none ∧
      (parseConfigBlock sampleExternal sampleFileAndBadSourcesBlock "/var/db").1.Name = "tail" ∧
      (parseConfigBlock sampleExternal sampleFolderAndSystemdBlock "/var/db").1.Path =
        "/var/log/app/*" :=
  ⟨rfl,
    by rw [(parseConfigBlock_priority sampleExternal sampleFileAndBadSourcesBlock "/var/db"
      rfl).2.1 (by decide)],
    by rw [(parseConfigBlock_priority sampleExternal sampleFileAndBadSourcesBlock "/var/db"
      rfl).2.1 (by decide)]; rfl,
    by rw [(parseConfigBlock_priority sampleExternal sampleFolderAndSystemdBlock "/var/db"
      rfl).2.2.2.1 (by decide) (by decide)]; decide⟩

/-! ### Shape of the compiled event-ID expression -/

theorem strings_Split_range (t : String) (lo hi : List Char) (hlo : IsDecimal lo)
    (hhi : IsDecimal hi) (ht : t.data = lo ++ '-' :: hi) :
    strings_Split t "-" = [String.mk lo, String.mk hi] := by
  have h1 : '-' ∉ lo := hlo.not_mem lo '-' (by decide)
  have h2 : '-' ∉ hi := hhi.not_mem hi '-' (by decide)
  unfold strings_Split
  rw [ht, show ("-" : String).data = ['-'] from rfl,
    show lo ++ '-' :: hi = lo ++ (['-'] ++ hi) from rfl, splitL_append_sep '-' [] lo hi h1,
    splitL_of_not_mem ['-'] hi '-' (List.mem_singleton.2 rfl) h2]
  rfl

theorem strconv_Atoi_decimal (ds : List Char) (h : IsDecimal ds) :
    (strconv_Atoi (String.mk ds)).1 = rangeBound ds := by
  unfold strconv_Atoi rangeBound
  rw [atoiL_decimal ds h]
  split_ifs <;> rfl

/-- Without an error the loop of `numberRangesToRegex` joins the expressions
collected so far and one expression per remaining token. -/
theorem numberRangesToRegexLoop_shape (ext : External) (l acc : List String)
    (h : (numberRangesToRegexLoop ext l acc).2 = none) :
    ∃ exprs, List.Forall₂ (IsTokenExpr ext) l exprs ∧
      (numberRangesToRegexLoop ext l acc).1 = strings_Join (acc ++ exprs) "|" := by
  induction l generalizing acc with
  | nil =>
    refine ⟨[], List.Forall₂.nil, ?_⟩
    rw [List.append_nil]
    rfl
  | cons t rest ih =>
    unfold numberRangesToRegexLoop at h ⊢
    by_cases h1 : matchWhole eventIdRangeRegex t = true
    · rw [if_pos h1] at h ⊢
      dsimp only at h ⊢
      obtain ⟨exprs, hall, hres⟩ := ih _ h
      obtain ⟨lo, hi, hlo, hhi, ht⟩ := (eventIdRangeRegex_iff t).1 h1
      refine ⟨_ :: exprs, List.Forall₂.cons (Or.inl ⟨lo, hi, hlo, hhi, ht, rfl⟩) hall, ?_⟩
      rw [hres, List.append_assoc, strings_Split_range t lo hi hlo hhi ht]
      rw [show ([String.mk lo, String.mk hi] : List String).getD 0 "" = String.mk lo from rfl,
        show ([String.mk lo, String.mk hi] : List String).getD 1 "" = String.mk hi from rfl,
        strconv_Atoi_decimal lo hlo, strconv_Atoi_decimal hi hhi]
      rfl
    · rw [if_neg h1] at h ⊢
      by_cases h2 : (strconv_Atoi t).2 = none
      · rw [if_pos h2] at h ⊢
        obtain ⟨exprs, hall, hres⟩ := ih _ h
        have hnr : ¬ IsRangeToken t := fun hr => h1 ((eventIdRangeRegex_iff t).2 hr)
        refine ⟨_ :: exprs,
          List.Forall₂.cons (Or.inr ⟨hnr, (strconv_Atoi_ok_iff t).1 h2, rfl⟩) hall, ?_⟩
        rw [hres, List.append_assoc]
        rfl
      · rw [if_neg h2] at h
        cases h

theorem IsTokenExpr.ne_empty (ext : External) (t e : String) (h : IsTokenExpr ext t e) :
    e ≠ "" := by
  rcases h with ⟨lo, hi, -, -, -, rfl⟩ | ⟨-, -, rfl⟩
  · exact ne_of_head_ne _ _ (by simp [String.data_append])
  · exact ne_of_head_ne _ _ (by simp [String.data_append])

theorem strings_Join_ne_empty (e : String) (rest : List String) (sep : String) (he : e ≠ "") :
    strings_Join (e :: rest) sep ≠ "" := by
  have hd : e.data ≠ [] := fun h => he (String.ext h)
  cases rest with
  | nil => exact he
  | cons r rs =>
    intro h
    have h2 := congrArg String.data h
    rw [show strings_Join (e :: r :: rs) sep = e ++ sep ++ strings_Join (r :: rs) sep from rfl,
      String.data_append, String.data_append] at h2
    simp at h2
    exact hd h2.1

/-- A token list is accepted exactly when each token is a range or an
integer. -/
theorem numberRangesToRegex_accepts_iff (ext : External) (tokens : List String) :
    (numberRangesToRegex ext tokens).2 = none ↔
      ∀ t ∈ tokens, IsRangeToken t ∨ IsIntToken t := by
  have h := numberRangesToRegexLoop_error_iff ext tokens []
  rw [show numberRangesToRegexLoop ext tokens [] = numberRangesToRegex ext tokens from rfl] at h
  rw [← not_iff_not, ← ne_eq, h]
  simp only [eventIdRangeRegex_iff, strconv_Atoi_ok_iff]
  push_neg
  rfl

/-- The compiled expression of an accepted list is empty exactly for the
empty list. -/
theorem numberRangesToRegex_eq_empty_iff (ext : External) (tokens : List String)
    (h : (numberRangesToRegex ext tokens).2 = none) :
    (numberRangesToRegex ext tokens).1 = "" ↔ tokens = [] := by
  constructor
  · intro he
    obtain ⟨exprs, hall, hres⟩ := numberRangesToRegexLoop_shape ext tokens [] h
    rw [show numberRangesToRegexLoop ext tokens [] = numberRangesToRegex ext tokens from rfl,
      List.nil_append] at hres
    cases hall with
    | nil => rfl
    | cons hte hrest =>
      rw [hres] at he
      exact absurd he (strings_Join_ne_empty _ _ _ (IsTokenExpr.ne_empty ext _ _ hte))
  · rintro rfl
    rfl

/-- C26 (counterexample): the range token `1-99999999999999999999` is
accepted, and the interval expression is compiled for the bounds `1` and
`9223372036854775807`, the largest `int`, not for the bounds of the token. -/
theorem numberRangesToRegex_range_bound_counterexample :
    numberRangesToRegex sampleBoundsExternal ["1-99999999999999999999"] =
        ("^(1..9223372036854775807)$", none) ∧
      IsRangeToken "1-99999999999999999999" ∧
      rangeBound "99999999999999999999".data ≠ 99999999999999999999 :=
  ⟨by decide, ⟨['1'], "99999999999999999999".data, ⟨by decide, by decide⟩,
    ⟨by decide, by decide⟩, rfl⟩, by decide⟩

/-- C26, as the code has it: for every token list that `numberRangesToRegex`
accepts, the result is the per-token expressions joined with `|` in token
order; a token that is an integer and not a range contributes `^t$`, and a
range token contributes `^(r)$` with `r` the text that `ranger.Compile`
returns, each doubled backslash written once, for the two bounds as
`strconv.Atoi` reads them: the value of the digits, or the largest `int` when
the value exceeds it. The empty list gives the empty string and no error. -/
theorem numberRangesToRegex_joined (ext : External) (tokens : List String)
    (h : (numberRangesToRegex ext tokens).2 = none) :
    (∃ exprs, List.Forall₂ (IsTokenExpr ext) tokens exprs ∧
        (numberRangesToRegex ext tokens).1 = strings_Join exprs "|") ∧
      numberRangesToRegex ext [] = ("", none) := by
  obtain ⟨exprs, hall, hres⟩ := numberRangesToRegexLoop_shape ext tokens [] h
  exact ⟨⟨exprs, hall, hres⟩, rfl⟩

theorem numberRangesToRegex_joined_witness :
    (numberRangesToRegex sampleExternal ["4624", "4700-4800"]).2 = none ∧
      ∃ exprs, List.Forall₂ (IsTokenExpr sampleExternal) ["4624", "4700-4800"] exprs ∧
        (numberRangesToRegex sampleExternal ["4624", "4700-4800"]).1 = strings_Join exprs "|" :=
  ⟨by decide, (numberRangesToRegex_joined sampleExternal ["4624", "4700-4800"] (by decide)).1⟩

/-! ### Filters of a winlog block -/

theorem newGrepFilter_eq (tag grepField regexInclude regexExclude : String) :
    newGrepFilter tag grepField regexInclude regexExclude =
      { Name := "grep"
        Match := tag
        RegexInclude := if regexInclude = "" then "" else grepField ++ " " ++ regexInclude
        RegexExclude := if regexExclude = "" then "" else grepField ++ " " ++ regexExclude } := by
  have hz : ¬ (("" : String).length > 0) := by decide
  unfold newGrepFilter
  by_cases hi : regexInclude = ""
  · by_cases he : regexExclude = ""
    · subst hi he
      simp only [hz, if_false, if_true]
      rfl
    · subst hi
      have h2 := String.length_pos_of_ne_empty _ he
      simp only [hz, h2, if_false, if_true, if_neg he]
      rfl
  · have h1 := String.length_pos_of_ne_empty _ hi
    by_cases he : regexExclude = ""
    · subst he
      simp only [hz, h1, if_false, if_true, if_neg hi]
      rfl
    · have h2 := String.length_pos_of_ne_empty _ he
      simp only [h1, h2, if_true, if_neg hi, if_neg he]
      rfl

/-- C25: for a winlog block whose event-ID tokens are all ranges or integers,
`parseWinlogInput` returns no error, the input of kind `winlog` on the
declared channel, and as filters the `record_modifier` filter alone when both
lists are empty, and otherwise that filter followed by one `grep` filter with
`Match` equal to the block name, whose include expression is `EventID `
followed by the compiled collect list when that list is not empty and is
absent otherwise, and likewise for the exclude expression. -/
theorem parseWinlogInput_filters (ext : External) (l : LogCfg) (winlog : LogWinlogCfg)
    (dbPath : String)
    (hvalid : ∀ t ∈ winlog.CollectEventIds ++ winlog.ExcludeEventIds,
      IsRangeToken t ∨ IsIntToken t) :
    parseWinlogInput ext l winlog dbPath =
      ({ Name := "winlog", Channels := winlog.Channel, Tag := l.Name, DB := dbPath },
        (if winlog.CollectEventIds = [] ∧ winlog.ExcludeEventIds = [] then
          [newRecordModifierFilterForInput l.Name "winlog" l.Attributes]
        else
          [newRecordModifierFilterForInput l.Name "winlog" l.Attributes,
            { Name := "grep"
              Match := l.Name
              RegexInclude :=
                if winlog.CollectEventIds = [] then ""
                else "EventID " ++ (numberRangesToRegex ext winlog.CollectEventIds).1
              RegexExclude :=
                if winlog.ExcludeEventIds = [] then ""
                else "EventID " ++ (numberRangesToRegex ext winlog.ExcludeEventIds).1 }]),
        none) := by
  have hi : (numberRangesToRegex ext winlog.CollectEventIds).2 = none :=
    (numberRangesToRegex_accepts_iff ext _).2
      (fun t ht => hvalid t (List.mem_append_left _ ht))
  have he : (numberRangesToRegex ext winlog.ExcludeEventIds).2 = none :=
    (numberRangesToRegex_accepts_iff ext _).2
      (fun t ht => hvalid t (List.mem_append_right _ ht))
  have hie := numberRangesToRegex_eq_empty_iff ext _ hi
  have hee := numberRangesToRegex_eq_empty_iff ext _ he
  unfold parseWinlogInput
  dsimp only
  by_cases hempty : winlog.CollectEventIds = [] ∧ winlog.ExcludeEventIds = []
  · rw [if_pos hempty, if_neg (by rw [hempty.1, hempty.2]; decide)]
    rfl
  · have hlen : winlog.CollectEventIds.length > 0 ∨ winlog.ExcludeEventIds.length > 0 := by
      by_contra hc
      push_neg at hc
      exact hempty ⟨List.length_eq_zero.1 (by omega), List.length_eq_zero.1 (by omega)⟩
    rw [if_neg hempty, if_pos hlen]
    rcases hri : numberRangesToRegex ext winlog.CollectEventIds with ⟨ri, ei⟩
    rw [hri] at hi hie
    dsimp only at hi hie
    subst hi
    rcases hre : numberRangesToRegex ext winlog.ExcludeEventIds with ⟨re, ee⟩
    rw [hre] at he hee
    dsimp only at he hee
    subst he
    dsimp only
    rw [newGrepFilter_eq]
    simp only [hie, hee]
    rfl

theorem parseWinlogInput_filters_witness :
    (∀ t ∈ sampleWinlogCfg.CollectEventIds ++ sampleWinlogCfg.ExcludeEventIds,
        IsRangeToken t ∨ IsIntToken t) ∧
      (parseWinlogInput sampleExternal sampleWinlogBlock sampleWinlogCfg "/var/db/fb.db").2.1.length
        = 2 :=
  have hv : ∀ t ∈ sampleWinlogCfg.CollectEventIds ++ sampleWinlogCfg.ExcludeEventIds,
      IsRangeToken t ∨ IsIntToken t :=
    (numberRangesToRegex_accepts_iff sampleExternal _).1 (by decide)
  ⟨hv, by
    rw [parseWinlogInput_filters sampleExternal sampleWinlogBlock sampleWinlogCfg "/var/db/fb.db" hv]
    rfl⟩

/-! ### Index safety of `newSyslogInput` and `newTcpInput` -/

theorem splitL_ne_nil (sep : List Char) (s : List Char) : ∀ n, splitL sep n s ≠ [] := by
  induction s with
  | nil =>
    intro n
    cases n <;> simp [splitL]
  | cons c cs ih =>
    intro n
    cases n with
    | zero =>
      rw [splitL]
      split_ifs
      · exact List.cons_ne_nil _ _
      · split <;> exact List.cons_ne_nil _ _
    | succ k =>
      rw [splitL]
      exact ih k

theorem splitL_exists_cons (sep : List Char) (n : Nat) (s : List Char) :
    ∃ p ps, splitL sep n s = p :: ps := by
  cases h : splitL sep n s with
  | nil => exact absurd h (splitL_ne_nil sep s n)
  | cons p ps => exact ⟨p, ps, rfl⟩

/-- A URI that `syslogRegex` accepts splits on `://` into the scheme and at
least one more part. -/
theorem strings_Split_syslog (uri : String) (h : matchPrefix syslogRegex uri = true) :
    ∃ S seg more, strings_Split uri "://" = S :: seg :: more := by
  obtain ⟨S, x, hS, hx⟩ := (syslogRegex_iff uri).1 h
  have hc : ':' ∉ S.data := by
    rcases hS with rfl | rfl | rfl | rfl <;> decide
  obtain ⟨p, ps, hp⟩ := splitL_exists_cons "://".data 0 x
  refine ⟨String.mk S.data, String.mk p, ps.map String.mk, ?_⟩
  rw [strings_Split_scheme uri S.data x hc hx, hp]
  rfl

/-- The first part of `host:d...` split on `://` begins with `host:` when the
host holds no colon and `d` is not a slash. -/
theorem splitL_scheme_host (host : List Char) (d : Char) (rest : List Char) (hh : ':' ∉ host)
    (hd : d ≠ '/') :
    ∃ p ps, splitL "://".data 0 (host ++ ':' :: d :: rest) = (host ++ ':' :: p) :: ps := by
  induction host with
  | nil =>
    obtain ⟨p, ps, hp⟩ := splitL_exists_cons "://".data 0 (d :: rest)
    refine ⟨p, ps, ?_⟩
    have hnp : ¬ (List.isPrefixOf "://".data (':' :: d :: rest) = true) := by
      rw [List.isPrefixOf_iff_prefix]
      rintro ⟨r, hr⟩
      exact hd (List.cons.inj (List.cons.inj hr).2).1.symm
    rw [List.nil_append, splitL, if_neg hnp, hp]
    rfl
  | cons c host ih =>
    have hc : c ≠ ':' := fun e => hh (e ▸ List.mem_cons_self _ _)
    obtain ⟨p, ps, hp⟩ := ih (fun e => hh (List.mem_cons_of_mem _ e))
    refine ⟨p, ps, ?_⟩
    rw [List.cons_append, show ("://" : String).data = ':' :: ['/', '/'] from rfl,
      splitL_cons_ne ':' ['/', '/'] c _ hc]
    rw [show ("://" : String).data = ':' :: ['/', '/'] from rfl] at hp
    rw [hp]
    rfl

theorem IsHostPort.split (hp : List Char) (h : IsHostPort hp) :
    ∃ host d rest, ':' ∉ host ∧ isDigit d = true ∧ hp = host ++ ':' :: d :: rest := by
  obtain ⟨a, b, c, d, port, ha, hb, hc, hd, hport, rfl⟩ := h
  have hn := dotted_not_mem a b c d ha hb hc hd ':' (by decide) (by decide)
  obtain ⟨hne, hdig⟩ := hport
  cases port with
  | nil => exact absurd rfl hne
  | cons d0 port =>
    exact ⟨dotted a b c d, d0, port, hn, hdig d0 (List.mem_cons_self _ _), rfl⟩

/-- A URI that `tcpUdpRegex` accepts splits on `://` into the scheme, a part
that begins with the host and a colon, and possibly more parts. -/
theorem strings_Split_tcpUdp (uri : String) (h : matchPrefix tcpUdpRegex uri = true) :
    ∃ S host p more, ':' ∉ host ∧
      strings_Split uri "://" = S :: String.mk (host ++ ':' :: p) :: more := by
  obtain ⟨hp, tail, hhp, huri⟩ := (tcpUdpRegex_iff uri).1 h
  obtain ⟨host, d, rest, hhost, hd, rfl⟩ := IsHostPort.split hp hhp
  have hds : d ≠ '/' := fun e => by
    rw [e] at hd
    exact absurd hd (by decide)
  obtain ⟨p, ps, hsp⟩ := splitL_scheme_host host d (rest ++ tail) hhost hds
  rcases huri with huri | huri
  · refine ⟨"tcp", host, p, ps.map String.mk, hhost, ?_⟩
    rw [strings_Split_scheme uri "tcp".data (host ++ ':' :: d :: (rest ++ tail)) (by decide)
      (by rw [huri]; simp), hsp]
    rfl
  · refine ⟨"udp", host, p, ps.map String.mk, hhost, ?_⟩
    rw [strings_Split_scheme uri "udp".data (host ++ ':' :: d :: (rest ++ tail)) (by decide)
      (by rw [huri]; simp), hsp]
    rfl

/-- A text `host:p` whose host holds no colon splits on `:` into the host
and at least one more part. -/
theorem strings_Split_host_port (host p : List Char) (hh : ':' ∉ host) :
    ∃ q qs, strings_Split (String.mk (host ++ ':' :: p)) ":" = String.mk host :: q :: qs := by
  obtain ⟨q, qs, hq⟩ := splitL_exists_cons [':'] 0 p
  exact ⟨String.mk q, qs.map String.mk, by rw [strings_Split_colon_host host p hh, hq]; rfl⟩

theorem String.length_le_utf8ByteSize (s : String) : s.data.length ≤ s.utf8ByteSize := by
  cases s with
  | mk d =>
    show d.length ≤ String.utf8ByteSize.go d
    induction d with
    | nil => exact Nat.le_refl _
    | cons c cs ih =>
      have hc := Char.utf8Size_pos c
      show cs.length + 1 ≤ String.utf8ByteSize.go cs + c.utf8Size
      omega

theorem newSyslogInputChecked_eq (l : LogSyslogCfg) (tag : String) (bufSize : Int) :
    newSyslogInputChecked l tag bufSize = some (newSyslogInput l tag bufSize) := by
  unfold newSyslogInputChecked newSyslogInput
  by_cases h0 : matchPrefix syslogRegex l.URI = true
  · rw [if_neg (not_not.2 h0), if_neg (not_not.2 h0)]
    obtain ⟨S, seg, more, hsplit⟩ := strings_Split_syslog l.URI h0
    dsimp only
    rw [hsplit]
    simp only [List.getElem?_cons_zero, List.getElem?_cons_succ, List.getD_cons_zero,
      List.getD_cons_succ]
    by_cases herr : ((S = "udp" ∨ S = "tcp") ∧ matchPrefix tcpUdpRegex l.URI = false) ∨
        ((S = "unix_udp" ∨ S = "unix_tcp") ∧ matchPrefix unixSocketRegex l.URI = false)
    · rw [if_pos herr, if_pos herr]
    · rw [if_neg herr, if_neg herr]
      by_cases hnet : S = "tcp" ∨ S = "udp"
      · rw [if_pos hnet, if_pos hnet]
        have htu : matchPrefix tcpUdpRegex l.URI = true := by
          by_contra hc
          exact herr (Or.inl ⟨hnet.symm, Bool.not_eq_true _ ▸ hc⟩)
        obtain ⟨S2, host, p, more2, hhost, hsplit2⟩ := strings_Split_tcpUdp l.URI htu
        rw [hsplit] at hsplit2
        have hseg : seg = String.mk (host ++ ':' :: p) :=
          (List.cons.inj (List.cons.inj hsplit2).2).1
        obtain ⟨q, qs, hq⟩ := strings_Split_host_port host p hhost
        rw [hseg, hq]
        simp only [List.getElem?_cons_zero, List.getElem?_cons_succ, List.getD_cons_zero,
          List.getD_cons_succ]
      · rw [if_neg hnet, if_neg hnet]
  · rw [if_pos h0, if_pos h0]

theorem newTcpInputChecked_eq (t : LogTcpCfg) (tag : String) (bufSize : Int) :
    newTcpInputChecked t tag bufSize = some (newTcpInput t tag bufSize) := by
  unfold newTcpInputChecked newTcpInput
  by_cases h0 : matchPrefix tcpRegex t.Uri = true
  · rw [if_neg (not_not.2 h0), if_neg (not_not.2 h0)]
    obtain ⟨hp, tail, hhp, huri⟩ := (tcpRegex_iff t.Uri).1 h0
    obtain ⟨host, d, rest, hhost, -, rfl⟩ := IsHostPort.split hp hhp
    have hlen : ¬ (t.Uri.utf8ByteSize < 6) := by
      have h1 := String.length_le_utf8ByteSize t.Uri
      rw [huri] at h1
      simp only [List.length_append, List.length_cons] at h1
      have h2 : "tcp://".data.length = 6 := rfl
      omega
    rw [if_neg hlen]
    have hdrop : t.Uri.data.drop 6 = host ++ ':' :: (d :: rest ++ tail) := by
      rw [huri]
      simp
    obtain ⟨q, qs, hq⟩ := strings_Split_host_port host (d :: rest ++ tail) hhost
    dsimp only
    rw [hdrop, hq]
    simp only [List.getElem?_cons_zero, List.getElem?_cons_succ, List.getD_cons_zero,
      List.getD_cons_succ]
  · rw [if_pos h0, if_pos h0]

/-- A URI that `tcpRegex` accepts has at least six bytes, and its text after
the sixth splits on `:` into at least two parts. -/
theorem tcpRegex_lengths (uri : String) (h : matchPrefix tcpRegex uri = true) :
    6 ≤ uri.utf8ByteSize ∧ 2 ≤ (strings_Split (String.mk (uri.data.drop 6)) ":").length := by
  obtain ⟨hp, tail, hhp, huri⟩ := (tcpRegex_iff uri).1 h
  obtain ⟨host, d, rest, hhost, -, rfl⟩ := IsHostPort.split hp hhp
  constructor
  · have h1 := String.length_le_utf8ByteSize uri
    rw [huri] at h1
    simp only [List.length_append, List.length_cons] at h1
    have h2 : "tcp://".data.length = 6 := rfl
    omega
  · have hdrop : uri.data.drop 6 = host ++ ':' :: (d :: rest ++ tail) := by
      rw [huri]
      simp
    obtain ⟨q, qs, hq⟩ := strings_Split_host_port host (d :: rest ++ tail) hhost
    rw [hdrop, hq]
    simp

/-- C27: `newSyslogInput` and `newTcpInput` return on every input: with each
index and slice expression checked against the length, neither function ever
reaches an index or a slice bound out of range, and the value returned is the
descriptor or the error that the functions compute. The reasons are that a
URI accepted by `syslogRegex` splits on `://` into at least two parts, that
the second part of a URI accepted by `tcpUdpRegex` splits on `:` into at
least two parts, and that a URI accepted by `tcpRegex` has at least six bytes
and its text after the sixth splits on `:` into at least two parts. -/
theorem newSyslogInput_newTcpInput_total (l : LogSyslogCfg) (t : LogTcpCfg) (tag : String)
    (bufSize : Int) :
    newSyslogInputChecked l tag bufSize = some (newSyslogInput l tag bufSize) ∧
      newTcpInputChecked t tag bufSize = some (newTcpInput t tag bufSize) ∧
      (matchPrefix syslogRegex l.URI = true → 2 ≤ (strings_Split l.URI "://").length) ∧
      (matchPrefix tcpUdpRegex l.URI = true →
        2 ≤ (strings_Split ((strings_Split l.URI "://").getD 1 "") ":").length) ∧
      (matchPrefix tcpRegex t.Uri = true →
        6 ≤ t.Uri.utf8ByteSize ∧
          2 ≤ (strings_Split (String.mk (t.Uri.data.drop 6)) ":").length) := by
  refine ⟨newSyslogInputChecked_eq l tag bufSize, newTcpInputChecked_eq t tag bufSize, ?_, ?_,
    tcpRegex_lengths t.Uri⟩
  · intro h
    obtain ⟨S, seg, more, hs⟩ := strings_Split_syslog l.URI h
    rw [hs]
    simp
  · intro h
    obtain ⟨S, host, p, more, hhost, hs⟩ := strings_Split_tcpUdp l.URI h
    obtain ⟨q, qs, hq⟩ := strings_Split_host_port host p hhost
    rw [hs, List.getD_cons_succ, List.getD_cons_zero, hq]
    simp

theorem newSyslogInput_newTcpInput_total_witness :
    matchPrefix tcpUdpRegex "udp://127.0.0.1:5140" = true ∧
      2 ≤ (strings_Split ((strings_Split "udp://127.0.0.1:5140" "://").getD 1 "") ":").length ∧
      matchPrefix tcpRegex "tcp://0.0.0.0:9000" = true ∧
      6 ≤ ("tcp://0.0.0.0:9000" : String).utf8ByteSize :=
  have hu : matchPrefix tcpUdpRegex "udp://127.0.0.1:5140" = true :=
    (tcpUdpRegex_iff _).2 ⟨"127.0.0.1:5140".data, [],
      ⟨"127".data, ['0'], ['0'], ['1'], "5140".data, ⟨⟨by decide, by decide⟩, by decide⟩,
        ⟨⟨by decide, by decide⟩, by decide⟩, ⟨⟨by decide, by decide⟩, by decide⟩,
        ⟨⟨by decide, by decide⟩, by decide⟩, ⟨by decide, by decide⟩, rfl⟩, Or.inr rfl⟩
  have ht : matchPrefix tcpRegex "tcp://0.0.0.0:9000" = true :=
    (tcpRegex_iff _).2 ⟨"0.0.0.0:9000".data, [],
      ⟨['0'], ['0'], ['0'], ['0'], "9000".data, ⟨⟨by decide, by decide⟩, by decide⟩,
        ⟨⟨by decide, by decide⟩, by decide⟩, ⟨⟨by decide, by decide⟩, by decide⟩,
        ⟨⟨by decide, by decide⟩, by decide⟩, ⟨by decide, by decide⟩, rfl⟩, rfl⟩
  ⟨hu,
    (newSyslogInput_newTcpInput_total { URI := "udp://127.0.0.1:5140" }
      { Uri := "tcp://0.0.0.0:9000" } "t" 128).2.2.2.1 hu,
    ht,
    ((newSyslogInput_newTcpInput_total { URI := "udp://127.0.0.1:5140" }
      { Uri := "tcp://0.0.0.0:9000" } "t" 128).2.2.2.2 ht).1⟩

end Logs

namespace Dm

/-! ## Association lists -/

theorem GoMapOf.get_filter_of_ne {V : Type} (m : GoMapOf V) (k k' : String) (h : k ≠ k') :
    GoMapOf.get (m.filter (fun kv => !decide (kv.1 = k))) k' = GoMapOf.get m k' := by
  induction m with
  | nil => rfl
  | cons kv rest ih =>
    obtain ⟨a, b⟩ := kv
    by_cases ha : a = k
    · subst ha
      simp [List.filter, GoMapOf.get, h, ih]
    · simp [List.filter, GoMapOf.get, ha, ih]

theorem GoMapOf.get_of_set {V : Type} (m : GoMapOf V) (k : String) (v : V) (k' : String) :
    GoMapOf.get (GoMapOf.set m k v) k' = if k = k' then some v else GoMapOf.get m k' := by
  unfold GoMapOf.set
  by_cases h : k = k'
  · simp [GoMapOf.get, h]
  · simp [GoMapOf.get, h, GoMapOf.get_filter_of_ne m k k' h]

/-! ## `fmt.Errorf` on a text without verbs -/

theorem fmtLoop_of_no_verb (s : List Char) (h : '%' ∉ s) :
    ∀ fuel, s.length < fuel → fmtLoop fuel s = s := by
  induction s with
  | nil =>
    intro fuel hf
    cases fuel with
    | zero => exact absurd hf (by decide)
    | succ n => rfl
  | cons c cs ih =>
    intro fuel hf
    cases fuel with
    | zero => exact absurd hf (Nat.not_lt_zero _)
    | succ n =>
      have hc : c ≠ '%' := fun e => h (e ▸ List.mem_cons_self _ _)
      have hcs : '%' ∉ cs := fun e => h (List.mem_cons_of_mem _ e)
      rw [fmtLoop, if_neg hc, ih hcs n (Nat.lt_of_succ_lt_succ hf)]

/-- A message without `%` is its own rendering. -/
theorem fmt_Errorf_of_no_verb (format : String) (h : '%' ∉ format.data) :
    fmt_Errorf format = format := by
  unfold fmt_Errorf
  rw [fmtLoop_of_no_verb format.data h _ (Nat.lt_succ_self _)]

theorem fmt_Errorf_samples :
    fmt_Errorf "invalid entityName" = "invalid entityName" ∧
      fmt_Errorf "disk 100% full" = "disk 100%!f(MISSING)ull" ∧
      fmt_Errorf "disk at 100%." = "disk at 100%!.(MISSING)" ∧
      fmt_Errorf "%.[]" = "%!](BADINDEX)" ∧
      fmt_Errorf "%.-3d" = "%!-(MISSING)3d" ∧
      fmt_Errorf "50%% of %[1]d and %.*s %" =
        "50% of %!d(BADINDEX) and %!(BADPREC)%!s(MISSING) %!(NOVERB)" := by
  decide

/-- After a run of writes the binding of a key is that of the last write to
it, or the old one. -/
theorem GoMapOf.foldl_set_get {α V : Type} (f : α → String) (g : α → V) (l : List α)
    (m : GoMapOf V) (k : String) :
    (l.foldl (fun acc a => acc.set (f a) (g a)) m).get k =
      match (l.filter (fun a => decide (f a = k))).getLast? with
      | some a => some (g a)
      | none => m.get k := by
  induction l using List.reverseRecOn with
  | nil => rfl
  | append_singleton xs x ih =>
    rw [List.foldl_append, List.filter_append]
    show ((List.foldl (fun acc a => acc.set (f a) (g a)) m xs).set (f x) (g x)).get k = _
    rw [GoMapOf.get_of_set, ih]
    by_cases h : f x = k
    · rw [if_pos h, List.filter_cons_of_pos (by simpa using h), List.filter_nil,
        List.getLast?_concat]
    · rw [if_neg h, List.filter_cons_of_neg (by simpa using h), List.filter_nil,
        List.append_nil]

/-! ## The three loops of `ResolveEntities` -/

/-- The entities of a list whose name is not in the cache. -/
theorem lookupStep_foldl_toRegister {ID Entity : Type} (et : EntityType Entity)
    (cache : registeredEntitiesNameToID ID) (entities : List Entity)
    (st : registeredEntitiesNameToID ID × List Entity) :
    (entities.foldl (lookupStep et cache) st).2 =
      st.2 ++ entities.filter (fun e => (cache.get (et.Name e)).isNone) := by
  induction entities generalizing st with
  | nil => simp
  | cons e rest ih =>
    rw [List.foldl_cons, ih]
    unfold lookupStep
    cases hc : cache.get (et.Name e) with
    | none =>
      rw [List.filter_cons_of_pos (by rw [hc]; rfl)]
      simp
    | some v =>
      rw [List.filter_cons_of_neg (by rw [hc]; simp)]

theorem lookupStep_foldl_registered {ID Entity : Type} (et : EntityType Entity)
    (cache : registeredEntitiesNameToID ID) (entities : List Entity)
    (st : registeredEntitiesNameToID ID × List Entity) (k : String) :
    (entities.foldl (lookupStep et cache) st).1.get k =
      if (∃ e ∈ entities, et.Name e = k) ∧ (cache.get k).isSome = true then cache.get k
      else st.1.get k := by
  induction entities generalizing st with
  | nil => simp
  | cons e rest ih =>
    rw [List.foldl_cons, ih]
    by_cases hr : (∃ x ∈ rest, et.Name x = k) ∧ (cache.get k).isSome = true
    · obtain ⟨⟨x, hx, hxk⟩, hc⟩ := hr
      rw [if_pos ⟨⟨x, hx, hxk⟩, hc⟩, if_pos ⟨⟨x, List.mem_cons_of_mem _ hx, hxk⟩, hc⟩]
    · rw [if_neg hr]
      unfold lookupStep
      by_cases he : et.Name e = k
      · cases hc : cache.get (et.Name e) with
        | none =>
          have hck : cache.get k = none := he ▸ hc
          rw [if_neg (fun h => by rw [hck] at h; exact absurd h.2 (by simp))]
        | some v =>
          have hck : cache.get k = some v := he ▸ hc
          rw [if_pos ⟨⟨e, List.mem_cons_self _ _, he⟩, by rw [hck]; rfl⟩, hck]
          show (st.1.set (et.Name e) v).get k = _
          rw [GoMapOf.get_of_set, if_pos he]
      · have hne : ¬ ((∃ x ∈ e :: rest, et.Name x = k) ∧ (cache.get k).isSome = true) := by
          rintro ⟨⟨x, hx, hxk⟩, hc⟩
          rcases List.mem_cons.1 hx with rfl | hx
          · exact he hxk
          · exact hr ⟨⟨x, hx, hxk⟩, hc⟩
        rw [if_neg hne]
        cases hc : cache.get (et.Name e) with
        | none => rfl
        | some v =>
          show (st.1.set (et.Name e) v).get k = _
          rw [GoMapOf.get_of_set, if_neg he]

theorem clientErrorStep_foldl {ID Entity : Type} (et : EntityType Entity) (err : Logs.GoError)
    (l : List Entity) (st : cachedIdProvider ID Entity × UnregisteredEntities Entity) :
    (l.foldl (clientErrorStep et err) st).1.cache = st.1.cache ∧
      (l.foldl (clientErrorStep et err) st).1.client = st.1.client ∧
      (l.foldl (clientErrorStep et err) st).2 =
        st.2 ++ l.map (fun e => { Reason := "Identity client error", Err := some err, Entity := e }) := by
  induction l generalizing st with
  | nil => simp
  | cons e rest ih =>
    rw [List.foldl_cons]
    obtain ⟨h1, h2, h3⟩ := ih (clientErrorStep et err st e)
    refine ⟨h1, h2, ?_⟩
    rw [h3]
    unfold clientErrorStep
    simp only [List.map_cons, List.append_assoc, List.singleton_append]
    rfl

/-- The loop over the response: the items without `Err` are written under
their key into the cache and into the registered map, in order, and each of
the others appends one entry to the list of unregistered entities. -/
theorem responseStep_foldl {ID Entity : Type} (et : EntityType Entity)
    (nameToEntity : GoMapOf Entity) (response : List (RegisterEntityResponse ID))
    (st : cachedIdProvider ID Entity × registeredEntitiesNameToID ID ×
      UnregisteredEntities Entity) :
    (response.foldl (responseStep et nameToEntity) st).1.cache =
        (response.filter (fun r => decide (r.Err = ""))).foldl
          (fun acc r => acc.set r.Key r.ID) st.1.cache ∧
      (response.foldl (responseStep et nameToEntity) st).1.client = st.1.client ∧
      (response.foldl (responseStep et nameToEntity) st).2.1 =
        (response.filter (fun r => decide (r.Err = ""))).foldl
          (fun acc r => acc.set r.Key r.ID) st.2.1 ∧
      (response.foldl (responseStep et nameToEntity) st).2.2 =
        st.2.2 ++ (response.filter (fun r => !decide (r.Err = ""))).map
          (fun r => { Reason := "Entity error", Err := some (fmt_Errorf r.Err),
                      Entity := (nameToEntity.get r.Name).getD et.zero }) := by
  induction response generalizing st with
  | nil => simp
  | cons r rest ih =>
    rw [List.foldl_cons]
    obtain ⟨h1, h2, h3, h4⟩ := ih (responseStep et nameToEntity st r)
    rw [h1, h2, h3, h4]
    unfold responseStep
    by_cases he : r.Err = ""
    · rw [if_neg (not_not.2 he), List.filter_cons_of_pos (by simpa using he),
        List.filter_cons_of_neg (by simpa using he)]
      exact ⟨rfl, rfl, rfl, rfl⟩
    · rw [if_pos he, List.filter_cons_of_neg (by simpa using he),
        List.filter_cons_of_pos (by simpa using he)]
      refine ⟨rfl, rfl, rfl, ?_⟩
      simp only [List.map_cons, List.append_assoc, List.singleton_append]
      rfl

/-! ## `ResolveEntities` -/

/-- The entities that `ResolveEntities` passes to the register client. -/
theorem ResolveEntities_calls {ID Entity : Type} (et : EntityType Entity)
    (p : cachedIdProvider ID Entity) (agentIdn : Identity ID) (entities : List Entity) :
    (ResolveEntities et p agentIdn entities).calls =
      if (entities.filter (fun e => (p.cache.get (et.Name e)).isNone)).length = 0 then []
      else [(agentIdn.ID, entities.filter (fun e => (p.cache.get (et.Name e)).isNone))] := by
  unfold ResolveEntities
  dsimp only
  rw [lookupStep_foldl_toRegister, List.nil_append]
  by_cases h : (entities.filter (fun e => (p.cache.get (et.Name e)).isNone)).length = 0
  · rw [if_pos h, if_pos h]
  · rw [if_neg h, if_neg h]
    cases (p.client agentIdn.ID
      (entities.filter (fun e => (p.cache.get (et.Name e)).isNone))).2 <;> rfl

/-- When no requested entity is left to register, `ResolveEntities` returns
before it reaches the client. -/
theorem ResolveEntities_of_nothing_to_register {ID Entity : Type} (et : EntityType Entity)
    (p : cachedIdProvider ID Entity) (agentIdn : Identity ID) (entities : List Entity)
    (h : entities.filter (fun e => (p.cache.get (et.Name e)).isNone) = []) :
    ResolveEntities et p agentIdn entities =
      { registeredEntities := (entities.foldl (lookupStep et p.cache) ([], [])).1
        unregisteredEntities := []
        p := p
        calls := [] } := by
  unfold ResolveEntities
  dsimp only
  rw [lookupStep_foldl_toRegister, List.nil_append, if_pos (by rw [h]; rfl)]

/-- The map of registered entities after the lookup loop. -/
theorem lookup_registered {ID Entity : Type} (et : EntityType Entity)
    (cache : registeredEntitiesNameToID ID) (entities : List Entity) (k : String) :
    (entities.foldl (lookupStep et cache) ([], [])).1.get k =
      if ∃ e ∈ entities, et.Name e = k then cache.get k else none := by
  rw [lookupStep_foldl_registered]
  by_cases h1 : ∃ e ∈ entities, et.Name e = k
  · rw [if_pos h1]
    cases hc : cache.get k with
    | none => rw [if_neg (fun h => absurd h.2 (by simp))]; rfl
    | some v => rw [if_pos ⟨h1, rfl⟩]
  · rw [if_neg h1, if_neg (fun h => h1 h.1)]
    rfl

theorem Option.isNone_of_eq_none {α : Type} (o : Option α) (h : o = none) : o.isNone = true := by
  rw [h]
  rfl

/-- C21: `ResolveEntities` passes to the register client only requested
entities whose name is not in the cache. When the name of every requested
entity is in the cache, the client is not called, the registered map holds
for each requested name its cached ID and nothing else, the list of
unregistered entities is empty, and the provider with its cache is left as it
was. -/
theorem ResolveEntities_cached {ID Entity : Type} (et : EntityType Entity)
    (p : cachedIdProvider ID Entity) (agentIdn : Identity ID) (entities : List Entity) :
    (∀ call ∈ (ResolveEntities et p agentIdn entities).calls, ∀ e ∈ call.2,
        e ∈ entities ∧ p.cache.get (et.Name e) = none) ∧
      ((∀ e ∈ entities, p.cache.get (et.Name e) ≠ none) →
        (ResolveEntities et p agentIdn entities).calls = [] ∧
        (∀ e ∈ entities,
          (ResolveEntities et p agentIdn entities).registeredEntities.get (et.Name e) =
            p.cache.get (et.Name e)) ∧
        (∀ k, (¬ ∃ e ∈ entities, et.Name e = k) →
          (ResolveEntities et p agentIdn entities).registeredEntities.get k = none) ∧
        (ResolveEntities et p agentIdn entities).unregisteredEntities = [] ∧
        (ResolveEntities et p agentIdn entities).p.cache = p.cache ∧
        (ResolveEntities et p agentIdn entities).p.unregisteredEntities =
          p.unregisteredEntities) := by
  constructor
  · intro call hcall e he
    rw [ResolveEntities_calls] at hcall
    split_ifs at hcall with h
    · cases hcall
    · rw [List.mem_singleton.1 hcall] at he
      obtain ⟨h1, h2⟩ := List.mem_filter.1 he
      refine ⟨h1, ?_⟩
      cases hc : p.cache.get (et.Name e) with
      | none => rfl
      | some v => rw [hc] at h2; cases h2
  · intro hall
    have hnil : entities.filter (fun e => (p.cache.get (et.Name e)).isNone) = [] := by
      rw [List.filter_eq_nil_iff]
      intro e he hn
      cases hc : p.cache.get (et.Name e) with
      | none => exact hall e he hc
      | some v => rw [hc] at hn; cases hn
    rw [ResolveEntities_of_nothing_to_register et p agentIdn entities hnil]
    refine ⟨rfl, ?_, ?_, rfl, rfl, rfl⟩
    · intro e he
      show (entities.foldl (lookupStep et p.cache) ([], [])).1.get (et.Name e) = _
      rw [lookup_registered, if_pos ⟨e, he, rfl⟩]
    · intro k hk
      show (entities.foldl (lookupStep et p.cache) ([], [])).1.get k = _
      rw [lookup_registered, if_neg hk]

theorem ResolveEntities_cached_witness :
    (∀ e ∈ [("remote_entity_flex", "Flex")],
        (sampleProvider sampleClient).cache.get (sampleEntityType.Name e) ≠ none) ∧
      (ResolveEntities sampleEntityType (sampleProvider sampleClient) sampleIdentity
        [("remote_entity_flex", "Flex")]).calls = [] :=
  ⟨by decide,
    ((ResolveEntities_cached sampleEntityType (sampleProvider sampleClient) sampleIdentity
      [("remote_entity_flex", "Flex")]).2 (by decide)).1⟩

/-- `ResolveEntities` when the register client reports an error. -/
theorem ResolveEntities_of_client_error {ID Entity : Type} (et : EntityType Entity)
    (p : cachedIdProvider ID Entity) (agentIdn : Identity ID) (entities : List Entity)
    (err : Logs.GoError)
    (hne : (entities.filter (fun e => (p.cache.get (et.Name e)).isNone)).length ≠ 0)
    (hcl : (p.client agentIdn.ID
      (entities.filter (fun e => (p.cache.get (et.Name e)).isNone))).2 = some err) :
    ResolveEntities et p agentIdn entities =
      { registeredEntities := (entities.foldl (lookupStep et p.cache) ([], [])).1
        unregisteredEntities :=
          ((entities.filter (fun e => (p.cache.get (et.Name e)).isNone)).foldl
            (clientErrorStep et err) (p, [])).2
        p :=
          ((entities.filter (fun e => (p.cache.get (et.Name e)).isNone)).foldl
            (clientErrorStep et err) (p, [])).1
        calls := [(agentIdn.ID, entities.filter (fun e => (p.cache.get (et.Name e)).isNone))] } := by
  unfold ResolveEntities
  dsimp only
  rw [lookupStep_foldl_toRegister, List.nil_append, if_neg hne, hcl]

/-- `ResolveEntities` when the register client answers without an error. -/
theorem ResolveEntities_of_response {ID Entity : Type} (et : EntityType Entity)
    (p : cachedIdProvider ID Entity) (agentIdn : Identity ID) (entities : List Entity)
    (hne : (entities.filter (fun e => (p.cache.get (et.Name e)).isNone)).length ≠ 0)
    (hcl : (p.client agentIdn.ID
      (entities.filter (fun e => (p.cache.get (et.Name e)).isNone))).2 = none) :
    ResolveEntities et p agentIdn entities =
      { registeredEntities :=
          ((p.client agentIdn.ID
              (entities.filter (fun e => (p.cache.get (et.Name e)).isNone))).1.foldl
            (responseStep et
              ((entities.filter (fun e => (p.cache.get (et.Name e)).isNone)).foldl
                (nameStep et) []))
            (p, (entities.foldl (lookupStep et p.cache) ([], [])).1, [])).2.1
        unregisteredEntities :=
          ((p.client agentIdn.ID
              (entities.filter (fun e => (p.cache.get (et.Name e)).isNone))).1.foldl
            (responseStep et
              ((entities.filter (fun e => (p.cache.get (et.Name e)).isNone)).foldl
                (nameStep et) []))
            (p, (entities.foldl (lookupStep et p.cache) ([], [])).1, [])).2.2
        p :=
          ((p.client agentIdn.ID
              (entities.filter (fun e => (p.cache.get (et.Name e)).isNone))).1.foldl
            (responseStep et
              ((entities.filter (fun e => (p.cache.get (et.Name e)).isNone)).foldl
                (nameStep et) []))
            (p, (entities.foldl (lookupStep et p.cache) ([], [])).1, [])).1
        calls := [(agentIdn.ID, entities.filter (fun e => (p.cache.get (et.Name e)).isNone))] } := by
  unfold ResolveEntities
  dsimp only
  rw [lookupStep_foldl_toRegister, List.nil_append, if_neg hne, hcl]

theorem filter_uncached_length_ne_zero {ID Entity : Type} (et : EntityType Entity)
    (cache : registeredEntitiesNameToID ID) (entities : List Entity)
    (hun : ∃ e ∈ entities, cache.get (et.Name e) = none) :
    (entities.filter (fun e => (cache.get (et.Name e)).isNone)).length ≠ 0 := by
  obtain ⟨e, he, hc⟩ := hun
  have hmem : e ∈ entities.filter (fun e => (cache.get (et.Name e)).isNone) :=
    List.mem_filter.2 ⟨he, Option.isNone_of_eq_none _ hc⟩
  intro hl
  rw [List.length_eq_zero.1 hl] at hmem
  cases hmem

/-- C22: when at least one requested entity is not in the cache and the
register client reports an error, `ResolveEntities` returns as registered
exactly the requested names that are in the cache, each with its cached ID,
and as unregistered one entry per requested entity that is not in the cache,
in order, with reason "Identity client error", the error of the client and
the entity; the cache is left as it was, and the client has been called once
with the entities that are not in the cache. -/
theorem ResolveEntities_client_error {ID Entity : Type} (et : EntityType Entity)
    (p : cachedIdProvider ID Entity) (agentIdn : Identity ID) (entities : List Entity)
    (err : Logs.GoError)
    (hun : ∃ e ∈ entities, p.cache.get (et.Name e) = none)
    (hcl : (p.client agentIdn.ID
      (entities.filter (fun e => (p.cache.get (et.Name e)).isNone))).2 = some err) :
    (∀ k, (ResolveEntities et p agentIdn entities).registeredEntities.get k =
        if ∃ e ∈ entities, et.Name e = k then p.cache.get k else none) ∧
      (ResolveEntities et p agentIdn entities).unregisteredEntities =
        (entities.filter (fun e => (p.cache.get (et.Name e)).isNone)).map
          (fun e => { Reason := "Identity client error", Err := some err, Entity := e }) ∧
      (ResolveEntities et p agentIdn entities).p.cache = p.cache ∧
      (ResolveEntities et p agentIdn entities).calls =
        [(agentIdn.ID, entities.filter (fun e => (p.cache.get (et.Name e)).isNone))] := by
  have hne := filter_uncached_length_ne_zero et p.cache entities hun
  rw [ResolveEntities_of_client_error et p agentIdn entities err hne hcl]
  obtain ⟨h1, -, h3⟩ := clientErrorStep_foldl et err
    (entities.filter (fun e => (p.cache.get (et.Name e)).isNone)) (p, [])
  refine ⟨fun k => lookup_registered et p.cache entities k, ?_, h1, rfl⟩
  show (List.foldl (clientErrorStep et err) (p, []) _).2 = _
  rw [h3, List.nil_append]

theorem ResolveEntities_client_error_witness :
    (∃ e ∈ [("remote_entity_flex", "Flex"), ("remote_entity_nginx", "Nginx")],
        (sampleProvider sampleFailingClient).cache.get (sampleEntityType.Name e) = none) ∧
      (ResolveEntities sampleEntityType (sampleProvider sampleFailingClient) sampleIdentity
        [("remote_entity_flex", "Flex"), ("remote_entity_nginx", "Nginx")]).unregisteredEntities =
        [{ Reason := "Identity client error", Err := some "internal server error",
           Entity := ("remote_entity_nginx", "Nginx") }] :=
  ⟨by decide,
    (ResolveEntities_client_error sampleEntityType (sampleProvider sampleFailingClient)
      sampleIdentity [("remote_entity_flex", "Flex"), ("remote_entity_nginx", "Nginx")]
      "internal server error" (by decide) rfl).2.1⟩

theorem nameStep_foldl_get {Entity : Type} (et : EntityType Entity) (l : List Entity)
    (n : String) :
    ((l.foldl (nameStep et) []).get n).getD et.zero =
      ((l.filter (fun e => decide (et.Name e = n))).getLast?).getD et.zero := by
  have h := GoMapOf.foldl_set_get et.Name (fun e => e) l [] n
  rw [show List.foldl (nameStep et) [] l =
    List.foldl (fun acc a => GoMapOf.set acc (et.Name a) a) [] l from rfl, h]
  cases (l.filter (fun e => decide (et.Name e = n))).getLast? <;> rfl

/-- The binding of a key after the items without `Err` have been written. -/
theorem response_foldl_get {ID : Type} (response : List (RegisterEntityResponse ID))
    (m : registeredEntitiesNameToID ID) (k : String) :
    ((response.filter (fun r => decide (r.Err = ""))).foldl
        (fun acc r => acc.set r.Key r.ID) m).get k =
      match (response.filter
          (fun r => decide (r.Err = "") && decide (r.Key = k))).getLast? with
      | some r => some r.ID
      | none => m.get k := by
  rw [GoMapOf.foldl_set_get (fun r : RegisterEntityResponse ID => r.Key) (fun r => r.ID),
    List.filter_filter]
  have hf : (fun a : RegisterEntityResponse ID => decide (a.Key = k) && decide (a.Err = "")) =
      (fun r => decide (r.Err = "") && decide (r.Key = k)) := by
    funext a
    exact Bool.and_comm _ _
  rw [hf]
  cases (response.filter (fun r => decide (r.Err = "") && decide (r.Key = k))).getLast? <;> rfl

/-- The result of `ResolveEntities` when the register client answers without
an error: each item of the response with a non-empty `Err` appends, in order,
one unregistered entry with reason "Entity error", the error that
`fmt.Errorf` builds from the message, which is the message itself when it
holds no `%`, and as entity the last requested entity outside the cache whose
name is the `Name` of the item, or the zero entity when there is none; such an
item writes nothing to the cache or to the registered map. Every other item
is written with its ID into the cache and into the registered map under its
`Key`, a later item replacing an earlier one of the same key. Hence the key
of such an item is registered and cached after the call, and a later call
never passes an entity of that name to the client. -/
theorem ResolveEntities_response {ID Entity : Type} (et : EntityType Entity)
    (p : cachedIdProvider ID Entity) (agentIdn : Identity ID) (entities : List Entity)
    (response : List (RegisterEntityResponse ID))
    (hun : ∃ e ∈ entities, p.cache.get (et.Name e) = none)
    (hcl : p.client agentIdn.ID
      (entities.filter (fun e => (p.cache.get (et.Name e)).isNone)) = (response, none)) :
    (ResolveEntities et p agentIdn entities).unregisteredEntities =
        (response.filter (fun r => !decide (r.Err = ""))).map
          (fun r =>
            { Reason := "Entity error"
              Err := some (fmt_Errorf r.Err)
              Entity :=
                (((entities.filter (fun e => (p.cache.get (et.Name e)).isNone)).filter
                  (fun e => decide (et.Name e = r.Name))).getLast?).getD et.zero }) ∧
      (∀ msg : String, '%' ∉ msg.data → fmt_Errorf msg = msg) ∧
      (∀ k, (ResolveEntities et p agentIdn entities).p.cache.get k =
        match (response.filter
            (fun r => decide (r.Err = "") && decide (r.Key = k))).getLast? with
        | some r => some r.ID
        | none => p.cache.get k) ∧
      (∀ k, (ResolveEntities et p agentIdn entities).registeredEntities.get k =
        match (response.filter
            (fun r => decide (r.Err = "") && decide (r.Key = k))).getLast? with
        | some r => some r.ID
        | none => if ∃ e ∈ entities, et.Name e = k then p.cache.get k else none) ∧
      (∀ r ∈ response, r.Err = "" →
        (ResolveEntities et p agentIdn entities).registeredEntities.get r.Key ≠ none ∧
        (ResolveEntities et p agentIdn entities).p.cache.get r.Key ≠ none ∧
        ∀ (agentIdn2 : Identity ID) (entities2 : List Entity),
          ∀ call ∈ (ResolveEntities et (ResolveEntities et p agentIdn entities).p agentIdn2
            entities2).calls, ∀ e ∈ call.2, et.Name e ≠ r.Key) := by
  have hne := filter_uncached_length_ne_zero et p.cache entities hun
  have hcl2 : (p.client agentIdn.ID
      (entities.filter (fun e => (p.cache.get (et.Name e)).isNone))).2 = none := by
    rw [hcl]
  have hresp : (p.client agentIdn.ID
      (entities.filter (fun e => (p.cache.get (et.Name e)).isNone))).1 = response := by
    rw [hcl]
  rw [ResolveEntities_of_response et p agentIdn entities hne hcl2, hresp]
  obtain ⟨h1, -, h3, h4⟩ := responseStep_foldl et
    ((entities.filter (fun e => (p.cache.get (et.Name e)).isNone)).foldl (nameStep et) [])
    response (p, (entities.foldl (lookupStep et p.cache) ([], [])).1, [])
  dsimp only at h1 h3 h4 ⊢
  have hcache : ∀ k, (List.foldl (responseStep et
      ((entities.filter (fun e => (p.cache.get (et.Name e)).isNone)).foldl (nameStep et) []))
      (p, (entities.foldl (lookupStep et p.cache) ([], [])).1, []) response).1.cache.get k =
        match (response.filter
            (fun r => decide (r.Err = "") && decide (r.Key = k))).getLast? with
        | some r => some r.ID
        | none => p.cache.get k := by
    intro k
    rw [h1, response_foldl_get]
  have hreg : ∀ k, (List.foldl (responseStep et
      ((entities.filter (fun e => (p.cache.get (et.Name e)).isNone)).foldl (nameStep et) []))
      (p, (entities.foldl (lookupStep et p.cache) ([], [])).1, []) response).2.1.get k =
        match (response.filter
            (fun r => decide (r.Err = "") && decide (r.Key = k))).getLast? with
        | some r => some r.ID
        | none => if ∃ e ∈ entities, et.Name e = k then p.cache.get k else none := by
    intro k
    rw [h3, response_foldl_get, lookup_registered]
  have hsome : ∀ r ∈ response, r.Err = "" →
      ∃ r2, (response.filter
        (fun x => decide (x.Err = "") && decide (x.Key = r.Key))).getLast? = some r2 := by
    intro r hr he
    have hmem : r ∈ response.filter (fun x => decide (x.Err = "") && decide (x.Key = r.Key)) :=
      List.mem_filter.2 ⟨hr, by simp [he]⟩
    cases hl : (response.filter
        (fun x => decide (x.Err = "") && decide (x.Key = r.Key))).getLast? with
    | none =>
      rw [List.getLast?_eq_none_iff.1 hl] at hmem
      cases hmem
    | some r2 => exact ⟨r2, rfl⟩
  refine ⟨?_, fmt_Errorf_of_no_verb, hcache, hreg, ?_⟩
  · rw [h4, List.nil_append]
    apply List.map_congr_left
    intro r _
    rw [nameStep_foldl_get]
  · intro r hr he
    obtain ⟨r2, hr2⟩ := hsome r hr he
    have hc := hcache r.Key
    have hg := hreg r.Key
    rw [hr2] at hc hg
    refine ⟨by rw [hg]; simp, by rw [hc]; simp, ?_⟩
    intro agentIdn2 entities2 call hcall e hmem hname
    rw [ResolveEntities_calls] at hcall
    split_ifs at hcall with hz
    · cases hcall
    · rw [List.mem_singleton.1 hcall] at hmem
      have hnone := (List.mem_filter.1 hmem).2
      rw [hname, hc] at hnone
      cases hnone

theorem ResolveEntities_response_witness :
    (∃ e ∈ [("remote_entity_nginx", "Nginx"), ("remote_entity_kafka", "Kafka")],
        (sampleProvider sampleClient).cache.get (sampleEntityType.Name e) = none) ∧
      (ResolveEntities sampleEntityType (sampleProvider sampleClient) sampleIdentity
        [("remote_entity_nginx", "Nginx"), ("remote_entity_kafka", "Kafka")]).unregisteredEntities =
        [{ Reason := "Entity error", Err := some "invalid entityName",
           Entity := ("remote_entity_kafka", "Kafka") }] :=
  ⟨by decide,
    (ResolveEntities_response sampleEntityType (sampleProvider sampleClient) sampleIdentity
      [("remote_entity_nginx", "Nginx"), ("remote_entity_kafka", "Kafka")] _
      (by decide) rfl).1.trans (by decide)⟩

/-- C23 (evaluation at the failing input): `remote_entity_nginx` is requested
and is not in the cache, and the client registers it without an error under
the key `remote_entity_nginx_Key`. The ID is written into the registered map
and into the cache under the key: the requested name is not in the
registered map, it is not in the cache after the call, and a second call
passes the entity to the client again. The lookup reads the cache by name,
and for an item with the same key and name and a non-empty `Err` the error
branch finds the requested entity by the name and files the entry under the
name, not under the key. -/
theorem ResolveEntities_success_stored_under_key :
    (sampleKeyClient sampleIdentity.ID [("remote_entity_nginx", "Nginx")]).2 = none ∧
      (ResolveEntities sampleEntityType (sampleProvider sampleKeyClient) sampleIdentity
        [("remote_entity_nginx", "Nginx")]).registeredEntities =
          [("remote_entity_nginx_Key", 1234)] ∧
      (ResolveEntities sampleEntityType (sampleProvider sampleKeyClient) sampleIdentity
        [("remote_entity_nginx", "Nginx")]).unregisteredEntities = [] ∧
      (ResolveEntities sampleEntityType (sampleProvider sampleKeyClient) sampleIdentity
        [("remote_entity_nginx", "Nginx")]).registeredEntities.get "remote_entity_nginx" = none ∧
      (ResolveEntities sampleEntityType (sampleProvider sampleKeyClient) sampleIdentity
        [("remote_entity_nginx", "Nginx")]).p.cache.get "remote_entity_nginx" = none ∧
      (ResolveEntities sampleEntityType (sampleProvider sampleKeyClient) sampleIdentity
        [("remote_entity_nginx", "Nginx")]).p.cache.get "remote_entity_nginx_Key" = some 1234 ∧
      (ResolveEntities sampleEntityType
        (ResolveEntities sampleEntityType (sampleProvider sampleKeyClient) sampleIdentity
          [("remote_entity_nginx", "Nginx")]).p sampleIdentity
        [("remote_entity_nginx", "Nginx")]).calls = [(13, [("remote_entity_nginx", "Nginx")])] ∧
      (ResolveEntities sampleEntityType (sampleProvider sampleKeyErrorClient) sampleIdentity
        [("remote_entity_nginx", "Nginx")]).unregisteredEntities =
          [{ Reason := "Entity error", Err := some "invalid entityName",
             Entity := ("remote_entity_nginx", "Nginx") }] ∧
      (ResolveEntities sampleEntityType (sampleProvider sampleKeyErrorClient) sampleIdentity
        [("remote_entity_nginx", "Nginx")]).p.unregisteredEntities =
          [("remote_entity_nginx",
            { Reason := "Entity error", Err := some "invalid entityName",
              Entity := ("remote_entity_nginx", "Nginx") })] := by
  decide

end Dm
